import Mathlib

/-!
# Packet reader: classic PCAP and PCAPNG decoders

A shallow embedding of the Go package `pcapreader` (files `traffic.go`,
`pcap.go`, `pcapng.go`).

Conventions of the embedding
* a byte is a `Fin 256`; a byte slice is a `List Byte`;
* the byte source (`io.ReadCloser`) is the list of bytes that have not been
  read yet; reading from it never fails except by running out of bytes, and
  `Close` leaves the unread bytes alone;
* `uint16`, `uint32`, `uint64` are natural numbers reduced modulo `2^16`,
  `2^32`, `2^64` wherever the Go arithmetic can wrap; `int` and `int64` are
  integers (`int` is 64 bits wide);
* a pointer receiver that is mutated becomes explicit state passing: a method
  returns the new decoder next to its Go results.
-/

namespace Pcapreader

/-! ## Bytes, byte orders, errors -/

/-- One octet. -/
abbrev Byte := Fin 256

/-- The error values the package returns or forwards (`io.EOF`,
`io.ErrUnexpectedEOF`, and the package level `Err...` variables). -/
inductive Err where
  | EOF
  | ErrUnexpectedEOF
  | ErrMalformedPcap
  | ErrPcapVersionNotSupported
  | ErrEmptyPcap
  | ErrTrafficSourceAlreadyStopped
  deriving DecidableEq, Repr

/-- The two implementations of `binary.ByteOrder`. -/
inductive ByteOrder where
  | LittleEndian
  | BigEndian
  deriving DecidableEq, Repr

/-- Value of a byte string read with the least significant byte first. -/
def leNat : List Byte → Nat
  | [] => 0
  | b :: bs => b.val + 256 * leNat bs

/-- Go slice expression `b[i:j]`. -/
def slice (b : List Byte) (i j : Nat) : List Byte := (b.drop i).take (j - i)

/-- Numeric value of the first `n` bytes of `b` in the given byte order. -/
def ByteOrder.uintN (bo : ByteOrder) (n : Nat) (b : List Byte) : Nat :=
  match bo with
  | .LittleEndian => leNat (b.take n)
  | .BigEndian => leNat (b.take n).reverse

/-- The method `ByteOrder.Uint16`. -/
def ByteOrder.Uint16 (bo : ByteOrder) (b : List Byte) : Nat := bo.uintN 2 b

/-- The method `ByteOrder.Uint32`. -/
def ByteOrder.Uint32 (bo : ByteOrder) (b : List Byte) : Nat := bo.uintN 4 b

/-- The method `ByteOrder.Uint64`. -/
def ByteOrder.Uint64 (bo : ByteOrder) (b : List Byte) : Nat := bo.uintN 8 b

/-- The `n` low bytes of `v`, least significant first. -/
def leBytes : Nat → Nat → List Byte
  | 0, _ => []
  | n + 1, v => ⟨v % 256, Nat.mod_lt _ (by decide)⟩ :: leBytes n (v / 256)

/-- Writes `v` as `n` bytes in the given byte order (`PutUint16`,
`PutUint32`, `PutUint64` for `n = 2, 4, 8`). -/
def ByteOrder.put (bo : ByteOrder) (n v : Nat) : List Byte :=
  match bo with
  | .LittleEndian => leBytes n v
  | .BigEndian => (leBytes n v).reverse

/-- Conversion `int64(x)` of a `uint64` value. -/
def toInt64 (x : Nat) : Int :=
  if x % 2 ^ 64 < 2 ^ 63 then ((x % 2 ^ 64 : Nat) : Int) else ((x % 2 ^ 64 : Nat) : Int) - 2 ^ 64

/-- Conversion `uint64(x)` of an `int64` value. -/
def toUint64 (x : Int) : Nat := (x % 2 ^ 64).toNat

/-- Result of an `int64` operation, wrapped to 64 bits. -/
def wrapInt64 (x : Int) : Int := toInt64 (toUint64 x)

/-! ## The byte source -/

/-- What `io.ReadFull` hands back: the byte count, the error, the buffer
afterwards and the bytes left in the source. -/
structure ReadResult where
  n : Nat
  err : Option Err
  buf : List Byte
  rest : List Byte
  deriving DecidableEq, Repr

/-- The call `io.ReadFull(r, buf)` on a source holding the bytes `r`: an empty
buffer reads nothing; an exhausted source gives `io.EOF`; a source shorter
than the buffer is drained and gives `io.ErrUnexpectedEOF`. -/
def ioReadFull (r : List Byte) (buf : List Byte) : ReadResult :=
  if buf.length = 0 then ⟨0, none, buf, r⟩
  else if r.length = 0 then ⟨0, some .EOF, buf, r⟩
  else if r.length < buf.length then
    ⟨r.length, some .ErrUnexpectedEOF, r ++ buf.drop r.length, []⟩
  else ⟨buf.length, none, r.take buf.length, r.drop buf.length⟩

/-- What `io.CopyN` hands back: the number of bytes written, the error, the
bytes written and the bytes left in the source. -/
structure CopyResult where
  n : Nat
  err : Option Err
  written : List Byte
  rest : List Byte
  deriving DecidableEq, Repr

/-- The call `io.CopyN(dst, r, amount)`: a non-positive amount copies nothing
and reports no error; a source shorter than the amount is drained and gives
`io.EOF`. -/
def ioCopyN (r : List Byte) (amount : Int) : CopyResult :=
  if amount ≤ 0 then ⟨0, none, [], r⟩
  else if (r.length : Int) < amount then ⟨r.length, some .EOF, r, []⟩
  else ⟨amount.toNat, none, r.take amount.toNat, r.drop amount.toNat⟩

/-- The call `binary.Read(r, order, data)` for a byte slice `data`: the bytes
are read into a temporary of the same length and copied over `data` only
when the read was complete. Returns the error, `data` afterwards and the
bytes left in the source. -/
def binaryRead (r : List Byte) (data : List Byte) : Option Err × List Byte × List Byte :=
  let res := ioReadFull r (List.replicate data.length 0)
  match res.err with
  | some e => (some e, data, res.rest)
  | none => (none, res.buf, res.rest)

/-! ## traffic.go -/

/-- Location attached to a `time.Time`: `UTC` (a nil location) or `Local`. -/
inductive Location where
  | UTC
  | Local
  deriving DecidableEq, Repr

/-- A `time.Time`, seen through `Unix()` (seconds since the epoch, an
`int64`), `Nanosecond()` and its location. -/
structure Time where
  sec : Int
  nsec : Int
  loc : Location
  deriving DecidableEq, Repr

/-- The zero `time.Time`: January 1, year 1, 00:00:00 UTC. -/
def Time.zero : Time := ⟨-62135596800, 0, .UTC⟩

/-- The function `time.Unix(sec, nsec)`: nanoseconds outside `[0, 1e9)` are
carried into the seconds. -/
def timeUnix (sec nsec : Int) : Time :=
  if nsec < 0 ∨ nsec ≥ 1000000000 then
    let n := Int.tdiv nsec 1000000000
    let sec1 := wrapInt64 (sec + n)
    let nsec1 := nsec - n * 1000000000
    if nsec1 < 0 then ⟨wrapInt64 (sec1 - 1), nsec1 + 1000000000, .Local⟩
    else ⟨sec1, nsec1, .Local⟩
  else ⟨sec, nsec, .Local⟩

/-- The method `Time.UTC`. -/
def Time.UTC (t : Time) : Time := ⟨t.sec, t.nsec, .UTC⟩

/-- The struct `PacketInfo`. -/
structure PacketInfo where
  CaptureTime : Time
  Size : Nat
  deriving DecidableEq, Repr

/-- What a call of `Traffic.Next` returns: `(info, packet, nil)` or
`(nil, nil, err)`. -/
inductive NextResult where
  | packet (info : PacketInfo) (data : List Byte)
  | fail (err : Err)
  deriving DecidableEq, Repr

/-! ## pcap.go -/

/-- Constant `magicMicroseconds`. -/
def magicMicroseconds : Nat := 0xA1B2C3D4
/-- Constant `magicNanoseconds`. -/
def magicNanoseconds : Nat := 0xA1B23C4D
/-- Constant `magicMicrosecondsBigendian`. -/
def magicMicrosecondsBigendian : Nat := 0xD4C3B2A1
/-- Constant `magicNanosecondsBigendian`. -/
def magicNanosecondsBigendian : Nat := 0x4D3CB2A1

/-- The function `checkMagic`: byte order and nanosecond factor selected by
the first four header bytes, always read little-endian. -/
def checkMagic (header : List Byte) : Except Err (ByteOrder × Nat) :=
  let magic := ByteOrder.LittleEndian.Uint32 (slice header 0 4)
  if magic = magicNanoseconds then .ok (.LittleEndian, 1)
  else if magic = magicNanosecondsBigendian then .ok (.BigEndian, 1)
  else if magic = magicMicroseconds then .ok (.LittleEndian, 1000)
  else if magic = magicMicrosecondsBigendian then .ok (.BigEndian, 1000)
  else .error .ErrMalformedPcap

/-- The struct `pcap`. -/
structure pcap where
  dead : Bool
  reader : List Byte
  byteOrder : ByteOrder
  snaplen : Nat
  llt : Nat
  nanoSecsFactor : Nat
  packetHeader : List Byte
  packetData : List Byte
  deriving DecidableEq, Repr

/-- The method `pcap.timeStampSecs`. -/
def pcap.timeStampSecs (p : pcap) : Nat := p.byteOrder.Uint32 (slice p.packetHeader 0 4)

/-- The method `pcap.timeStampMSecs`. -/
def pcap.timeStampMSecs (p : pcap) : Nat := p.byteOrder.Uint32 (slice p.packetHeader 4 8)

/-- The method `pcap.packetSavedSize`. -/
def pcap.packetSavedSize (p : pcap) : Nat := p.byteOrder.Uint32 (slice p.packetHeader 8 12)

/-- The method `pcap.packetActualSize`. -/
def pcap.packetActualSize (p : pcap) : Nat := p.byteOrder.Uint32 (slice p.packetHeader 12 16)

/-- The method `pcap.LinkLayerType`. -/
def pcap.LinkLayerType (p : pcap) : Nat := p.llt

/-- The method `pcap.Stop`: closes the source unless already dead, then
marks the decoder dead. -/
def pcap.Stop (p : pcap) : pcap := { p with dead := true }

/-- The method `pcap.Next`. The `uint32` product of the sub-second field and
the nanosecond factor wraps modulo `2^32`. -/
def pcap.Next (p : pcap) : NextResult × pcap :=
  if p.dead then (.fail .ErrTrafficSourceAlreadyStopped, p)
  else
    let rd := ioReadFull p.reader p.packetHeader
    let p1 : pcap := { p with reader := rd.rest, packetHeader := rd.buf }
    match rd.err with
    | some .EOF => (.fail .EOF, p1.Stop)
    | some .ErrUnexpectedEOF => (.fail .ErrMalformedPcap, p1.Stop)
    | some e => (.fail e, p1.Stop)
    | none =>
      let savedSize := p1.packetSavedSize
      if savedSize > p1.snaplen then (.fail .ErrMalformedPcap, p1.Stop)
      else
        let br := binaryRead p1.reader (slice p1.packetData 0 savedSize)
        let p2 : pcap :=
          { p1 with reader := br.2.2, packetData := br.2.1 ++ p1.packetData.drop savedSize }
        match br.1 with
        | some .EOF =>
          if savedSize = 0 then (.fail .EOF, p2.Stop) else (.fail .ErrMalformedPcap, p2.Stop)
        | some .ErrUnexpectedEOF => (.fail .ErrMalformedPcap, p2.Stop)
        | some e => (.fail e, p2.Stop)
        | none =>
          (.packet
            ⟨(timeUnix (p2.timeStampSecs : Int)
                (((p2.timeStampMSecs * p2.nanoSecsFactor) % 2 ^ 32 : Nat) : Int)).UTC,
              p2.packetActualSize⟩
            (slice p2.packetData 0 savedSize), p2)

/-- The part of `readPcap` that follows the first error test: the length
test, the `switch err`, the magic, the version and the construction. -/
def readPcapRest (rd : ReadResult) : Except Err pcap :=
  let header := rd.buf
  if rd.n ≠ header.length then .error .ErrMalformedPcap
  else
    match rd.err with
    | some .EOF => .error .ErrEmptyPcap
    | some .ErrUnexpectedEOF => .error .ErrMalformedPcap
    | some e => .error e
    | none =>
      match checkMagic header with
      | .error e => .error e
      | .ok (byteOrder, nanoSecsFactor) =>
        let major := byteOrder.Uint16 (slice header 4 6)
        let minor := byteOrder.Uint16 (slice header 6 8)
        if major ≠ 2 ∨ minor ≠ 4 then .error .ErrPcapVersionNotSupported
        else
          let snaplen := byteOrder.Uint32 (slice header 16 20)
          .ok
            { dead := false
              reader := rd.rest
              nanoSecsFactor := nanoSecsFactor
              byteOrder := byteOrder
              snaplen := snaplen
              llt := byteOrder.Uint32 (slice header 20 24)
              packetHeader := List.replicate 16 0
              packetData := List.replicate snaplen 0 }

/-- The function `readPcap`: a 24-byte header is read; an error other than
`io.EOF` is returned as it is (`err != nil && err != io.EOF`), everything
else goes on to the length test. -/
def readPcap (reader : List Byte) : Except Err pcap :=
  let rd := ioReadFull reader (List.replicate 24 0)
  match rd.err with
  | some e => if e ≠ .EOF then .error e else readPcapRest rd
  | none => readPcapRest rd

/-! ## crypto/md5 -/

/-- The sine table of MD5 (RFC 1321). -/
def md5K : List Nat :=
  [0xd76aa478, 0xe8c7b756, 0x242070db, 0xc1bdceee, 0xf57c0faf, 0x4787c62a, 0xa8304613, 0xfd469501,
   0x698098d8, 0x8b44f7af, 0xffff5bb1, 0x895cd7be, 0x6b901122, 0xfd987193, 0xa679438e, 0x49b40821,
   0xf61e2562, 0xc040b340, 0x265e5a51, 0xe9b6c7aa, 0xd62f105d, 0x02441453, 0xd8a1e681, 0xe7d3fbc8,
   0x21e1cde6, 0xc33707d6, 0xf4d50d87, 0x455a14ed, 0xa9e3e905, 0xfcefa3f8, 0x676f02d9, 0x8d2a4c8a,
   0xfffa3942, 0x8771f681, 0x6d9d6122, 0xfde5380c, 0xa4beea44, 0x4bdecfa9, 0xf6bb4b60, 0xbebfbc70,
   0x289b7ec6, 0xeaa127fa, 0xd4ef3085, 0x04881d05, 0xd9d4d039, 0xe6db99e5, 0x1fa27cf8, 0xc4ac5665,
   0xf4292244, 0x432aff97, 0xab9423a7, 0xfc93a039, 0x655b59c3, 0x8f0ccc92, 0xffeff47d, 0x85845dd1,
   0x6fa87e4f, 0xfe2ce6e0, 0xa3014314, 0x4e0811a1, 0xf7537e82, 0xbd3af235, 0x2ad7d2bb, 0xeb86d391]

/-- The per-round rotation amounts of MD5. -/
def md5S : List Nat :=
  [7, 12, 17, 22, 7, 12, 17, 22, 7, 12, 17, 22, 7, 12, 17, 22,
   5, 9, 14, 20, 5, 9, 14, 20, 5, 9, 14, 20, 5, 9, 14, 20,
   4, 11, 16, 23, 4, 11, 16, 23, 4, 11, 16, 23, 4, 11, 16, 23,
   6, 10, 15, 21, 6, 10, 15, 21, 6, 10, 15, 21, 6, 10, 15, 21]

/-- Rotation of a 32-bit word to the left. -/
def rotl32 (x n : Nat) : Nat := ((x <<< n) ||| (x >>> (32 - n))) % 2 ^ 32

/-- One of the 64 steps of the MD5 compression function on the words `M`. -/
def md5Step (M : List Nat) (st : Nat × Nat × Nat × Nat) (i : Nat) : Nat × Nat × Nat × Nat :=
  let a := st.1
  let b := st.2.1
  let c := st.2.2.1
  let d := st.2.2.2
  let ones := 0xFFFFFFFF
  let f :=
    if i < 16 then (b &&& c) ||| ((b ^^^ ones) &&& d)
    else if i < 32 then (d &&& b) ||| ((d ^^^ ones) &&& c)
    else if i < 48 then b ^^^ c ^^^ d
    else c ^^^ (b ||| (d ^^^ ones))
  let g :=
    if i < 16 then i
    else if i < 32 then (5 * i + 1) % 16
    else if i < 48 then (3 * i + 5) % 16
    else (7 * i) % 16
  let f2 := (f + a + md5K.getD i 0 + M.getD g 0) % 2 ^ 32
  (d, (b + rotl32 f2 (md5S.getD i 0)) % 2 ^ 32, b, c)

/-- The MD5 compression function on one 64-byte chunk. -/
def md5Block (st : Nat × Nat × Nat × Nat) (chunk : List Byte) : Nat × Nat × Nat × Nat :=
  let M := (List.range 16).map (fun j => leNat (slice chunk (4 * j) (4 * j + 4)))
  let r := (List.range 64).foldl (md5Step M) st
  ((st.1 + r.1) % 2 ^ 32, (st.2.1 + r.2.1) % 2 ^ 32, (st.2.2.1 + r.2.2.1) % 2 ^ 32,
    (st.2.2.2 + r.2.2.2) % 2 ^ 32)

/-- Runs the compression function over the first `n` 64-byte chunks of `msg`. -/
def md5Chunks : Nat → Nat × Nat × Nat × Nat → List Byte → Nat × Nat × Nat × Nat
  | 0, st, _ => st
  | n + 1, st, msg => md5Chunks n (md5Block st (msg.take 64)) (msg.drop 64)

/-- The function `md5.Sum`: the 16-byte MD5 digest of `msg`. -/
def md5Sum (msg : List Byte) : List Byte :=
  let padded := msg ++ [0x80] ++ List.replicate ((119 - msg.length % 64) % 64) 0
    ++ leBytes 8 (8 * msg.length)
  let r := md5Chunks (padded.length / 64) (0x67452301, 0xefcdab89, 0x98badcfe, 0x10325476) padded
  leBytes 4 r.1 ++ leBytes 4 r.2.1 ++ leBytes 4 r.2.2.1 ++ leBytes 4 r.2.2.2

/-! ## pcapng.go -/

/-- Ways a run of the decoder stops without returning: the Go runtime panics
the code can raise, and `fuelExhausted`, which is not a Go outcome but marks
a loop of the embedding that ran out of its iteration bound (`readTo_fuel`
and `pcapng_Next_fuel` show that this never happens). -/
inductive Abort where
  | divideByZero
  | sliceBounds
  | indexOutOfRange
  | makeNegativeLen
  | nilDereference
  | fuelExhausted
  deriving DecidableEq, Repr

/-- Constant `ngByteOrderMagic`. -/
def ngByteOrderMagic : Nat := 0x1A2B3C4D
/-- Constant `ngUnsetIfId`. -/
def ngUnsetIfId : Nat := 0xFFFFFFFF
/-- Constant `ngSHB`. -/
def ngSHB : Nat := 0x0A0D0D0A
/-- Constant `ngIDB`. -/
def ngIDB : Nat := 0x00000001
/-- Constant `ngSPB`. -/
def ngSPB : Nat := 0x00000003
/-- Constant `ngEPB`. -/
def ngEPB : Nat := 0x00000006

/-- The named values of type `ngReaderState`. -/
inductive ngReaderState where
  | ngRSDone
  | ngRSIgnoreBlock
  | ngRSIgnoreSection
  | ngRSBlockType
  | ngRSIDB
  | ngRSSHB
  | ngRSSPB
  | ngRSEPB
  deriving DecidableEq, Repr

/-- The `uint` behind a reader state: `1 << iota`. -/
def ngReaderState.bits : ngReaderState → Nat
  | .ngRSDone => 1
  | .ngRSIgnoreBlock => 2
  | .ngRSIgnoreSection => 4
  | .ngRSBlockType => 8
  | .ngRSIDB => 16
  | .ngRSSHB => 32
  | .ngRSSPB => 64
  | .ngRSEPB => 128

/-- Constant `ngRSData = ngRSSPB | ngRSEPB`. -/
def ngRSData : Nat := ngReaderState.ngRSSPB.bits ||| ngReaderState.ngRSEPB.bits

/-- The mask `^ngRSData` on a 64-bit `uint`. -/
def ngRSNotData : Nat := (2 ^ 64 - 1) ^^^ ngRSData

/-- The struct `pcapng`. The interface value `byteOrder` is nil until a
Section Header Block has set it. -/
structure pcapng where
  dead : Bool
  reader : List Byte
  readState : ngReaderState
  byteOrder : Option ByteOrder
  sectionLen : Nat
  sectionOffset : Nat
  ifCounter : Nat
  ifNameHash : Nat
  linkLayerType : Nat
  ifId : Nat
  snaplen : Nat
  secondMask : Nat
  timeZone : Int
  timeOffset : Nat
  tsScaleUp : Nat
  tsScaleDown : Nat
  packetInfo : PacketInfo
  packetDataRaw : List Byte
  deriving DecidableEq, Repr

/-- What a block reader returns, `(ngReaderState, error)`, next to the
decoder it has mutated; or the panic it raised. -/
abbrev ReaderResult := Except Abort (pcapng × ngReaderState × Option Err)

/-- Destination of `writeNInto`: `io.Discard` or `&p.packetDataRaw`. -/
inductive Writer where
  | Discard
  | packetDataRaw
  deriving DecidableEq, Repr

/-- The method `pcapng.writeNInto`. -/
def pcapng.writeNInto (p : pcapng) (dst : Writer) (amount : Int) : pcapng × Option Err :=
  let c := ioCopyN p.reader amount
  let p1 : pcapng := { p with reader := c.rest, sectionOffset := (p.sectionOffset + c.n) % 2 ^ 64 }
  match dst with
  | .Discard => (p1, c.err)
  | .packetDataRaw => ({ p1 with packetDataRaw := p1.packetDataRaw ++ c.written }, c.err)

/-- The method `pcapng.readFull`: returns the decoder, the buffer and the
error. -/
def pcapng.readFull (p : pcapng) (buff : List Byte) : pcapng × List Byte × Option Err :=
  let rd := ioReadFull p.reader buff
  ({ p with reader := rd.rest, sectionOffset := (p.sectionOffset + rd.n) % 2 ^ 64 }, rd.buf, rd.err)

/-- A method call on `p.byteOrder`: a nil interface value panics. -/
def pcapng.order (p : pcapng) : Except Abort ByteOrder :=
  match p.byteOrder with
  | some bo => .ok bo
  | none => .error .nilDereference

/-- The test `err == io.EOF || err == io.ErrUnexpectedEOF`. -/
def isEOF (err : Option Err) : Bool := err = some .EOF || err = some .ErrUnexpectedEOF

/-- The function `pcapngBlockTypeReader`. -/
def pcapngBlockTypeReader (p : pcapng) : ReaderResult :=
  let r := p.readFull (List.replicate 4 0)
  let p := r.1
  let buff := r.2.1
  match r.2.2 with
  | some .EOF => .ok (p, .ngRSDone, some .EOF)
  | some .ErrUnexpectedEOF => .ok (p, .ngRSDone, some .ErrMalformedPcap)
  | _ => do
    let bo ← p.order
    let blockType := bo.Uint32 buff
    if blockType = ngSHB then .ok (p, .ngRSSHB, none)
    else if blockType = ngIDB then .ok (p, .ngRSIDB, none)
    else if blockType = ngSPB then .ok (p, .ngRSSPB, none)
    else if blockType = ngEPB then .ok (p, .ngRSEPB, none)
    else .ok (p, .ngRSIgnoreBlock, none)

/-- The function `ngIgnoreBlockReader`. The total length is taken with
`Uint16` from the four-byte buffer. -/
def ngIgnoreBlockReader (p : pcapng) : ReaderResult :=
  let r := p.readFull (List.replicate 4 0)
  let p := r.1
  let buff := r.2.1
  if isEOF r.2.2 then .ok (p, .ngRSDone, some .ErrMalformedPcap)
  else do
    let bo ← p.order
    let totalLength := bo.Uint16 buff
    let w := p.writeNInto .Discard ((totalLength : Int) - 8)
    if isEOF w.2 then .ok (w.1, .ngRSDone, some .ErrMalformedPcap)
    else .ok (w.1, .ngRSBlockType, none)

/-- The function `ngIgnoreSectionReader`: copies straight from `p.reader`,
the section offset is not advanced. -/
def ngIgnoreSectionReader (p : pcapng) : ReaderResult :=
  let c := ioCopyN p.reader (toInt64 ((p.sectionLen + 2 ^ 64 - p.sectionOffset) % 2 ^ 64))
  let p1 : pcapng := { p with reader := c.rest }
  if isEOF c.err then .ok (p1, .ngRSDone, some .ErrMalformedPcap)
  else .ok (p1, .ngRSBlockType, none)

/-- The function `ngSHBReader`. -/
def ngSHBReader (p : pcapng) : ReaderResult :=
  let p : pcapng :=
    { p with ifCounter := 0, ifId := ngUnsetIfId, snaplen := 0, secondMask := 0, timeZone := 0,
             timeOffset := 0, sectionOffset := 0 }
  let r := p.readFull (List.replicate 20 0)
  let p := r.1
  let buff := r.2.1
  if isEOF r.2.2 then .ok (p, .ngRSDone, some .ErrMalformedPcap)
  else
    let byteOrder : Option ByteOrder :=
      if ByteOrder.BigEndian.Uint32 (slice buff 4 8) = ngByteOrderMagic then some .BigEndian
      else if ByteOrder.LittleEndian.Uint32 (slice buff 4 8) = ngByteOrderMagic then
        some .LittleEndian
      else none
    match byteOrder with
    | none => .ok (p, .ngRSDone, some .ErrMalformedPcap)
    | some bo =>
      let p : pcapng := { p with byteOrder := some bo }
      let blockLen := bo.Uint32 (slice buff 0 4)
      let p : pcapng := { p with sectionLen := bo.Uint64 (slice buff 12 20) }
      let discardAmount : Int := (blockLen : Int) - (((buff.length : Nat) : Int) + 4)
      let major := bo.Uint16 (slice buff 8 10)
      let minor := bo.Uint16 (slice buff 10 12)
      let discardAmount : Int :=
        if major ≠ 1 ∨ (minor ≠ 0 ∧ minor ≠ 2) then
          if p.sectionLen ≠ 0xFFFFFFFFFFFFFFFF then wrapInt64 (discardAmount + toInt64 p.sectionLen)
          else discardAmount
        else discardAmount
      let w := p.writeNInto .Discard discardAmount
      .ok (w.1, .ngRSBlockType, none)

/-- The local variables of `ngIDBReader` that the option loop fills in. -/
structure IfVars where
  nameHash : Nat
  timeResolution : Nat
  timeZone : Nat
  timeOffset : Nat
  deriving DecidableEq, Repr

/-- How the option loop of `ngIDBReader` ends: it falls through to the copy
into the struct, or jumps to the label `ignoreInterface`. -/
inductive OptionScan where
  | adopt (v : IfVars)
  | ignoreInterface
  deriving DecidableEq, Repr

/-- The loop `optionLoop` of `ngIDBReader`, started at `optionOffset`; `fuel`
bounds the number of iterations. -/
def optionLoop (bo : ByteOrder) (ifNameHash : Nat) (options : List Byte) :
    Nat → Nat → IfVars → Except Abort OptionScan
  | 0, _, _ => .error .fuelExhausted
  | fuel + 1, optionOffset, v =>
    if optionOffset < options.length then
      if optionOffset + 2 > options.length then .error .sliceBounds
      else
        let optionCode := bo.Uint16 (slice options optionOffset (optionOffset + 2))
        if optionOffset + 4 > options.length then .error .sliceBounds
        else
          let optionValueLen := bo.Uint16 (slice options (optionOffset + 2) (optionOffset + 4))
          if optionOffset + 4 + optionValueLen > options.length then .error .sliceBounds
          else
            let optionValue := slice options (optionOffset + 4) (optionOffset + 4 + optionValueLen)
            let next : Nat :=
              (if optionValueLen % 4 ≠ 0 then optionOffset + (4 - optionValueLen % 4)
                else optionOffset) + (4 + optionValueLen)
            if optionCode = 0 then .ok (.adopt v)
            else if optionCode = 2 then
              let nameHash := ByteOrder.BigEndian.Uint16 (md5Sum optionValue)
              if ifNameHash ≠ 0 ∧ ifNameHash ≠ nameHash then .ok .ignoreInterface
              else optionLoop bo ifNameHash options fuel next { v with nameHash := nameHash }
            else if optionCode = 9 then
              match optionValue with
              | [] => .error .indexOutOfRange
              | b :: _ =>
                optionLoop bo ifNameHash options fuel next { v with timeResolution := b.val }
            else if optionCode = 10 then
              if optionValue.length < 4 then .error .indexOutOfRange
              else
                optionLoop bo ifNameHash options fuel next
                  { v with timeZone := bo.Uint32 optionValue }
            else if optionCode = 14 then
              if optionValue.length < 8 then .error .indexOutOfRange
              else
                optionLoop bo ifNameHash options fuel next
                  { v with timeOffset := bo.Uint64 optionValue }
            else optionLoop bo ifNameHash options fuel next v
    else .ok (.adopt v)

/-- Conversion `int32(x)` of a `uint32` value. -/
def toInt32 (x : Nat) : Int :=
  if x % 2 ^ 32 < 2 ^ 31 then ((x % 2 ^ 32 : Nat) : Int) else ((x % 2 ^ 32 : Nat) : Int) - 2 ^ 32

/-- The loop `for i := uint8(0); i < timeResolution; i++ { p.secondMask *= 10 }`
started from `m`. -/
def timesTen : Nat → Nat → Nat
  | 0, m => m
  | n + 1, m => timesTen n ((m * 10) % 2 ^ 64)

/-- The tail of `ngIDBReader` from the label `ignoreInterface` on. -/
def ngIDBReaderTail (p : pcapng) : ReaderResult :=
  let w := p.writeNInto .Discard 4
  if isEOF w.2 then .ok (w.1, .ngRSDone, some .ErrMalformedPcap)
  else .ok ({ w.1 with ifCounter := (w.1.ifCounter + 1) % 2 ^ 32 }, .ngRSBlockType, none)

/-- The part of `ngIDBReader` between the option loop and the label
`ignoreInterface`: the copy into the struct and the timestamp scaling. -/
def ngIDBReaderAdopt (p : pcapng) (linkLayerType snaplen : Nat) (v : IfVars) : ReaderResult :=
  let p : pcapng :=
    { p with ifId := p.ifCounter, ifNameHash := v.nameHash, snaplen := snaplen,
             linkLayerType := linkLayerType, timeZone := toInt32 v.timeZone,
             timeOffset := v.timeOffset }
  let p : pcapng :=
    if v.timeResolution >>> 7 = 1 then { p with secondMask := (1 <<< v.timeResolution) % 2 ^ 64 }
    else { p with secondMask := timesTen v.timeResolution 1 }
  let p : pcapng := { p with tsScaleDown := 1, tsScaleUp := 1 }
  if p.secondMask < 1000000000 then
    if p.secondMask = 0 then .error .divideByZero
    else ngIDBReaderTail { p with tsScaleUp := 1000000000 / p.secondMask }
  else ngIDBReaderTail { p with tsScaleDown := p.secondMask / 1000000000 }

/-- The function `ngIDBReader`. -/
def ngIDBReader (p : pcapng) : ReaderResult :=
  let r := p.readFull (List.replicate 12 0)
  let p := r.1
  let headerStart := r.2.1
  if isEOF r.2.2 then .ok (p, .ngRSDone, some .ErrMalformedPcap)
  else do
    let bo ← p.order
    let blockLength := bo.Uint32 (slice headerStart 0 4)
    let linkLayerType := bo.Uint16 (slice headerStart 4 6)
    let snaplen := bo.Uint32 (slice headerStart 8 12)
    if (blockLength : Int) - (((headerStart.length : Nat) : Int) + 8) < 0 then
      .error .makeNegativeLen
    else
      let r := p.readFull (List.replicate (blockLength - (headerStart.length + 8)) 0)
      let p := r.1
      let options := r.2.1
      if isEOF r.2.2 then .ok (p, .ngRSDone, some .ErrMalformedPcap)
      else if p.linkLayerType ≠ 0 ∧ p.linkLayerType ≠ linkLayerType then ngIDBReaderTail p
      else
        match optionLoop bo p.ifNameHash options (options.length + 1) 0 ⟨0, 6, 0, 0⟩ with
        | .error a => .error a
        | .ok .ignoreInterface => ngIDBReaderTail p
        | .ok (.adopt v) => ngIDBReaderAdopt p linkLayerType snaplen v

/-- The function `ngSPBReader`. -/
def ngSPBReader (p : pcapng) : ReaderResult :=
  let r := p.readFull (List.replicate 8 0)
  let p := r.1
  let buff := r.2.1
  if isEOF r.2.2 then .ok (p, .ngRSDone, some .ErrMalformedPcap)
  else do
    let bo ← p.order
    let blockLen := bo.Uint32 (slice buff 0 4)
    let origPacketLen := bo.Uint32 (slice buff 4 8)
    if p.ifId = ngUnsetIfId ∧ p.ifCounter > 0 then
      let w := p.writeNInto .Discard ((blockLen : Int) - ((buff.length + 4 : Nat) : Int))
      if isEOF w.2 then .ok (w.1, .ngRSDone, some .ErrMalformedPcap)
      else .ok (w.1, .ngRSIgnoreSection, none)
    else
      let p : pcapng := { p with packetDataRaw := [] }
      let w := p.writeNInto .packetDataRaw ((blockLen : Int) - 16)
      if isEOF w.2 then .ok (w.1, .ngRSDone, some .ErrMalformedPcap)
      else
        let w := w.1.writeNInto .Discard 4
        if isEOF w.2 then .ok (w.1, .ngRSDone, some .ErrMalformedPcap)
        else .ok ({ w.1 with packetInfo := ⟨Time.zero, origPacketLen⟩ }, .ngRSBlockType, none)

/-- The part of `ngEPBReader` after the interface test: payload, metadata and
the final discard. -/
def ngEPBReaderRest (p : pcapng) (bo : ByteOrder) (buff : List Byte) (blockLen : Nat) :
    ReaderResult :=
  let packetLen := bo.Uint32 (slice buff 16 20)
  let w := p.writeNInto .packetDataRaw (packetLen : Int)
  if isEOF w.2 then .ok (w.1, .ngRSDone, some .ErrMalformedPcap)
  else
    let p := w.1
    let tsUpper := bo.Uint32 (slice buff 8 12)
    let tsLower := bo.Uint32 (slice buff 12 16)
    let ts := ((tsUpper <<< 32) % 2 ^ 64) ||| tsLower
    let p : pcapng := { p with packetInfo := { p.packetInfo with Size := bo.Uint32 (slice buff 20 24) } }
    if p.secondMask = 0 then .error .divideByZero
    else if p.tsScaleDown = 0 then .error .divideByZero
    else
      let p : pcapng :=
        { p with packetInfo :=
            { p.packetInfo with
              CaptureTime :=
                timeUnix (toInt64 ((ts / p.secondMask + p.timeOffset) % 2 ^ 64))
                  (toInt64 (((ts % p.secondMask * p.tsScaleUp) % 2 ^ 64) / p.tsScaleDown)) } }
      let w := p.writeNInto .Discard
        ((blockLen : Int) - (((buff.length : Nat) : Int) + (packetLen : Int) + 4))
      if isEOF w.2 then .ok (w.1, .ngRSDone, some .ErrMalformedPcap)
      else .ok (w.1, .ngRSBlockType, none)

/-- The function `ngEPBReader`. After the discard for a foreign interface id
there is no return: the code goes on with the payload read. -/
def ngEPBReader (p : pcapng) : ReaderResult :=
  let p : pcapng := { p with packetDataRaw := [] }
  let r := p.readFull (List.replicate 24 0)
  let p := r.1
  let buff := r.2.1
  if isEOF r.2.2 then .ok (p, .ngRSDone, some .ErrMalformedPcap)
  else do
    let bo ← p.order
    let blockLen := bo.Uint32 (slice buff 0 4)
    let ifId := bo.Uint32 (slice buff 4 8)
    if ifId ≠ p.ifId then
      let w := p.writeNInto .Discard ((blockLen : Int) - ((buff.length + 4 : Nat) : Int))
      if isEOF w.2 then .ok (w.1, .ngRSDone, some .ErrMalformedPcap)
      else ngEPBReaderRest w.1 bo buff blockLen
    else ngEPBReaderRest p bo buff blockLen

/-- The table `stateToReader`; `ngRSDone` has no entry. -/
def stateToReader : ngReaderState → Option (pcapng → ReaderResult)
  | .ngRSIgnoreBlock => some ngIgnoreBlockReader
  | .ngRSIgnoreSection => some ngIgnoreSectionReader
  | .ngRSBlockType => some pcapngBlockTypeReader
  | .ngRSIDB => some ngIDBReader
  | .ngRSSHB => some ngSHBReader
  | .ngRSSPB => some ngSPBReader
  | .ngRSEPB => some ngEPBReader
  | .ngRSDone => none

/-- The loop of `pcapng.readTo` with an iteration bound; `err` is the named
result, nil until a reader has run. -/
def pcapng.readToLoop (stateMask : Nat) : Nat → pcapng → Option Err →
    Except Abort (pcapng × Option Err)
  | 0, _, _ => .error .fuelExhausted
  | fuel + 1, p, err =>
    if p.readState.bits &&& stateMask = 0 ∧ p.readState ≠ .ngRSDone then
      match stateToReader p.readState with
      | none => .error .nilDereference
      | some reader =>
        match reader p with
        | .error a => .error a
        | .ok (p1, st, e) => pcapng.readToLoop stateMask fuel { p1 with readState := st } e
    else .ok (p, err)

/-- The method `pcapng.readTo`. Every third reader call at the latest
consumes four bytes or ends in `ngRSDone`, so `3 * len + 4` iterations are
enough (`readTo_fuel`). -/
def pcapng.readTo (p : pcapng) (stateMask : Nat) : Except Abort (pcapng × Option Err) :=
  pcapng.readToLoop stateMask (3 * p.reader.length + 4) p none

/-- The method `pcapng.LinkLayerType`. -/
def pcapng.LinkLayerType (p : pcapng) : Nat := p.linkLayerType

/-- The method `pcapng.Stop`. -/
def pcapng.Stop (p : pcapng) : pcapng := { p with dead := true }

/-- The method `pcapng.Next`. Nothing in it or in `readTo` sets `dead`. -/
def pcapng.Next (p : pcapng) : Except Abort (NextResult × pcapng) :=
  if p.dead then .ok (.fail .ErrTrafficSourceAlreadyStopped, p)
  else
    match p.readTo ngRSData with
    | .error a => .error a
    | .ok (p1, some e) => .ok (.fail e, p1)
    | .ok (p1, none) =>
      match p1.readTo ngRSNotData with
      | .error a => .error a
      | .ok (p2, some e) => .ok (.fail e, p2)
      | .ok (p2, none) => .ok (.packet p2.packetInfo p2.packetDataRaw, p2)

/-- The function `readPcapNg`: a panic, or the Go result `(Traffic, error)`. -/
def readPcapNg (reader : List Byte) : Except Abort (Except Err pcapng) :=
  let p : pcapng :=
    { dead := false, reader := reader, readState := .ngRSSHB, byteOrder := none, sectionLen := 0,
      sectionOffset := 0, ifCounter := 0, ifNameHash := 0, linkLayerType := 0, ifId := 0,
      snaplen := 0, secondMask := 0, timeZone := 0, timeOffset := 0, tsScaleUp := 0,
      tsScaleDown := 0, packetInfo := ⟨Time.zero, 0⟩, packetDataRaw := [] }
  let rd := ioReadFull reader (List.replicate 4 0)
  match rd.err with
  | some .EOF => .ok (.error .ErrEmptyPcap)
  | some .ErrUnexpectedEOF => .ok (.error .ErrMalformedPcap)
  | some e => .ok (.error e)
  | none =>
    if ByteOrder.BigEndian.Uint32 rd.buf ≠ ngSHB then .ok (.error .ErrMalformedPcap)
    else
      match pcapng.readTo { p with reader := rd.rest } ngRSData with
      | .error a => .error a
      | .ok (_, some e) => .ok (.error e)
      | .ok (p1, none) => .ok (.ok p1)

/-- Weight of a reader state in the termination measure of `readTo`: block-type
dispatch weighs nothing, ignore-section one, every block reader two. -/
def ngReaderState.rank : ngReaderState → Nat
  | .ngRSBlockType => 0
  | .ngRSDone => 0
  | .ngRSIgnoreSection => 1
  | _ => 2

/-- A reader result that is not the exhausted iteration bound and, when it
is a return, leaves at most `n` unread bytes and one of the `allowed` next
states. -/
def ReaderResult.bounded (r : ReaderResult) (n : Nat) (allowed : List ngReaderState) : Prop :=
  match r with
  | .error a => a ≠ .fuelExhausted
  | .ok (p1, st, _) => p1.reader.length ≤ n ∧ st ∈ allowed

/-! ## Driving a decoder, and classic-PCAP files as they are written -/

/-- Results of `k` successive calls of `pcap.Next`. -/
def pcap.nextN (p : pcap) : Nat → List NextResult
  | 0 => []
  | k + 1 => p.Next.1 :: pcap.nextN p.Next.2 k

/-- An operation of the `Traffic` interface that changes the decoder. -/
inductive Op where
  | next
  | stop
  deriving DecidableEq, Repr

/-- Runs a sequence of `Next` and `Stop` calls and collects what the `Next`
calls return. -/
def pcap.runOps (p : pcap) : List Op → List NextResult
  | [] => []
  | .next :: ops => p.Next.1 :: pcap.runOps p.Next.2 ops
  | .stop :: ops => pcap.runOps p.Stop ops

/-- A record of a classic-PCAP file: the four header fields and the payload
bytes that follow the header. -/
structure Record where
  sec : Nat
  subsec : Nat
  capLen : Nat
  origLen : Nat
  payload : List Byte
  deriving DecidableEq, Repr

/-- The 16-byte record header with its fields written in byte order `bo`. -/
def Record.header (bo : ByteOrder) (r : Record) : List Byte :=
  bo.put 4 r.sec ++ (bo.put 4 r.subsec ++ (bo.put 4 r.capLen ++ bo.put 4 r.origLen))

/-- Bytes of a record: the header, then the payload bytes. -/
def Record.encode (bo : ByteOrder) (r : Record) : List Byte :=
  r.header bo ++ r.payload

/-- The four header fields fit their 32-bit slots. -/
def Record.fieldsFit (r : Record) : Prop :=
  r.sec < 2 ^ 32 ∧ r.subsec < 2 ^ 32 ∧ r.capLen < 2 ^ 32 ∧ r.origLen < 2 ^ 32

/-- Bytes of a sequence of records. -/
def encodeRecords (bo : ByteOrder) : List Record → List Byte
  | [] => []
  | r :: rs => r.encode bo ++ encodeRecords bo rs

/-- Magic number of a file with microsecond (`nano = false`) or nanosecond
(`nano = true`) sub-second fields. -/
def fileMagic (nano : Bool) : Nat := if nano then magicNanoseconds else magicMicroseconds

/-- Nanoseconds per sub-second unit for the two magic numbers. -/
def timeFactor (nano : Bool) : Nat := if nano then 1 else 1000

/-- The 24-byte global header written in byte order `bo`: magic, version,
the two ignored fields, snapshot length and link-layer type. -/
def globalHeader (bo : ByteOrder) (nano : Bool) (major minor thiszone sigfigs snaplen llt : Nat) :
    List Byte :=
  bo.put 4 (fileMagic nano) ++ (bo.put 2 major ++ (bo.put 2 minor ++ (bo.put 4 thiszone ++
    (bo.put 4 sigfigs ++ (bo.put 4 snaplen ++ bo.put 4 llt)))))

/-- A classic-PCAP file: global header followed by the records. -/
def pcapFile (bo : ByteOrder) (nano : Bool) (major minor thiszone sigfigs snaplen llt : Nat)
    (rs : List Record) : List Byte :=
  globalHeader bo nano major minor thiszone sigfigs snaplen llt ++ encodeRecords bo rs

/-- The packet `Next` hands out for a record in a file with time factor `f`. -/
def Record.expected (f : Nat) (r : Record) : NextResult :=
  .packet ⟨(timeUnix (r.sec : Int) (((r.subsec * f) % 2 ^ 32 : Nat) : Int)).UTC, r.origLen⟩ r.payload

/-- Opens a classic-PCAP byte source and calls `Next` `k` times: the error of
`readPcap`, or the link-layer type together with the `k` results. -/
def decodePcap (src : List Byte) (k : Nat) : Except Err (Nat × List NextResult) :=
  match readPcap src with
  | .error e => .error e
  | .ok p => .ok (p.LinkLayerType, p.nextN k)

/-! ## PCAPNG blocks as they are written -/

/-- A Section Header Block written in byte order `bo`: type tag, total
length, byte-order magic, version, section length, option bytes and the
repeated total length. -/
def shbBlock (bo : ByteOrder) (major minor sectionLen : Nat) (opts : List Byte) : List Byte :=
  bo.put 4 ngSHB ++ (bo.put 4 (28 + opts.length) ++ (bo.put 4 ngByteOrderMagic ++
    (bo.put 2 major ++ (bo.put 2 minor ++ (bo.put 8 sectionLen ++
      (opts ++ bo.put 4 (28 + opts.length)))))))

/-- An Interface Description Block written in byte order `bo`: type tag, total
length, link-layer type, reserved field, snapshot length, option bytes and
the repeated total length. -/
def idbBlock (bo : ByteOrder) (linkType reserved snaplen : Nat) (opts : List Byte) : List Byte :=
  bo.put 4 ngIDB ++ (bo.put 4 (20 + opts.length) ++ (bo.put 2 linkType ++
    (bo.put 2 reserved ++ (bo.put 4 snaplen ++ (opts ++ bo.put 4 (20 + opts.length))))))

/-- An Enhanced Packet Block: interface id, the two timestamp halves, the
original length, the captured bytes, and the bytes between the captured
data and the repeated total length (padding and options). -/
structure Epb where
  ifId : Nat
  tsHigh : Nat
  tsLow : Nat
  origLen : Nat
  data : List Byte
  trailer : List Byte
  deriving DecidableEq, Repr

/-- Declared total length of an Enhanced Packet Block. -/
def Epb.totalLen (b : Epb) : Nat := 32 + b.data.length + b.trailer.length

/-- The 24 bytes of an Enhanced Packet Block that follow the type tag. -/
def Epb.header (bo : ByteOrder) (b : Epb) : List Byte :=
  bo.put 4 b.totalLen ++ (bo.put 4 b.ifId ++ (bo.put 4 b.tsHigh ++ (bo.put 4 b.tsLow ++
    (bo.put 4 b.data.length ++ bo.put 4 b.origLen))))

/-- Bytes of an Enhanced Packet Block written in byte order `bo`; the
captured-length field is the number of captured bytes. -/
def Epb.encode (bo : ByteOrder) (b : Epb) : List Byte :=
  bo.put 4 ngEPB ++ (b.header bo ++ (b.data ++ (b.trailer ++ bo.put 4 b.totalLen)))

/-- Bytes of a sequence of Enhanced Packet Blocks. -/
def encodeEpbs (bo : ByteOrder) : List Epb → List Byte
  | [] => []
  | b :: bs => b.encode bo ++ encodeEpbs bo bs

/-- The 64-bit timestamp of an Enhanced Packet Block. -/
def Epb.ts (b : Epb) : Nat := ((b.tsHigh <<< 32) % 2 ^ 64) ||| b.tsLow

/-- The packet `pcapng.Next` hands out for an Enhanced Packet Block when the
locked interface has the given second mask, time offset and scale factors. -/
def Epb.expected (secondMask timeOffset tsScaleUp tsScaleDown : Nat) (b : Epb) : NextResult :=
  .packet
    ⟨timeUnix (toInt64 ((b.ts / secondMask + timeOffset) % 2 ^ 64))
        (toInt64 (((b.ts % secondMask * tsScaleUp) % 2 ^ 64) / tsScaleDown)),
      b.origLen⟩
    b.data

/-- The fields of an Enhanced Packet Block fit their 32-bit slots. -/
def Epb.fieldsFit (b : Epb) : Prop :=
  b.ifId < 2 ^ 32 ∧ b.tsHigh < 2 ^ 32 ∧ b.tsLow < 2 ^ 32 ∧ b.origLen < 2 ^ 32 ∧
    b.totalLen < 2 ^ 32

/-- Results of `k` successive calls of `pcapng.Next`; a panic ends the run. -/
def pcapng.nextN (p : pcapng) : Nat → Except Abort (List NextResult)
  | 0 => .ok []
  | k + 1 =>
    match p.Next with
    | .error a => .error a
    | .ok (r, p1) =>
      match pcapng.nextN p1 k with
      | .error a => .error a
      | .ok rs => .ok (r :: rs)

/-- Opens a PCAPNG byte source and calls `Next` `k` times: a panic, the error
of `readPcapNg`, or the `k` results. -/
def decodePcapNg (src : List Byte) (k : Nat) : Except Abort (Except Err (List NextResult)) :=
  match readPcapNg src with
  | .error a => .error a
  | .ok (.error e) => .ok (.error e)
  | .ok (.ok p) =>
    match p.nextN k with
    | .error a => .error a
    | .ok rs => .ok (.ok rs)

/-! ## Interface options, and the capture time of a decimal resolution -/

/-- The `switch optionCode` in the option loop of `ngIDBReader`, for an option
whose code and value have been sliced out, with the offset update already
made: the loop goes on at `next`. -/
def optionDispatch (bo : ByteOrder) (ifNameHash : Nat) (options : List Byte) (fuel next : Nat)
    (v : IfVars) (optionCode : Nat) (optionValue : List Byte) : Except Abort OptionScan :=
  if optionCode = 0 then .ok (.adopt v)
  else if optionCode = 2 then
    let nameHash := ByteOrder.BigEndian.Uint16 (md5Sum optionValue)
    if ifNameHash ≠ 0 ∧ ifNameHash ≠ nameHash then .ok .ignoreInterface
    else optionLoop bo ifNameHash options fuel next { v with nameHash := nameHash }
  else if optionCode = 9 then
    match optionValue with
    | [] => .error .indexOutOfRange
    | b :: _ => optionLoop bo ifNameHash options fuel next { v with timeResolution := b.val }
  else if optionCode = 10 then
    if optionValue.length < 4 then .error .indexOutOfRange
    else optionLoop bo ifNameHash options fuel next { v with timeZone := bo.Uint32 optionValue }
  else if optionCode = 14 then
    if optionValue.length < 8 then .error .indexOutOfRange
    else optionLoop bo ifNameHash options fuel next { v with timeOffset := bo.Uint64 optionValue }
  else optionLoop bo ifNameHash options fuel next v

/-- The option `if_tsresol` (code 9, one value byte, three bytes of padding)
when present. -/
def ifTsresolOption (bo : ByteOrder) : Option Byte → List Byte
  | some b => bo.put 2 9 ++ (bo.put 2 1 ++ [b, 0, 0, 0])
  | none => []

/-- The option `if_tsoffset` (code 14, eight value bytes) when present. -/
def ifTsoffsetOption (bo : ByteOrder) : Option Nat → List Byte
  | some o => bo.put 2 14 ++ (bo.put 2 8 ++ bo.put 8 o)
  | none => []

/-- The option `opt_endofopt` (code 0, length 0) when present. -/
def endOfOptions (bo : ByteOrder) (present : Bool) : List Byte :=
  if present then bo.put 2 0 ++ bo.put 2 0 else []

/-- Option bytes of an Interface Description Block that carries at most the
resolution and the offset of its timestamps. -/
def ifTsOptions (bo : ByteOrder) (tsresol : Option Byte) (tsoffset : Option Nat)
    (endOfOpt : Bool) : List Byte :=
  ifTsresolOption bo tsresol ++ (ifTsoffsetOption bo tsoffset ++ endOfOptions bo endOfOpt)

/-- The packet an Enhanced Packet Block stands for when timestamps count
units of `10^(-b)` seconds and the interface has time offset `o`: with
`t = high * 2^32 + low`, Unix seconds `t / 10^b + o` and nanoseconds
`floor((t mod 10^b) * 10^9 / 10^b)`. -/
def Epb.decimalExpected (b o : Nat) (e : Epb) : NextResult :=
  .packet
    ⟨⟨(((e.tsHigh * 2 ^ 32 + e.tsLow) / 10 ^ b + o : Nat) : Int),
        (((e.tsHigh * 2 ^ 32 + e.tsLow) % 10 ^ b * 10 ^ 9 / 10 ^ b : Nat) : Int), .Local⟩,
      e.origLen⟩
    e.data

/-! ## More blocks as they are written, decoder states, observations -/

/-- A block of any type written in byte order `bo`: type tag, total length,
body and the repeated total length. -/
def rawBlock (bo : ByteOrder) (tag : Nat) (body : List Byte) : List Byte :=
  bo.put 4 tag ++ (bo.put 4 (12 + body.length) ++ (body ++ bo.put 4 (12 + body.length)))

/-- A Simple Packet Block written in byte order `bo`: type tag, total length,
original packet length, the packet bytes (padded by the writer) and the
repeated total length. -/
def spbBlock (bo : ByteOrder) (origLen : Nat) (data : List Byte) : List Byte :=
  bo.put 4 ngSPB ++ (bo.put 4 (16 + data.length) ++ (bo.put 4 origLen ++
    (data ++ bo.put 4 (16 + data.length))))

/-- An Interface Description Block without its type tag: total length,
link-layer type, reserved field, snapshot length, option bytes and the
repeated total length. -/
def idbBody (bo : ByteOrder) (linkType reserved snaplen : Nat) (opts : List Byte) : List Byte :=
  bo.put 4 (20 + opts.length) ++ (bo.put 2 linkType ++ (bo.put 2 reserved ++
    (bo.put 4 snaplen ++ (opts ++ bo.put 4 (20 + opts.length)))))

/-- The 20 bytes of a Section Header Block between the type tag and the
options: total length, byte-order magic, version and section length. -/
def shbFixed (bo : ByteOrder) (blockLen major minor sectionLen : Nat) : List Byte :=
  bo.put 4 blockLen ++ (bo.put 4 ngByteOrderMagic ++ (bo.put 2 major ++ (bo.put 2 minor ++
    bo.put 8 sectionLen)))

/-- The value of `discardAmount` that `ngSHBReader` hands to its final
`writeNInto`, an `int64`: the rest of the block, plus `int64(p.sectionLen)`
for an unsupported version with a section length other than
`0xFFFFFFFFFFFFFFFF`. -/
def shbDiscardAmount (blockLen major minor sectionLen : Nat) : Int :=
  if major ≠ 1 ∨ (minor ≠ 0 ∧ minor ≠ 2) then
    if sectionLen ≠ 0xFFFFFFFFFFFFFFFF then
      wrapInt64 (((blockLen : Int) - 24) + toInt64 sectionLen)
    else (blockLen : Int) - 24
  else (blockLen : Int) - 24

/-- The decoder `readPcapNg` builds around a byte source before the first
block is read. -/
def pcapng.init (reader : List Byte) : pcapng :=
  { dead := false, reader := reader, readState := .ngRSSHB, byteOrder := none, sectionLen := 0,
    sectionOffset := 0, ifCounter := 0, ifNameHash := 0, linkLayerType := 0, ifId := 0,
    snaplen := 0, secondMask := 0, timeZone := 0, timeOffset := 0, tsScaleUp := 0,
    tsScaleDown := 0, packetInfo := ⟨Time.zero, 0⟩, packetDataRaw := [] }

/-- A live decoder inside a section of byte order `bo` with no interface
locked, about to run the reader of state `st` on the bytes `reader`. -/
def pcapng.inSection (st : ngReaderState) (bo : ByteOrder) (reader : List Byte) : pcapng :=
  { pcapng.init reader with readState := st, byteOrder := some bo, ifId := ngUnsetIfId }

/-- Nanoseconds from the Unix epoch to `t`. -/
def Time.sinceEpochNanos (t : Time) : Int := t.sec * 1000000000 + t.nsec

/-- Link-layer type, locked interface id, snapshot length, interface counter
and second-fraction denominator of the decoder `readPcapNg` returns, if it
returns one. -/
def openedInterface (src : List Byte) : Option (Nat × Nat × Nat × Nat × Nat) :=
  match readPcapNg src with
  | .ok (.ok p) => some (p.LinkLayerType, p.ifId, p.snaplen, p.ifCounter, p.secondMask)
  | _ => none

/-- Interface counter, locked interface id and next state a block reader
returns, if it returns. -/
def ReaderResult.counters (r : ReaderResult) : Option (Nat × Nat × ngReaderState) :=
  match r with
  | .ok (q, st, _) => some (q.ifCounter, q.ifId, st)
  | .error _ => none

/-- The decoder a reader returns, if it returns, satisfies `P`. -/
def ReaderResult.holds (r : ReaderResult) (P : pcapng → Prop) : Prop :=
  match r with
  | .error _ => True
  | .ok (q, _, _) => P q

/-! ## Byte-level lemmas -/

theorem leBytes_length (n v : Nat) : (leBytes n v).length = n := by
  induction n generalizing v with
  | zero => rfl
  | succ n ih => simp [leBytes, ih]

theorem leNat_leBytes (n v : Nat) : leNat (leBytes n v) = v % 256 ^ n := by
  induction n generalizing v with
  | zero => simp [leBytes, leNat, Nat.mod_one]
  | succ n ih =>
    simp only [leBytes, leNat, ih]
    rw [pow_succ, Nat.mul_comm (256 ^ n) 256, Nat.mod_mul]

theorem put_length (bo : ByteOrder) (n v : Nat) : (bo.put n v).length = n := by
  cases bo <;> simp [ByteOrder.put, leBytes_length]

theorem uintN_put_append (bo : ByteOrder) (n v : Nat) (rest : List Byte) :
    bo.uintN n (bo.put n v ++ rest) = v % 256 ^ n := by
  cases bo
  · simp [ByteOrder.uintN, ByteOrder.put, List.take_left', leBytes_length, leNat_leBytes]
  · have h : ((leBytes n v).reverse ++ rest).take n = (leBytes n v).reverse :=
      List.take_left' (by simp [leBytes_length])
    simp [ByteOrder.uintN, ByteOrder.put, h, leNat_leBytes]

theorem uintN_put (bo : ByteOrder) (n v : Nat) : bo.uintN n (bo.put n v) = v % 256 ^ n := by
  have h := uintN_put_append bo n v []
  simpa using h

theorem slice_skip (a rest : List Byte) (i j : Nat) (h : a.length ≤ i) :
    slice (a ++ rest) i j = slice rest (i - a.length) (j - a.length) := by
  unfold slice
  rw [List.drop_append_eq_append_drop, List.drop_eq_nil_of_le h, List.nil_append]
  congr 1
  omega

theorem slice_head (a rest : List Byte) (j : Nat) (h : a.length = j) :
    slice (a ++ rest) 0 j = a := by
  unfold slice
  simp [List.take_left', h]

theorem slice_whole (a : List Byte) (j : Nat) (h : a.length = j) : slice a 0 j = a := by
  have := slice_head a [] j h
  simpa using this

theorem header_length (bo : ByteOrder) (r : Record) : (r.header bo).length = 16 := by
  simp [Record.header, put_length]

theorem header_sec (bo : ByteOrder) (r : Record) :
    bo.Uint32 (slice (r.header bo) 0 4) = r.sec % 2 ^ 32 := by
  unfold Record.header ByteOrder.Uint32
  rw [slice_head _ _ 4 (put_length bo 4 _), uintN_put]
  norm_num

theorem header_subsec (bo : ByteOrder) (r : Record) :
    bo.Uint32 (slice (r.header bo) 4 8) = r.subsec % 2 ^ 32 := by
  unfold Record.header ByteOrder.Uint32
  rw [slice_skip _ _ _ _ (by simp [put_length]), put_length,
    slice_head _ _ _ (by simp [put_length]), uintN_put]
  norm_num

theorem header_capLen (bo : ByteOrder) (r : Record) :
    bo.Uint32 (slice (r.header bo) 8 12) = r.capLen % 2 ^ 32 := by
  unfold Record.header ByteOrder.Uint32
  rw [slice_skip _ _ _ _ (by simp [put_length]), put_length,
    slice_skip _ _ _ _ (by simp [put_length]), put_length,
    slice_head _ _ _ (by simp [put_length]), uintN_put]
  norm_num

theorem header_origLen (bo : ByteOrder) (r : Record) :
    bo.Uint32 (slice (r.header bo) 12 16) = r.origLen % 2 ^ 32 := by
  unfold Record.header ByteOrder.Uint32
  rw [slice_skip _ _ _ _ (by simp [put_length]), put_length,
    slice_skip _ _ _ _ (by simp [put_length]), put_length,
    slice_skip _ _ _ _ (by simp [put_length]), put_length,
    slice_whole _ _ (by simp [put_length]), uintN_put]
  norm_num

theorem ioReadFull_full (a rest buf : List Byte) (h : a.length = buf.length)
    (hpos : 0 < buf.length) : ioReadFull (a ++ rest) buf = ⟨buf.length, none, a, rest⟩ := by
  unfold ioReadFull
  have h1 : ¬ buf.length = 0 := by omega
  have h2 : ¬ (a ++ rest).length = 0 := by rw [List.length_append]; omega
  have h3 : ¬ (a ++ rest).length < buf.length := by rw [List.length_append]; omega
  simp only [h1, h2, h3, if_false]
  rw [← h, List.take_left, List.drop_left]

theorem ioReadFull_nil (buf : List Byte) (hpos : 0 < buf.length) :
    ioReadFull [] buf = ⟨0, some .EOF, buf, []⟩ := by
  unfold ioReadFull
  have h1 : ¬ buf.length = 0 := by omega
  simp [h1]

theorem binaryRead_full (a rest data : List Byte) (h : a.length = data.length) :
    binaryRead (a ++ rest) data = (none, a, rest) := by
  unfold binaryRead
  by_cases h0 : data.length = 0
  · have ha : a = [] := List.length_eq_zero.mp (by omega)
    subst ha
    simp [ioReadFull, h0]
  · rw [ioReadFull_full a rest _ (by simpa using h) (by simp; omega)]

/-! ## Classic PCAP: one call of `Next` -/

theorem pcap_Next_dead (p : pcap) (hd : p.dead = true) :
    p.Next = (.fail .ErrTrafficSourceAlreadyStopped, p) := by
  simp [pcap.Next, hd]

theorem pcap_Next_eof (p : pcap) (hd : p.dead = false) (hh : p.packetHeader.length = 16)
    (hr : p.reader = []) :
    p.Next = (.fail .EOF, { p with dead := true }) := by
  unfold pcap.Next
  rw [hr, ioReadFull_nil _ (by omega)]
  simp [hd, pcap.Stop, hr]

theorem pcap_Next_record (p : pcap) (r : Record) (rest : List Byte) (hd : p.dead = false)
    (hh : p.packetHeader.length = 16) (hdata : p.packetData.length = p.snaplen)
    (hr : p.reader = r.encode p.byteOrder ++ rest) (hcap : r.capLen = r.payload.length)
    (hfit : r.capLen < 2 ^ 32) (hle : r.capLen ≤ p.snaplen) :
    p.Next =
      (.packet ⟨(timeUnix ((r.sec % 2 ^ 32 : Nat) : Int)
          ((((r.subsec % 2 ^ 32) * p.nanoSecsFactor) % 2 ^ 32 : Nat) : Int)).UTC,
          r.origLen % 2 ^ 32⟩ r.payload,
        { p with reader := rest, packetHeader := r.header p.byteOrder,
                 packetData := r.payload ++ p.packetData.drop r.capLen }) := by
  unfold pcap.Next
  rw [hr, Record.encode, List.append_assoc,
    ioReadFull_full _ _ _ (by rw [header_length, hh]) (by omega)]
  simp only [hd, pcap.packetSavedSize, header_capLen, Nat.mod_eq_of_lt hfit]
  have hlen : (slice p.packetData 0 r.capLen).length = r.capLen := by
    simp [slice, hdata, hle]
  have hbr : binaryRead (r.payload ++ rest) (slice p.packetData 0 r.capLen)
      = (none, r.payload, rest) :=
    binaryRead_full _ _ _ (by rw [hlen, hcap])
  have hnot : ¬ r.capLen > p.snaplen := by omega
  rw [hbr]
  simp only [hnot, if_false, pcap.timeStampSecs, pcap.timeStampMSecs, pcap.packetActualSize,
    header_sec, header_subsec, header_origLen, slice_head _ _ _ hcap.symm]
  simp

theorem pcap_Next_oversize (p : pcap) (hdr rest : List Byte) (hd : p.dead = false)
    (hh : p.packetHeader.length = 16) (hl : hdr.length = 16) (hr : p.reader = hdr ++ rest)
    (hbig : p.byteOrder.Uint32 (slice hdr 8 12) > p.snaplen) :
    p.Next = (.fail .ErrMalformedPcap,
      { p with dead := true, reader := rest, packetHeader := hdr }) := by
  unfold pcap.Next
  rw [hr, ioReadFull_full _ _ _ (by rw [hl, hh]) (by omega)]
  simp [hd, pcap.packetSavedSize, hbig, pcap.Stop]

theorem pcap_Next_fail_dead (p : pcap) (e : Err) (h : p.Next.1 = .fail e) :
    p.Next.2.dead = true := by
  unfold pcap.Next at h ⊢
  cases hd : p.dead
  · simp only [hd, Bool.false_eq_true, if_false] at h ⊢
    rcases herr : (ioReadFull p.reader p.packetHeader).err with _ | e1
    · simp only [herr] at h ⊢
      generalize binaryRead _ _ = br at h ⊢
      obtain ⟨e2, d, rest⟩ := br
      cases e2 with
      | none => split_ifs at h ⊢; simp_all [pcap.Stop]
      | some e2 => cases e2 <;> (split_ifs at h ⊢ <;> simp_all [pcap.Stop])
    · cases e1 <;> simp [pcap.Stop]
  · simp [hd]

theorem pcap_runOps_dead (p : pcap) (hd : p.dead = true) (ops : List Op) :
    ∀ r ∈ p.runOps ops, r = .fail .ErrTrafficSourceAlreadyStopped := by
  induction ops generalizing p with
  | nil => simp [pcap.runOps]
  | cons op ops ih =>
    cases op with
    | next =>
      intro r hr
      simp only [pcap.runOps, pcap_Next_dead p hd, List.mem_cons] at hr
      cases hr with
      | inl h => exact h
      | inr h => exact ih p hd r h
    | stop =>
      intro r hr
      simp only [pcap.runOps] at hr
      exact ih p.Stop rfl r hr

/-! ## Classic PCAP: the global header -/

theorem globalHeader_length (bo : ByteOrder) (nano : Bool)
    (major minor thiszone sigfigs snaplen llt : Nat) :
    (globalHeader bo nano major minor thiszone sigfigs snaplen llt).length = 24 := by
  simp [globalHeader, put_length]

theorem checkMagic_globalHeader (bo : ByteOrder) (nano : Bool)
    (major minor thiszone sigfigs snaplen llt : Nat) :
    checkMagic (globalHeader bo nano major minor thiszone sigfigs snaplen llt)
      = .ok (bo, timeFactor nano) := by
  unfold checkMagic globalHeader
  rw [slice_head _ _ 4 (put_length bo 4 _)]
  cases bo <;> cases nano <;> rfl

theorem readPcap_globalHeader (bo : ByteOrder) (nano : Bool)
    (major minor thiszone sigfigs snaplen llt : Nat) (rest : List Byte) :
    readPcap (globalHeader bo nano major minor thiszone sigfigs snaplen llt ++ rest) =
      if major % 2 ^ 16 ≠ 2 ∨ minor % 2 ^ 16 ≠ 4 then .error .ErrPcapVersionNotSupported
      else .ok
        { dead := false
          reader := rest
          nanoSecsFactor := timeFactor nano
          byteOrder := bo
          snaplen := snaplen % 2 ^ 32
          llt := llt % 2 ^ 32
          packetHeader := List.replicate 16 0
          packetData := List.replicate (snaplen % 2 ^ 32) 0 } := by
  unfold readPcap
  rw [ioReadFull_full _ _ _ (by simp [globalHeader_length]) (by simp)]
  simp only [readPcapRest, List.length_replicate, globalHeader_length, ne_eq, not_true_eq_false,
    if_false, checkMagic_globalHeader]
  have hmaj : bo.Uint16 (slice (globalHeader bo nano major minor thiszone sigfigs snaplen llt) 4 6)
      = major % 2 ^ 16 := by
    unfold globalHeader ByteOrder.Uint16
    rw [slice_skip _ _ _ _ (by simp [put_length]), put_length,
      slice_head _ _ _ (by simp [put_length]), uintN_put]
    norm_num
  have hmin : bo.Uint16 (slice (globalHeader bo nano major minor thiszone sigfigs snaplen llt) 6 8)
      = minor % 2 ^ 16 := by
    unfold globalHeader ByteOrder.Uint16
    rw [slice_skip _ _ _ _ (by simp [put_length]), put_length,
      slice_skip _ _ _ _ (by simp [put_length]), put_length,
      slice_head _ _ _ (by simp [put_length]), uintN_put]
    norm_num
  have hsnap : bo.Uint32 (slice (globalHeader bo nano major minor thiszone sigfigs snaplen llt) 16 20)
      = snaplen % 2 ^ 32 := by
    unfold globalHeader ByteOrder.Uint32
    rw [slice_skip _ _ _ _ (by simp [put_length]), put_length,
      slice_skip _ _ _ _ (by simp [put_length]), put_length,
      slice_skip _ _ _ _ (by simp [put_length]), put_length,
      slice_skip _ _ _ _ (by simp [put_length]), put_length,
      slice_skip _ _ _ _ (by simp [put_length]), put_length,
      slice_head _ _ _ (by simp [put_length]), uintN_put]
    norm_num
  have hllt : bo.Uint32 (slice (globalHeader bo nano major minor thiszone sigfigs snaplen llt) 20 24)
      = llt % 2 ^ 32 := by
    unfold globalHeader ByteOrder.Uint32
    rw [slice_skip _ _ _ _ (by simp [put_length]), put_length,
      slice_skip _ _ _ _ (by simp [put_length]), put_length,
      slice_skip _ _ _ _ (by simp [put_length]), put_length,
      slice_skip _ _ _ _ (by simp [put_length]), put_length,
      slice_skip _ _ _ _ (by simp [put_length]), put_length,
      slice_skip _ _ _ _ (by simp [put_length]), put_length,
      slice_whole _ _ (by simp [put_length]), uintN_put]
    norm_num
  rw [hmaj, hmin, hsnap, hllt]

/-! ## Classic PCAP: whole files -/

theorem pcap_nextN_records (p : pcap) (rs : List Record) (hd : p.dead = false)
    (hh : p.packetHeader.length = 16) (hdata : p.packetData.length = p.snaplen)
    (hr : p.reader = encodeRecords p.byteOrder rs)
    (hrs : ∀ r ∈ rs, r.fieldsFit ∧ r.capLen = r.payload.length ∧ r.capLen ≤ p.snaplen) :
    p.nextN (rs.length + 1) = rs.map (Record.expected p.nanoSecsFactor) ++ [.fail .EOF] := by
  induction rs generalizing p with
  | nil =>
    simp [pcap.nextN, pcap_Next_eof p hd hh (by simpa [encodeRecords] using hr)]
  | cons r rs ih =>
    obtain ⟨⟨hsec, hsub, hcl, hol⟩, hcap, hle⟩ := hrs r (List.mem_cons_self r rs)
    have hstep := pcap_Next_record p r (encodeRecords p.byteOrder rs) hd hh hdata
      (by simpa [encodeRecords] using hr) hcap hcl hle
    have hlen : (r.payload ++ p.packetData.drop r.capLen).length = p.snaplen := by
      rw [List.length_append, List.length_drop, hdata, ← hcap]
      omega
    have hrec := ih { p with reader := encodeRecords p.byteOrder rs,
                             packetHeader := r.header p.byteOrder,
                             packetData := r.payload ++ p.packetData.drop r.capLen }
      hd (header_length _ _) hlen rfl (fun x hx => hrs x (List.mem_cons_of_mem r hx))
    have hunf : p.nextN (rs.length + 1 + 1) = p.Next.1 :: p.Next.2.nextN (rs.length + 1) := rfl
    rw [Nat.mod_eq_of_lt hsec, Nat.mod_eq_of_lt hsub, Nat.mod_eq_of_lt hol] at hstep
    rw [List.length_cons, hunf, hstep]
    simp only []
    rw [hrec]
    rfl

/-- C1: a well-formed classic-PCAP stream (24-byte global header with a known
magic, version 2.4 and snapshot length `S`, then `N` records whose payload
has exactly the captured length, at most `S`) is accepted by `readPcap`;
the first `N` calls of `Next` return the records in file order, each with
its payload bytes and with `Size` equal to the original-length field, and
call `N + 1` returns `io.EOF`. For `N = 0` this says that the first `Next`
returns `io.EOF`. -/
theorem readPcap_wellformed_stream (bo : ByteOrder) (nano : Bool)
    (thiszone sigfigs S llt : Nat) (rs : List Record) (hS : S < 2 ^ 32)
    (hrs : ∀ r ∈ rs, r.fieldsFit ∧ r.capLen = r.payload.length ∧ r.capLen ≤ S) :
    ∃ p, readPcap (pcapFile bo nano 2 4 thiszone sigfigs S llt rs) = .ok p ∧
      p.nextN (rs.length + 1) = rs.map (Record.expected (timeFactor nano)) ++ [.fail .EOF] := by
  have hread : readPcap (pcapFile bo nano 2 4 thiszone sigfigs S llt rs) = .ok
      { dead := false, reader := encodeRecords bo rs, nanoSecsFactor := timeFactor nano,
        byteOrder := bo, snaplen := S, llt := llt % 2 ^ 32,
        packetHeader := List.replicate 16 0, packetData := List.replicate S 0 } := by
    rw [pcapFile, readPcap_globalHeader, Nat.mod_eq_of_lt hS]
    simp
  exact ⟨_, hread, pcap_nextN_records _ rs rfl (by simp) (by simp) rfl hrs⟩

theorem readPcap_wellformed_stream_witness :
    (4 < 2 ^ 32 ∧
      ∀ r ∈ [(⟨1, 2, 3, 60, [1, 2, 3]⟩ : Record), ⟨5, 7, 0, 70, []⟩],
        r.fieldsFit ∧ r.capLen = r.payload.length ∧ r.capLen ≤ 4) ∧
    ∃ p, readPcap (pcapFile .BigEndian false 2 4 0 0 4 1
        [⟨1, 2, 3, 60, [1, 2, 3]⟩, ⟨5, 7, 0, 70, []⟩]) = .ok p ∧
      p.nextN ([(⟨1, 2, 3, 60, [1, 2, 3]⟩ : Record), ⟨5, 7, 0, 70, []⟩].length + 1) =
        [(⟨1, 2, 3, 60, [1, 2, 3]⟩ : Record), ⟨5, 7, 0, 70, []⟩].map
          (Record.expected (timeFactor false)) ++ [.fail .EOF] :=
  ⟨⟨by decide, by simp [Record.fieldsFit]⟩,
    readPcap_wellformed_stream .BigEndian false 0 0 4 1
      [⟨1, 2, 3, 60, [1, 2, 3]⟩, ⟨5, 7, 0, 70, []⟩] (by decide)
      (by simp [Record.fieldsFit])⟩

/-- C3: a live classic-PCAP decoder that reads a 16-byte record header whose
captured-length field, in the byte order of the file, exceeds the snapshot
length returns `ErrMalformedPcap` and no packet, whatever bytes follow the
header; the decoder is dead afterwards. -/
theorem pcap_Next_captured_exceeds_snaplen (p : pcap) (hdr rest : List Byte)
    (hd : p.dead = false) (hh : p.packetHeader.length = 16) (hl : hdr.length = 16)
    (hr : p.reader = hdr ++ rest) (hbig : p.byteOrder.Uint32 (slice hdr 8 12) > p.snaplen) :
    p.Next.1 = .fail .ErrMalformedPcap ∧ p.Next.2.dead = true := by
  rw [pcap_Next_oversize p hdr rest hd hh hl hr hbig]
  exact ⟨rfl, rfl⟩

theorem pcap_Next_captured_exceeds_snaplen_witness :
    ByteOrder.BigEndian.Uint32 (slice [0, 0, 0, 1, 0, 0, 0, 2, 0, 0, 0, 5, 0, 0, 0, 9] 8 12) > 4 ∧
      (pcap.Next ⟨false, [0, 0, 0, 1, 0, 0, 0, 2, 0, 0, 0, 5, 0, 0, 0, 9, 7, 7, 7, 7, 7],
        .BigEndian, 4, 1, 1000, List.replicate 16 0, List.replicate 4 0⟩).1
        = .fail .ErrMalformedPcap ∧
      (pcap.Next ⟨false, [0, 0, 0, 1, 0, 0, 0, 2, 0, 0, 0, 5, 0, 0, 0, 9, 7, 7, 7, 7, 7],
        .BigEndian, 4, 1, 1000, List.replicate 16 0, List.replicate 4 0⟩).2.dead = true :=
  ⟨by decide,
    pcap_Next_captured_exceeds_snaplen
      ⟨false, [0, 0, 0, 1, 0, 0, 0, 2, 0, 0, 0, 5, 0, 0, 0, 9, 7, 7, 7, 7, 7],
        .BigEndian, 4, 1, 1000, List.replicate 16 0, List.replicate 4 0⟩
      [0, 0, 0, 1, 0, 0, 0, 2, 0, 0, 0, 5, 0, 0, 0, 9] [7, 7, 7, 7, 7]
      rfl rfl rfl rfl (by decide)⟩

/-- C4 (what the code does): on an empty byte source `readPcap` leaves through
the length test `n != len(header)` and returns `ErrMalformedPcap`; the
`case io.EOF` that returns `ErrEmptyPcap` is never reached. -/
theorem readPcap_empty_source : readPcap [] = .error .ErrMalformedPcap := rfl

/-- C5 (what the code does): on a source holding three bytes `readPcap`
leaves through the first error test and returns `io.ErrUnexpectedEOF`
itself, not `ErrMalformedPcap`. -/
theorem readPcap_truncated_header :
    readPcap [0xD4, 0xC3, 0xB2] = .error .ErrUnexpectedEOF := rfl

theorem ioReadFull_enough (r buf : List Byte) (h : buf.length ≤ r.length)
    (hpos : 0 < buf.length) :
    ioReadFull r buf = ⟨buf.length, none, r.take buf.length, r.drop buf.length⟩ := by
  unfold ioReadFull
  have h1 : ¬ buf.length = 0 := by omega
  have h2 : ¬ r.length = 0 := by omega
  have h3 : ¬ r.length < buf.length := by omega
  simp only [h1, h2, h3, if_false]

theorem slice_take (l : List Byte) (n i j : Nat) (h : j ≤ n) :
    slice (l.take n) i j = slice l i j := by
  unfold slice
  rw [List.drop_take, List.take_take]
  congr 1
  omega

theorem readPcap_of_length (src : List Byte) (h : 24 ≤ src.length) :
    readPcap src =
      match checkMagic src with
      | .error e => .error e
      | .ok (byteOrder, nanoSecsFactor) =>
        if byteOrder.Uint16 (slice src 4 6) ≠ 2 ∨ byteOrder.Uint16 (slice src 6 8) ≠ 4 then
          .error .ErrPcapVersionNotSupported
        else
          .ok
            { dead := false
              reader := src.drop 24
              nanoSecsFactor := nanoSecsFactor
              byteOrder := byteOrder
              snaplen := byteOrder.Uint32 (slice src 16 20)
              llt := byteOrder.Uint32 (slice src 20 24)
              packetHeader := List.replicate 16 0
              packetData := List.replicate (byteOrder.Uint32 (slice src 16 20)) 0 } := by
  unfold readPcap
  rw [ioReadFull_enough _ _ (by simpa using h) (by simp)]
  have hl : (src.take 24).length = 24 := by simp [h]
  have hm : checkMagic (src.take 24) = checkMagic src := by
    unfold checkMagic
    rw [slice_take _ _ _ _ (by omega)]
  simp only [readPcapRest, List.length_replicate, hl, ne_eq, not_true_eq_false, if_false, hm]
  cases hc : checkMagic src with
  | error e => rfl
  | ok v =>
    obtain ⟨bo, f⟩ := v
    simp only []
    rw [slice_take _ _ _ _ (by omega), slice_take _ _ _ _ (by omega),
      slice_take _ _ _ _ (by omega), slice_take _ _ _ _ (by omega)]

/-- C6: on a byte source of at least 24 bytes whose first four bytes, read
little-endian, are `magic`: an unknown magic makes `readPcap` fail with
`ErrMalformedPcap`; a known magic selects the byte order `bo`
(little-endian for the two plain constants, big-endian for the two
byte-swapped ones), and then `readPcap` succeeds exactly when the two
16-bit version fields read in that order are 2 and 4 and fails with
`ErrPcapVersionNotSupported` otherwise. -/
theorem readPcap_magic_and_version (src : List Byte) (magic : Nat) (hlen : 24 ≤ src.length)
    (hmagic : magic = ByteOrder.LittleEndian.Uint32 (slice src 0 4)) :
    ((magic ≠ magicNanoseconds ∧ magic ≠ magicNanosecondsBigendian ∧
        magic ≠ magicMicroseconds ∧ magic ≠ magicMicrosecondsBigendian) →
      readPcap src = .error .ErrMalformedPcap) ∧
    (∀ bo : ByteOrder,
      ((bo = .LittleEndian ∧ (magic = magicNanoseconds ∨ magic = magicMicroseconds)) ∨
        (bo = .BigEndian ∧
          (magic = magicNanosecondsBigendian ∨ magic = magicMicrosecondsBigendian))) →
      (((∃ p, readPcap src = .ok p) ↔
          (bo.Uint16 (slice src 4 6) = 2 ∧ bo.Uint16 (slice src 6 8) = 4)) ∧
        (¬ (bo.Uint16 (slice src 4 6) = 2 ∧ bo.Uint16 (slice src 6 8) = 4) →
          readPcap src = .error .ErrPcapVersionNotSupported))) := by
  subst hmagic
  rw [readPcap_of_length src hlen]
  refine ⟨?_, ?_⟩
  · rintro ⟨h1, h2, h3, h4⟩
    simp [checkMagic, h1, h2, h3, h4]
  · intro bo hbo
    have hc : ∃ f, checkMagic src = .ok (bo, f) := by
      unfold checkMagic
      rcases hbo with ⟨rfl, h | h⟩ | ⟨rfl, h | h⟩
      · exact ⟨1, by simp [h]⟩
      · refine ⟨1000, ?_⟩
        simp only [h]
        rfl
      · refine ⟨1, ?_⟩
        simp only [h]
        rfl
      · refine ⟨1000, ?_⟩
        simp only [h]
        rfl
    obtain ⟨f, hf⟩ := hc
    rw [hf]
    simp only []
    by_cases hv : bo.Uint16 (slice src 4 6) = 2 ∧ bo.Uint16 (slice src 6 8) = 4
    · have hn : ¬ (bo.Uint16 (slice src 4 6) ≠ 2 ∨ bo.Uint16 (slice src 6 8) ≠ 4) := by
        rw [hv.1, hv.2]; simp
      simp only [hn, if_false]
      exact ⟨⟨fun _ => hv, fun _ => ⟨_, rfl⟩⟩, fun h => absurd hv h⟩
    · have hn : bo.Uint16 (slice src 4 6) ≠ 2 ∨ bo.Uint16 (slice src 6 8) ≠ 4 := by
        by_contra hcon
        push_neg at hcon
        exact hv hcon
      simp only [hn, if_true]
      refine ⟨⟨?_, fun h => absurd h hv⟩, fun _ => trivial⟩
      rintro ⟨p, hp⟩
      cases hp

theorem readPcap_magic_and_version_witness :
    (24 ≤ (List.replicate 24 (0 : Byte)).length ∧
      readPcap (List.replicate 24 0) = .error .ErrMalformedPcap) ∧
    (24 ≤ (pcapFile .BigEndian true 2 4 0 0 4 1 []).length ∧
      ∃ p, readPcap (pcapFile .BigEndian true 2 4 0 0 4 1 []) = .ok p) ∧
    (24 ≤ (pcapFile .LittleEndian false 1 0 0 0 4 1 []).length ∧
      readPcap (pcapFile .LittleEndian false 1 0 0 0 4 1 []) = .error .ErrPcapVersionNotSupported) :=
  ⟨⟨by decide,
      (readPcap_magic_and_version (List.replicate 24 0) 0 (by decide) rfl).1 (by decide)⟩,
    ⟨by decide,
      (((readPcap_magic_and_version (pcapFile .BigEndian true 2 4 0 0 4 1 [])
        magicNanosecondsBigendian (by decide) rfl).2 .BigEndian
          (Or.inr ⟨rfl, Or.inl rfl⟩)).1).mpr ⟨rfl, rfl⟩⟩,
    ⟨by decide,
      ((readPcap_magic_and_version (pcapFile .LittleEndian false 1 0 0 0 4 1 [])
        magicMicroseconds (by decide) rfl).2 .LittleEndian
          (Or.inl ⟨rfl, Or.inr rfl⟩)).2 (by decide)⟩⟩

/-- C8: for the classic-PCAP decoder, once a call of `Next` has returned
`io.EOF` or any other error, or `Stop` has been called, every later call of
`Next` returns `ErrTrafficSourceAlreadyStopped`, whatever further `Next` and
`Stop` calls are made and in whatever order. -/
theorem pcap_stopped_stays_stopped (p : pcap) (ops : List Op) :
    (∀ e, p.Next.1 = .fail e →
      ∀ r ∈ p.Next.2.runOps ops, r = .fail .ErrTrafficSourceAlreadyStopped) ∧
    (∀ r ∈ p.Stop.runOps ops, r = .fail .ErrTrafficSourceAlreadyStopped) :=
  ⟨fun e h => pcap_runOps_dead _ (pcap_Next_fail_dead p e h) ops,
    pcap_runOps_dead _ rfl ops⟩

theorem pcap_stopped_stays_stopped_witness :
    (pcap.Next ⟨false, [9, 9], .LittleEndian, 4, 1, 1000, List.replicate 16 0,
        List.replicate 4 0⟩).1 = .fail .ErrMalformedPcap ∧
    (∀ r ∈ (pcap.Next ⟨false, [9, 9], .LittleEndian, 4, 1, 1000, List.replicate 16 0,
        List.replicate 4 0⟩).2.runOps [.next, .stop, .next, .next],
      r = .fail .ErrTrafficSourceAlreadyStopped) ∧
    (∀ r ∈ (pcap.Stop ⟨false, [9, 9], .LittleEndian, 4, 1, 1000, List.replicate 16 0,
        List.replicate 4 0⟩).runOps [.next, .stop, .next, .next],
      r = .fail .ErrTrafficSourceAlreadyStopped) :=
  ⟨rfl,
    (pcap_stopped_stays_stopped ⟨false, [9, 9], .LittleEndian, 4, 1, 1000, List.replicate 16 0,
      List.replicate 4 0⟩ [.next, .stop, .next, .next]).1 .ErrMalformedPcap rfl,
    (pcap_stopped_stays_stopped ⟨false, [9, 9], .LittleEndian, 4, 1, 1000, List.replicate 16 0,
      List.replicate 4 0⟩ [.next, .stop, .next, .next]).2⟩

theorem pcap_nextN_dead (p : pcap) (hd : p.dead = true) (k : Nat) :
    p.nextN k = List.replicate k (.fail .ErrTrafficSourceAlreadyStopped) := by
  induction k with
  | zero => rfl
  | succ k ih =>
    have hunf : p.nextN (k + 1) = p.Next.1 :: p.Next.2.nextN k := rfl
    rw [hunf, pcap_Next_dead p hd]
    simp only []
    rw [ih, List.replicate_succ]

theorem pcap_nextN_byteOrder (p q : pcap) (rs : List Record) (k : Nat)
    (hp : p.dead = false) (hq : q.dead = false)
    (hhp : p.packetHeader.length = 16) (hhq : q.packetHeader.length = 16)
    (hdp : p.packetData.length = p.snaplen) (hdq : q.packetData.length = q.snaplen)
    (hs : p.snaplen = q.snaplen) (hf : p.nanoSecsFactor = q.nanoSecsFactor)
    (hrp : p.reader = encodeRecords p.byteOrder rs)
    (hrq : q.reader = encodeRecords q.byteOrder rs)
    (hrs : ∀ r ∈ rs, r.capLen = r.payload.length ∧ r.capLen < 2 ^ 32) :
    p.nextN k = q.nextN k := by
  induction k generalizing p q rs with
  | zero => rfl
  | succ k ih =>
    have hunfp : p.nextN (k + 1) = p.Next.1 :: p.Next.2.nextN k := rfl
    have hunfq : q.nextN (k + 1) = q.Next.1 :: q.Next.2.nextN k := rfl
    rw [hunfp, hunfq]
    cases rs with
    | nil =>
      rw [pcap_Next_eof p hp hhp (by simpa [encodeRecords] using hrp),
        pcap_Next_eof q hq hhq (by simpa [encodeRecords] using hrq)]
      simp only []
      rw [pcap_nextN_dead _ rfl, pcap_nextN_dead _ rfl]
    | cons r rs =>
      obtain ⟨hcap, hcl⟩ := hrs r (List.mem_cons_self r rs)
      by_cases hle : r.capLen ≤ p.snaplen
      · rw [pcap_Next_record p r (encodeRecords p.byteOrder rs) hp hhp hdp
            (by simpa [encodeRecords] using hrp) hcap hcl hle,
          pcap_Next_record q r (encodeRecords q.byteOrder rs) hq hhq hdq
            (by simpa [encodeRecords] using hrq) hcap hcl (hs ▸ hle)]
        simp only [hf]
        congr 1
        refine ih _ _ rs hp hq (header_length _ _) (header_length _ _) ?_ ?_ hs rfl rfl rfl
          (fun x hx => hrs x (List.mem_cons_of_mem r hx))
        · simp only [List.length_append, List.length_drop, hdp, ← hcap]
          omega
        · simp only [List.length_append, List.length_drop, hdq, ← hcap]
          omega
      · have hbp : p.byteOrder.Uint32 (slice (r.header p.byteOrder) 8 12) > p.snaplen := by
          rw [header_capLen, Nat.mod_eq_of_lt hcl]; omega
        have hbq : q.byteOrder.Uint32 (slice (r.header q.byteOrder) 8 12) > q.snaplen := by
          rw [header_capLen, Nat.mod_eq_of_lt hcl]; omega
        rw [pcap_Next_oversize p (r.header p.byteOrder) (r.payload ++ encodeRecords p.byteOrder rs)
            hp hhp (header_length _ _)
            (by simpa [encodeRecords, Record.encode] using hrp) hbp,
          pcap_Next_oversize q (r.header q.byteOrder) (r.payload ++ encodeRecords q.byteOrder rs)
            hq hhq (header_length _ _)
            (by simpa [encodeRecords, Record.encode] using hrq) hbq]
        simp only []
        rw [pcap_nextN_dead _ rfl, pcap_nextN_dead _ rfl]

/-- C2: for every snapshot length, link-layer type, version, time resolution
and sequence of logical records (seconds, sub-seconds, captured length,
original length, payload; the captured length of a record is the number of
payload bytes written for it, a 32-bit field), the file written
little-endian and the file written big-endian decode alike: `readPcap` gives
the same error or the same link-layer type, and any number `k` of `Next`
calls gives the same results (capture time, `Size`, payload bytes, terminal
outcome). -/
theorem pcap_byteOrder_independent (nano : Bool)
    (major minor thiszone sigfigs snaplen llt : Nat) (rs : List Record) (k : Nat)
    (hrs : ∀ r ∈ rs, r.capLen = r.payload.length ∧ r.capLen < 2 ^ 32) :
    decodePcap (pcapFile .LittleEndian nano major minor thiszone sigfigs snaplen llt rs) k =
      decodePcap (pcapFile .BigEndian nano major minor thiszone sigfigs snaplen llt rs) k := by
  unfold decodePcap pcapFile
  rw [readPcap_globalHeader, readPcap_globalHeader]
  by_cases hv : major % 2 ^ 16 ≠ 2 ∨ minor % 2 ^ 16 ≠ 4
  · simp only [hv, if_true]
  · simp only [hv, if_false, pcap.LinkLayerType]
    congr 2
    exact pcap_nextN_byteOrder _ _ rs k rfl rfl (by simp) (by simp) (by simp) (by simp)
      rfl rfl rfl rfl hrs

theorem pcap_byteOrder_independent_witness :
    (∀ r ∈ [(⟨1, 2, 3, 60, [1, 2, 3]⟩ : Record), ⟨5, 7, 9, 70, [1, 2, 3, 4, 5, 6, 7, 8, 9]⟩],
        r.capLen = r.payload.length ∧ r.capLen < 2 ^ 32) ∧
      decodePcap (pcapFile .LittleEndian false 2 4 0 0 4 1
          [⟨1, 2, 3, 60, [1, 2, 3]⟩, ⟨5, 7, 9, 70, [1, 2, 3, 4, 5, 6, 7, 8, 9]⟩]) 3 =
        decodePcap (pcapFile .BigEndian false 2 4 0 0 4 1
          [⟨1, 2, 3, 60, [1, 2, 3]⟩, ⟨5, 7, 9, 70, [1, 2, 3, 4, 5, 6, 7, 8, 9]⟩]) 3 :=
  ⟨by simp,
    pcap_byteOrder_independent false 2 4 0 0 4 1
      [⟨1, 2, 3, 60, [1, 2, 3]⟩, ⟨5, 7, 9, 70, [1, 2, 3, 4, 5, 6, 7, 8, 9]⟩] 3 (by simp)⟩

/-! ## PCAPNG: runs on concrete streams -/

/-- C7 (what the code does): little-endian stream of a Section Header Block,
an Interface Description Block and one Enhanced Packet Block on interface 0.
The first `Next` returns the packet, the second returns `io.EOF`, and the
third returns the stale packet with a nil error instead of
`ErrTrafficSourceAlreadyStopped`: neither `Next` nor `readTo` sets `dead`. -/
theorem pcapng_Next_after_EOF :
    decodePcapNg
      (shbBlock .LittleEndian 1 0 0xFFFFFFFFFFFFFFFF [] ++ (idbBlock .LittleEndian 1 0 65535 [] ++
        encodeEpbs .LittleEndian [⟨0, 0, 2000000, 200, [0xB1, 0xB2, 0xB3, 0xB4], []⟩])) 3 =
      .ok (.ok [.packet ⟨⟨2, 0, .Local⟩, 200⟩ [0xB1, 0xB2, 0xB3, 0xB4], .fail .EOF,
        .packet ⟨⟨2, 0, .Local⟩, 200⟩ [0xB1, 0xB2, 0xB3, 0xB4]]) := rfl

/-- C9 (what the code does): Section Header Block, Interface Description
Block (interface 0, adopted), an Enhanced Packet Block for interface 1 with
payload `A1 A2 A3 A4` and original length 100, then one for interface 0 with
payload `B1 B2 B3 B4` and original length 200. The first `Next` returns a
packet made from the foreign block (`Size` 100, data = the first four bytes
of the following block) and the second returns `ErrMalformedPcap`: after the
discard for a foreign interface id `ngEPBReader` does not return. -/
theorem pcapng_foreign_interface_block :
    decodePcapNg
      (shbBlock .LittleEndian 1 0 0xFFFFFFFFFFFFFFFF [] ++ (idbBlock .LittleEndian 1 0 65535 [] ++
        encodeEpbs .LittleEndian [⟨1, 0, 1000000, 100, [0xA1, 0xA2, 0xA3, 0xA4], []⟩,
          ⟨0, 0, 2000000, 200, [0xB1, 0xB2, 0xB3, 0xB4], []⟩])) 2 =
      .ok (.ok [.packet ⟨⟨1, 0, .Local⟩, 100⟩ [6, 0, 0, 0], .fail .ErrMalformedPcap]) := rfl

/-- C10 (what the code does): Section Header Block, an Interface Description
Block whose `if_tsresol` option is `0x8A` (units of 1/1024 s), and one
Enhanced Packet Block on interface 0. `readPcapNg` panics with an integer
division by zero: `1 << timeResolution` is 0 for a shift count of 138, and
`1e9 / p.secondMask` follows. -/
theorem pcapng_binary_tsresol_stream :
    decodePcapNg
      (shbBlock .LittleEndian 1 0 0xFFFFFFFFFFFFFFFF [] ++
        (idbBlock .LittleEndian 1 0 65535 [9, 0, 1, 0, 0x8A, 0, 0, 0, 0, 0, 0, 0] ++
          encodeEpbs .LittleEndian [⟨0, 0, 2000000, 200, [0xB1, 0xB2, 0xB3, 0xB4], []⟩])) 1 =
      .error .divideByZero := rfl

/-! ## PCAPNG: reads and copies that find enough bytes -/

theorem ioCopyN_exact (a rest : List Byte) (amount : Int) (h : amount = (a.length : Int)) :
    ioCopyN (a ++ rest) amount = ⟨a.length, none, a, rest⟩ := by
  unfold ioCopyN
  subst h
  by_cases h0 : a.length = 0
  · have ha : a = [] := List.length_eq_zero.mp h0
    subst ha
    simp
  · have h1 : ¬ ((a.length : Int) ≤ 0) := by omega
    have h2 : ¬ (((a ++ rest).length : Int) < (a.length : Int)) := by
      rw [List.length_append]; omega
    simp only [h1, h2, if_false, Int.toNat_ofNat, List.take_left, List.drop_left]

theorem pcapng_readFull_full (p : pcapng) (a rest : List Byte) (n : Nat) (hn : a.length = n)
    (hpos : 0 < n) (hr : p.reader = a ++ rest) :
    p.readFull (List.replicate n 0) =
      ({ p with reader := rest, sectionOffset := (p.sectionOffset + n) % 2 ^ 64 }, a, none) := by
  unfold pcapng.readFull
  rw [hr, ioReadFull_full a rest _ (by simp [hn]) (by simpa using hpos)]
  simp

theorem pcapng_writeNInto_discard (p : pcapng) (a rest : List Byte) (amount : Int)
    (h : amount = (a.length : Int)) (hr : p.reader = a ++ rest) :
    p.writeNInto .Discard amount =
      ({ p with reader := rest, sectionOffset := (p.sectionOffset + a.length) % 2 ^ 64 },
        none) := by
  unfold pcapng.writeNInto
  rw [hr, ioCopyN_exact a rest amount h]

theorem pcapng_writeNInto_buffer (p : pcapng) (a rest : List Byte) (amount : Int)
    (h : amount = (a.length : Int)) (hr : p.reader = a ++ rest) :
    p.writeNInto .packetDataRaw amount =
      ({ p with reader := rest, sectionOffset := (p.sectionOffset + a.length) % 2 ^ 64,
                packetDataRaw := p.packetDataRaw ++ a }, none) := by
  unfold pcapng.writeNInto
  rw [hr, ioCopyN_exact a rest amount h]

theorem readToLoop_stop (stateMask fuel : Nat) (p : pcapng) (err : Option Err)
    (st : ngReaderState) (hs : p.readState = st)
    (h : ¬ (st.bits &&& stateMask = 0 ∧ st ≠ .ngRSDone)) :
    pcapng.readToLoop stateMask (fuel + 1) p err = .ok (p, err) := by
  subst hs
  simp only [pcapng.readToLoop, h, if_false]

theorem readToLoop_step (stateMask fuel : Nat) (p p1 : pcapng) (err e : Option Err)
    (st0 st : ngReaderState) (reader : pcapng → ReaderResult) (hs0 : p.readState = st0)
    (h : st0.bits &&& stateMask = 0 ∧ st0 ≠ .ngRSDone)
    (hs : stateToReader st0 = some reader) (hr : reader p = .ok (p1, st, e)) :
    pcapng.readToLoop stateMask (fuel + 1) p err =
      pcapng.readToLoop stateMask fuel { p1 with readState := st } e := by
  subst hs0
  rw [pcapng.readToLoop, if_pos h]
  simp only [hs, hr]

theorem readToLoop_mono (stateMask : Nat) (fuel : Nat) :
    ∀ (p : pcapng) (err : Option Err) (r : pcapng × Option Err),
      pcapng.readToLoop stateMask fuel p err = .ok r →
      ∀ more, pcapng.readToLoop stateMask (fuel + more) p err = .ok r := by
  induction fuel with
  | zero =>
    intro p err r h
    simp [pcapng.readToLoop] at h
  | succ f ih =>
    intro p err r h more
    have hadd : f + 1 + more = (f + more) + 1 := by omega
    rw [hadd]
    rw [pcapng.readToLoop] at h ⊢
    by_cases hg : p.readState.bits &&& stateMask = 0 ∧ p.readState ≠ .ngRSDone
    · rw [if_pos hg] at h ⊢
      cases hs : stateToReader p.readState with
      | none => simp [hs] at h
      | some reader =>
        simp only [hs] at h ⊢
        cases hr : reader p with
        | error a => simp [hr] at h
        | ok x =>
          obtain ⟨p1, st, e⟩ := x
          simp only [hr] at h ⊢
          exact ih _ _ _ h more
    · rw [if_neg hg] at h ⊢
      exact h

theorem readTo_of_loop (p : pcapng) (stateMask fuel : Nat) (r : pcapng × Option Err)
    (h : pcapng.readToLoop stateMask fuel p none = .ok r)
    (hfuel : fuel ≤ 3 * p.reader.length + 4) :
    p.readTo stateMask = .ok r := by
  unfold pcapng.readTo
  obtain ⟨more, hm⟩ : ∃ more, 3 * p.reader.length + 4 = fuel + more := ⟨_, (Nat.add_sub_cancel' hfuel).symm⟩
  rw [hm]
  exact readToLoop_mono stateMask fuel p none r h more

/-! ## PCAPNG: the block readers on well-formed blocks -/

theorem blockTypeReader_tag (p : pcapng) (bo : ByteOrder) (t : Nat) (rest : List Byte)
    (hbo : p.byteOrder = some bo) (hr : p.reader = bo.put 4 t ++ rest) (ht : t < 2 ^ 32) :
    pcapngBlockTypeReader p =
      .ok ({ p with reader := rest, sectionOffset := (p.sectionOffset + 4) % 2 ^ 64 },
        (if t = ngSHB then .ngRSSHB else if t = ngIDB then .ngRSIDB
          else if t = ngSPB then .ngRSSPB else if t = ngEPB then .ngRSEPB
          else .ngRSIgnoreBlock), none) := by
  unfold pcapngBlockTypeReader
  rw [pcapng_readFull_full p _ rest 4 (put_length bo 4 t) (by decide) hr]
  have hv : bo.Uint32 (bo.put 4 t) = t := by
    unfold ByteOrder.Uint32
    rw [uintN_put]
    exact Nat.mod_eq_of_lt (by norm_num; omega)
  simp only [pcapng.order, hbo, bind, Except.bind, hv]
  split_ifs <;> rfl

theorem blockTypeReader_eof (p : pcapng) (hr : p.reader = []) :
    pcapngBlockTypeReader p =
      .ok ({ p with reader := [], sectionOffset := p.sectionOffset % 2 ^ 64 }, .ngRSDone,
        some .EOF) := by
  unfold pcapngBlockTypeReader pcapng.readFull
  rw [hr, ioReadFull_nil _ (by simp)]
  simp

theorem epb_header_length (bo : ByteOrder) (b : Epb) : (b.header bo).length = 24 := by
  simp [Epb.header, put_length]

theorem epb_header_totalLen (bo : ByteOrder) (b : Epb) :
    bo.Uint32 (slice (b.header bo) 0 4) = b.totalLen % 2 ^ 32 := by
  unfold Epb.header ByteOrder.Uint32
  rw [slice_head _ _ _ (by simp [put_length]), uintN_put]
  norm_num

theorem epb_header_ifId (bo : ByteOrder) (b : Epb) :
    bo.Uint32 (slice (b.header bo) 4 8) = b.ifId % 2 ^ 32 := by
  unfold Epb.header ByteOrder.Uint32
  rw [
    slice_skip _ _ _ _ (by simp [put_length]), put_length,
    slice_head _ _ _ (by simp [put_length]), uintN_put]
  norm_num

theorem epb_header_tsHigh (bo : ByteOrder) (b : Epb) :
    bo.Uint32 (slice (b.header bo) 8 12) = b.tsHigh % 2 ^ 32 := by
  unfold Epb.header ByteOrder.Uint32
  rw [
    slice_skip _ _ _ _ (by simp [put_length]), put_length,
    slice_skip _ _ _ _ (by simp [put_length]), put_length,
    slice_head _ _ _ (by simp [put_length]), uintN_put]
  norm_num

theorem epb_header_tsLow (bo : ByteOrder) (b : Epb) :
    bo.Uint32 (slice (b.header bo) 12 16) = b.tsLow % 2 ^ 32 := by
  unfold Epb.header ByteOrder.Uint32
  rw [
    slice_skip _ _ _ _ (by simp [put_length]), put_length,
    slice_skip _ _ _ _ (by simp [put_length]), put_length,
    slice_skip _ _ _ _ (by simp [put_length]), put_length,
    slice_head _ _ _ (by simp [put_length]), uintN_put]
  norm_num

theorem epb_header_capLen (bo : ByteOrder) (b : Epb) :
    bo.Uint32 (slice (b.header bo) 16 20) = b.data.length % 2 ^ 32 := by
  unfold Epb.header ByteOrder.Uint32
  rw [
    slice_skip _ _ _ _ (by simp [put_length]), put_length,
    slice_skip _ _ _ _ (by simp [put_length]), put_length,
    slice_skip _ _ _ _ (by simp [put_length]), put_length,
    slice_skip _ _ _ _ (by simp [put_length]), put_length,
    slice_head _ _ _ (by simp [put_length]), uintN_put]
  norm_num

theorem epb_header_origLen (bo : ByteOrder) (b : Epb) :
    bo.Uint32 (slice (b.header bo) 20 24) = b.origLen % 2 ^ 32 := by
  unfold Epb.header ByteOrder.Uint32
  rw [
    slice_skip _ _ _ _ (by simp [put_length]), put_length,
    slice_skip _ _ _ _ (by simp [put_length]), put_length,
    slice_skip _ _ _ _ (by simp [put_length]), put_length,
    slice_skip _ _ _ _ (by simp [put_length]), put_length,
    slice_skip _ _ _ _ (by simp [put_length]), put_length,
    slice_whole _ _ (by simp [put_length]), uintN_put]
  norm_num

theorem ngEPBReaderRest_block (p : pcapng) (bo : ByteOrder) (b : Epb) (rest : List Byte)
    (hmask : p.secondMask ≠ 0) (hdown : p.tsScaleDown ≠ 0) (hfit : b.fieldsFit)
    (hr : p.reader = b.data ++ (b.trailer ++ (bo.put 4 b.totalLen ++ rest))) :
    ∃ so, ngEPBReaderRest p bo (b.header bo) b.totalLen =
      .ok ({ p with reader := rest, sectionOffset := so,
                    packetDataRaw := p.packetDataRaw ++ b.data,
                    packetInfo :=
                      ⟨timeUnix (toInt64 ((b.ts / p.secondMask + p.timeOffset) % 2 ^ 64))
                          (toInt64 (((b.ts % p.secondMask * p.tsScaleUp) % 2 ^ 64) /
                            p.tsScaleDown)),
                        b.origLen⟩ },
        .ngRSBlockType, none) := by
  obtain ⟨hif, hth, htl, hol, htot⟩ := hfit
  have hdl : b.data.length < 2 ^ 32 := by unfold Epb.totalLen at htot; omega
  have hw1 := pcapng_writeNInto_buffer p b.data _ (b.data.length : Int) rfl hr
  refine ⟨((p.sectionOffset + b.data.length) % 2 ^ 64 +
    (b.trailer ++ bo.put 4 b.totalLen).length) % 2 ^ 64, ?_⟩
  unfold ngEPBReaderRest
  simp only [epb_header_capLen, epb_header_tsHigh, epb_header_tsLow, epb_header_origLen,
    Nat.mod_eq_of_lt hdl, Nat.mod_eq_of_lt hth, Nat.mod_eq_of_lt htl, Nat.mod_eq_of_lt hol, hw1,
    isEOF, hmask, hdown, if_false]
  have hamt : (b.totalLen : Int) - ((((b.header bo).length : Nat) : Int) + (b.data.length : Int) + 4)
      = (((b.trailer ++ bo.put 4 b.totalLen).length : Nat) : Int) := by
    rw [epb_header_length, List.length_append, put_length]
    unfold Epb.totalLen
    push_cast
    ring
  rw [pcapng_writeNInto_discard _ (b.trailer ++ bo.put 4 b.totalLen) rest _ hamt (by simp)]
  simp [Epb.ts]

theorem ngEPBReader_block (p : pcapng) (bo : ByteOrder) (b : Epb) (rest : List Byte)
    (hbo : p.byteOrder = some bo) (hid : p.ifId = b.ifId) (hmask : p.secondMask ≠ 0)
    (hdown : p.tsScaleDown ≠ 0) (hfit : b.fieldsFit)
    (hr : p.reader = b.header bo ++ (b.data ++ (b.trailer ++ (bo.put 4 b.totalLen ++ rest)))) :
    ∃ so, ngEPBReader p =
      .ok ({ p with reader := rest, sectionOffset := so, packetDataRaw := b.data,
                    packetInfo :=
                      ⟨timeUnix (toInt64 ((b.ts / p.secondMask + p.timeOffset) % 2 ^ 64))
                          (toInt64 (((b.ts % p.secondMask * p.tsScaleUp) % 2 ^ 64) /
                            p.tsScaleDown)),
                        b.origLen⟩ },
        .ngRSBlockType, none) := by
  have hif : b.ifId < 2 ^ 32 := hfit.1
  have htot : b.totalLen < 2 ^ 32 := hfit.2.2.2.2
  have hrf := pcapng_readFull_full { p with packetDataRaw := [] } (b.header bo) _ 24
    (epb_header_length bo b) (by decide) hr
  obtain ⟨so, hrest⟩ := ngEPBReaderRest_block
    { p with reader := b.data ++ (b.trailer ++ (bo.put 4 b.totalLen ++ rest)),
             sectionOffset := (p.sectionOffset + 24) % 2 ^ 64,
             packetDataRaw := [] } bo b rest hmask hdown hfit rfl
  refine ⟨so, ?_⟩
  unfold ngEPBReader
  simp only [hrf]
  simp only [isEOF, pcapng.order, hbo, bind, Except.bind, epb_header_totalLen,
    epb_header_ifId, Nat.mod_eq_of_lt hif, Nat.mod_eq_of_lt htot, hid]
  simpa [hbo, hid] using hrest

/-! ## PCAPNG: `readTo` and `Next` over Enhanced Packet Blocks -/

theorem readTo_data_at_epb (p : pcapng) (hs : p.readState = .ngRSEPB) :
    p.readTo ngRSData = .ok (p, none) := by
  unfold pcapng.readTo
  have hf : 3 * p.reader.length + 4 = (3 * p.reader.length + 3) + 1 := by omega
  rw [hf, readToLoop_stop _ _ _ _ _ hs (by decide)]

theorem readTo_data_tag (p : pcapng) (bo : ByteOrder) (rest : List Byte)
    (hs : p.readState = .ngRSBlockType) (hbo : p.byteOrder = some bo)
    (hr : p.reader = bo.put 4 ngEPB ++ rest) :
    p.readTo ngRSData =
      .ok ({ p with reader := rest, sectionOffset := (p.sectionOffset + 4) % 2 ^ 64,
                    readState := .ngRSEPB }, none) := by
  unfold pcapng.readTo
  have hf : 3 * p.reader.length + 4 = (3 * p.reader.length + 2) + 1 + 1 := by omega
  rw [hf, readToLoop_step _ _ p _ _ _ _ _ pcapngBlockTypeReader hs (by decide) rfl
    (blockTypeReader_tag p bo ngEPB rest hbo hr (by decide)),
    readToLoop_stop _ _ _ _ .ngRSEPB rfl (by decide)]
  rfl

theorem readTo_data_eof (p : pcapng) (hs : p.readState = .ngRSBlockType) (hr : p.reader = []) :
    p.readTo ngRSData =
      .ok ({ p with reader := [], sectionOffset := p.sectionOffset % 2 ^ 64,
                    readState := .ngRSDone }, some .EOF) := by
  unfold pcapng.readTo
  have hf : 3 * p.reader.length + 4 = (3 * p.reader.length + 2) + 1 + 1 := by omega
  rw [hf, readToLoop_step _ _ p _ _ _ _ _ pcapngBlockTypeReader hs (by decide) rfl
    (blockTypeReader_eof p hr),
    readToLoop_stop _ _ _ _ .ngRSDone rfl (by decide)]

theorem readTo_notData_epb (p : pcapng) (bo : ByteOrder) (b : Epb) (rest : List Byte)
    (hs : p.readState = .ngRSEPB) (hbo : p.byteOrder = some bo) (hid : p.ifId = b.ifId)
    (hmask : p.secondMask ≠ 0) (hdown : p.tsScaleDown ≠ 0) (hfit : b.fieldsFit)
    (hr : p.reader = b.header bo ++ (b.data ++ (b.trailer ++ (bo.put 4 b.totalLen ++ rest)))) :
    ∃ so, p.readTo ngRSNotData =
      .ok ({ p with reader := rest, sectionOffset := so, readState := .ngRSBlockType,
                    packetDataRaw := b.data,
                    packetInfo :=
                      ⟨timeUnix (toInt64 ((b.ts / p.secondMask + p.timeOffset) % 2 ^ 64))
                          (toInt64 (((b.ts % p.secondMask * p.tsScaleUp) % 2 ^ 64) /
                            p.tsScaleDown)),
                        b.origLen⟩ }, none) := by
  obtain ⟨so, hrd⟩ := ngEPBReader_block p bo b rest hbo hid hmask hdown hfit hr
  refine ⟨so, ?_⟩
  unfold pcapng.readTo
  have hf : 3 * p.reader.length + 4 = (3 * p.reader.length + 2) + 1 + 1 := by omega
  rw [hf, readToLoop_step _ _ p _ _ _ _ _ ngEPBReader hs (by decide) rfl hrd,
    readToLoop_stop _ _ _ _ .ngRSBlockType rfl (by decide)]

theorem pcapng_Next_at_epb (p : pcapng) (bo : ByteOrder) (b : Epb) (rest : List Byte)
    (hd : p.dead = false) (hs : p.readState = .ngRSEPB) (hbo : p.byteOrder = some bo)
    (hid : p.ifId = b.ifId) (hmask : p.secondMask ≠ 0) (hdown : p.tsScaleDown ≠ 0)
    (hfit : b.fieldsFit)
    (hr : p.reader = b.header bo ++ (b.data ++ (b.trailer ++ (bo.put 4 b.totalLen ++ rest)))) :
    ∃ so, p.Next =
      .ok (Epb.expected p.secondMask p.timeOffset p.tsScaleUp p.tsScaleDown b,
        { p with reader := rest, sectionOffset := so, readState := .ngRSBlockType,
                 packetDataRaw := b.data,
                 packetInfo :=
                   ⟨timeUnix (toInt64 ((b.ts / p.secondMask + p.timeOffset) % 2 ^ 64))
                       (toInt64 (((b.ts % p.secondMask * p.tsScaleUp) % 2 ^ 64) /
                         p.tsScaleDown)),
                     b.origLen⟩ }) := by
  obtain ⟨so, h2⟩ := readTo_notData_epb p bo b rest hs hbo hid hmask hdown hfit hr
  refine ⟨so, ?_⟩
  unfold pcapng.Next
  simp only [hd, Bool.false_eq_true, if_false, readTo_data_at_epb p hs, h2]
  rfl

theorem pcapng_Next_at_blockType (p : pcapng) (bo : ByteOrder) (b : Epb) (rest : List Byte)
    (hd : p.dead = false) (hs : p.readState = .ngRSBlockType) (hbo : p.byteOrder = some bo)
    (hid : p.ifId = b.ifId) (hmask : p.secondMask ≠ 0) (hdown : p.tsScaleDown ≠ 0)
    (hfit : b.fieldsFit) (hr : p.reader = b.encode bo ++ rest) :
    ∃ so, p.Next =
      .ok (Epb.expected p.secondMask p.timeOffset p.tsScaleUp p.tsScaleDown b,
        { p with reader := rest, sectionOffset := so, readState := .ngRSBlockType,
                 packetDataRaw := b.data,
                 packetInfo :=
                   ⟨timeUnix (toInt64 ((b.ts / p.secondMask + p.timeOffset) % 2 ^ 64))
                       (toInt64 (((b.ts % p.secondMask * p.tsScaleUp) % 2 ^ 64) /
                         p.tsScaleDown)),
                     b.origLen⟩ }) := by
  have h1 := readTo_data_tag p bo
    (b.header bo ++ (b.data ++ (b.trailer ++ (bo.put 4 b.totalLen ++ rest)))) hs hbo
    (by rw [hr]; simp [Epb.encode])
  obtain ⟨so, h2⟩ := readTo_notData_epb
    { p with reader := b.header bo ++ (b.data ++ (b.trailer ++ (bo.put 4 b.totalLen ++ rest))),
             sectionOffset := (p.sectionOffset + 4) % 2 ^ 64, readState := .ngRSEPB }
    bo b rest rfl hbo hid hmask hdown hfit rfl
  refine ⟨so, ?_⟩
  unfold pcapng.Next
  rw [h1]
  simp only [h2]
  simp [hd, Epb.expected]

theorem pcapng_Next_at_end (p : pcapng) (hd : p.dead = false)
    (hs : p.readState = .ngRSBlockType) (hr : p.reader = []) :
    p.Next = .ok (.fail .EOF,
      { p with reader := [], sectionOffset := p.sectionOffset % 2 ^ 64,
               readState := .ngRSDone }) := by
  unfold pcapng.Next
  simp only [hd, Bool.false_eq_true, if_false, readTo_data_eof p hs hr]

theorem pcapng_nextN_epbs (p : pcapng) (bo : ByteOrder) (bs : List Epb)
    (hd : p.dead = false) (hs : p.readState = .ngRSBlockType) (hbo : p.byteOrder = some bo)
    (hmask : p.secondMask ≠ 0) (hdown : p.tsScaleDown ≠ 0)
    (hbs : ∀ b ∈ bs, b.fieldsFit ∧ b.ifId = p.ifId) (hr : p.reader = encodeEpbs bo bs) :
    p.nextN (bs.length + 1) =
      .ok (bs.map (Epb.expected p.secondMask p.timeOffset p.tsScaleUp p.tsScaleDown) ++
        [.fail .EOF]) := by
  induction bs generalizing p with
  | nil =>
    have hn := pcapng_Next_at_end p hd hs (by simpa [encodeEpbs] using hr)
    simp [pcapng.nextN, hn]
  | cons b bs ih =>
    obtain ⟨hfit, hid⟩ := hbs b (List.mem_cons_self b bs)
    obtain ⟨so, hn⟩ := pcapng_Next_at_blockType p bo b (encodeEpbs bo bs) hd hs hbo hid.symm
      hmask hdown hfit (by simpa [encodeEpbs] using hr)
    have hrec := ih
      { p with reader := encodeEpbs bo bs, sectionOffset := so, readState := .ngRSBlockType,
               packetDataRaw := b.data,
               packetInfo :=
                 ⟨timeUnix (toInt64 ((b.ts / p.secondMask + p.timeOffset) % 2 ^ 64))
                     (toInt64 (((b.ts % p.secondMask * p.tsScaleUp) % 2 ^ 64) /
                       p.tsScaleDown)),
                   b.origLen⟩ }
      hd rfl hbo hmask hdown (fun x hx => hbs x (List.mem_cons_of_mem b hx)) rfl
    have hunf : p.nextN (bs.length + 1 + 1) =
        match p.Next with
        | .error a => .error a
        | .ok (r, p1) =>
          match pcapng.nextN p1 (bs.length + 1) with
          | .error a => .error a
          | .ok rs => .ok (r :: rs) := rfl
    rw [List.length_cons, hunf, hn]
    simp only []
    rw [hrec]
    rfl

/-! ## PCAPNG: Section Header Block and Interface Description Block -/

theorem ngSHBReader_supported (p : pcapng) (bo : ByteOrder) (minor sectionLen : Nat)
    (opts rest : List Byte) (hminor : minor = 0 ∨ minor = 2) (hsl : sectionLen < 2 ^ 64)
    (hlen : 28 + opts.length < 2 ^ 32)
    (hr : p.reader = bo.put 4 (28 + opts.length) ++ (bo.put 4 ngByteOrderMagic ++
      (bo.put 2 1 ++ (bo.put 2 minor ++ (bo.put 8 sectionLen ++
        (opts ++ (bo.put 4 (28 + opts.length) ++ rest))))))) :
    ∃ so, ngSHBReader p =
      .ok ({ p with ifCounter := 0, ifId := ngUnsetIfId, snaplen := 0, secondMask := 0,
                    timeZone := 0, timeOffset := 0, sectionOffset := so, byteOrder := some bo,
                    sectionLen := sectionLen, reader := rest }, .ngRSBlockType, none) := by
  have hr2 : p.reader = (bo.put 4 (28 + opts.length) ++ (bo.put 4 ngByteOrderMagic ++
      (bo.put 2 1 ++ (bo.put 2 minor ++ bo.put 8 sectionLen)))) ++
        ((opts ++ bo.put 4 (28 + opts.length)) ++ rest) := by
    rw [hr]; simp only [List.append_assoc]
  have hrf := pcapng_readFull_full
    { p with ifCounter := 0, ifId := ngUnsetIfId, snaplen := 0, secondMask := 0, timeZone := 0,
             timeOffset := 0, sectionOffset := 0 } _ _ 20 (by simp [put_length]) (by decide) hr2
  have hbom : slice (bo.put 4 (28 + opts.length) ++ (bo.put 4 ngByteOrderMagic ++
      (bo.put 2 1 ++ (bo.put 2 minor ++ bo.put 8 sectionLen)))) 4 8 = bo.put 4 ngByteOrderMagic := by
    rw [slice_skip _ _ _ _ (by simp [put_length]), put_length,
      slice_head _ _ _ (by simp [put_length])]
  have hblock : bo.Uint32 (slice (bo.put 4 (28 + opts.length) ++ (bo.put 4 ngByteOrderMagic ++
      (bo.put 2 1 ++ (bo.put 2 minor ++ bo.put 8 sectionLen)))) 0 4) = 28 + opts.length := by
    unfold ByteOrder.Uint32
    rw [slice_head _ _ _ (by simp [put_length]), uintN_put]
    exact Nat.mod_eq_of_lt (by norm_num; omega)
  have hmajor : bo.Uint16 (slice (bo.put 4 (28 + opts.length) ++ (bo.put 4 ngByteOrderMagic ++
      (bo.put 2 1 ++ (bo.put 2 minor ++ bo.put 8 sectionLen)))) 8 10) = 1 := by
    unfold ByteOrder.Uint16
    rw [slice_skip _ _ _ _ (by simp [put_length]), put_length,
      slice_skip _ _ _ _ (by simp [put_length]), put_length,
      slice_head _ _ _ (by simp [put_length]), uintN_put]
    norm_num
  have hminorv : bo.Uint16 (slice (bo.put 4 (28 + opts.length) ++ (bo.put 4 ngByteOrderMagic ++
      (bo.put 2 1 ++ (bo.put 2 minor ++ bo.put 8 sectionLen)))) 10 12) = minor := by
    unfold ByteOrder.Uint16
    rw [slice_skip _ _ _ _ (by simp [put_length]), put_length,
      slice_skip _ _ _ _ (by simp [put_length]), put_length,
      slice_skip _ _ _ _ (by simp [put_length]), put_length,
      slice_head _ _ _ (by simp [put_length]), uintN_put]
    rcases hminor with h | h <;> simp [h]
  have hsec : bo.Uint64 (slice (bo.put 4 (28 + opts.length) ++ (bo.put 4 ngByteOrderMagic ++
      (bo.put 2 1 ++ (bo.put 2 minor ++ bo.put 8 sectionLen)))) 12 20) = sectionLen := by
    unfold ByteOrder.Uint64
    rw [slice_skip _ _ _ _ (by simp [put_length]), put_length,
      slice_skip _ _ _ _ (by simp [put_length]), put_length,
      slice_skip _ _ _ _ (by simp [put_length]), put_length,
      slice_skip _ _ _ _ (by simp [put_length]), put_length,
      slice_whole _ _ (by simp [put_length]), uintN_put]
    exact Nat.mod_eq_of_lt (by norm_num; omega)
  have horder : (if ByteOrder.BigEndian.Uint32 (bo.put 4 ngByteOrderMagic) = ngByteOrderMagic
      then some ByteOrder.BigEndian
      else if ByteOrder.LittleEndian.Uint32 (bo.put 4 ngByteOrderMagic) = ngByteOrderMagic
        then some ByteOrder.LittleEndian else none) = some bo := by
    cases bo <;> rfl
  refine ⟨(20 + (opts ++ bo.put 4 (28 + opts.length)).length) % 2 ^ 64, ?_⟩
  unfold ngSHBReader
  simp only [hrf]
  simp only [isEOF, hbom, horder, hblock, hmajor, hminorv, hsec]
  have hver : ¬ (1 ≠ 1 ∨ minor ≠ 0 ∧ minor ≠ 2) := by
    rcases hminor with h | h <;> simp [h]
  have hamt : (((28 + opts.length : Nat) : Int) -
      ((((bo.put 4 (28 + opts.length) ++ (bo.put 4 ngByteOrderMagic ++
        (bo.put 2 1 ++ (bo.put 2 minor ++ bo.put 8 sectionLen)))).length : Nat) : Int) + 4))
      = (((opts ++ bo.put 4 (28 + opts.length)).length : Nat) : Int) := by
    simp only [List.length_append, put_length]
    push_cast
    ring
  simp only [hver, if_false]
  rw [pcapng_writeNInto_discard _ (opts ++ bo.put 4 (28 + opts.length)) rest _ hamt rfl]
  simp

theorem pcapng_readFull_exact (p : pcapng) (a rest : List Byte) (n : Nat) (hn : a.length = n)
    (hr : p.reader = a ++ rest) :
    p.readFull (List.replicate n 0) =
      ({ p with reader := rest, sectionOffset := (p.sectionOffset + n) % 2 ^ 64 }, a, none) := by
  by_cases h0 : n = 0
  · subst h0
    have ha : a = [] := List.length_eq_zero.mp hn
    subst ha
    simp [pcapng.readFull, ioReadFull, hr]
  · exact pcapng_readFull_full p a rest n hn (by omega) hr

theorem timesTen_ne_zero : ∀ n, n < 64 → timesTen n 1 ≠ 0 := by decide

theorem ngIDBReaderTail_ok (x rest : List Byte) (hx : x.length = 4) (p : pcapng)
    (hr : p.reader = x ++ rest) :
    ngIDBReaderTail p =
      .ok ({ p with reader := rest, sectionOffset := (p.sectionOffset + 4) % 2 ^ 64,
                    ifCounter := (p.ifCounter + 1) % 2 ^ 32 }, .ngRSBlockType, none) := by
  unfold ngIDBReaderTail
  rw [pcapng_writeNInto_discard p x rest 4 (by rw [hx]; rfl) hr]
  simp [isEOF, hx]

theorem ngIDBReaderAdopt_decimal (p : pcapng) (linkLayerType snaplen : Nat) (v : IfVars)
    (x rest : List Byte) (hx : x.length = 4) (hres : v.timeResolution < 64)
    (hr : p.reader = x ++ rest) :
    ∃ q, ngIDBReaderAdopt p linkLayerType snaplen v = .ok (q, .ngRSBlockType, none) ∧
      q.reader = rest ∧ q.byteOrder = p.byteOrder ∧ q.dead = p.dead ∧ q.ifId = p.ifCounter ∧
      q.secondMask = timesTen v.timeResolution 1 ∧ q.timeOffset = v.timeOffset ∧
      q.tsScaleUp = (if timesTen v.timeResolution 1 < 1000000000
        then 1000000000 / timesTen v.timeResolution 1 else 1) ∧
      q.tsScaleDown = (if timesTen v.timeResolution 1 < 1000000000
        then 1 else timesTen v.timeResolution 1 / 1000000000) ∧
      q.linkLayerType = linkLayerType ∧ q.snaplen = snaplen ∧
      q.ifCounter = (p.ifCounter + 1) % 2 ^ 32 := by
  have hshift : ¬ (v.timeResolution >>> 7 = 1) := by
    rw [Nat.shiftRight_eq_div_pow]
    have : v.timeResolution / 2 ^ 7 = 0 := Nat.div_eq_of_lt (by norm_num; omega)
    omega
  have hne := timesTen_ne_zero v.timeResolution hres
  unfold ngIDBReaderAdopt
  simp only [hshift, if_false]
  by_cases hlt : timesTen v.timeResolution 1 < 1000000000
  · simp only [hlt, if_true, hne, if_false]
    rw [ngIDBReaderTail_ok x rest hx]
    · exact ⟨_, rfl, rfl, rfl, rfl, rfl, rfl, rfl, rfl, rfl, rfl, rfl, rfl⟩
    · exact hr
  · simp only [hlt, if_false]
    rw [ngIDBReaderTail_ok x rest hx]
    · exact ⟨_, rfl, rfl, rfl, rfl, rfl, rfl, rfl, rfl, rfl, rfl, rfl, rfl⟩
    · exact hr

theorem ngIDBReader_adopts (p : pcapng) (bo : ByteOrder) (linkType reserved snaplen : Nat)
    (opts rest : List Byte) (v : IfVars) (hbo : p.byteOrder = some bo)
    (hllt : ¬ (p.linkLayerType ≠ 0 ∧ p.linkLayerType ≠ linkType)) (hlt : linkType < 2 ^ 16)
    (hsnap : snaplen < 2 ^ 32) (hlen : 20 + opts.length < 2 ^ 32)
    (hopt : optionLoop bo p.ifNameHash opts (opts.length + 1) 0 ⟨0, 6, 0, 0⟩ = .ok (.adopt v))
    (hres : v.timeResolution < 64)
    (hr : p.reader = bo.put 4 (20 + opts.length) ++ (bo.put 2 linkType ++ (bo.put 2 reserved ++
      (bo.put 4 snaplen ++ (opts ++ (bo.put 4 (20 + opts.length) ++ rest)))))) :
    ∃ q, ngIDBReader p = .ok (q, .ngRSBlockType, none) ∧
      q.reader = rest ∧ q.byteOrder = some bo ∧ q.dead = p.dead ∧ q.ifId = p.ifCounter ∧
      q.secondMask = timesTen v.timeResolution 1 ∧ q.timeOffset = v.timeOffset ∧
      q.tsScaleUp = (if timesTen v.timeResolution 1 < 1000000000
        then 1000000000 / timesTen v.timeResolution 1 else 1) ∧
      q.tsScaleDown = (if timesTen v.timeResolution 1 < 1000000000
        then 1 else timesTen v.timeResolution 1 / 1000000000) ∧
      q.linkLayerType = linkType ∧ q.snaplen = snaplen ∧
      q.ifCounter = (p.ifCounter + 1) % 2 ^ 32 := by
  have hr2 : p.reader = (bo.put 4 (20 + opts.length) ++ (bo.put 2 linkType ++
      (bo.put 2 reserved ++ bo.put 4 snaplen))) ++
        (opts ++ (bo.put 4 (20 + opts.length) ++ rest)) := by
    rw [hr]; simp only [List.append_assoc]
  have hrf := pcapng_readFull_full p _ _ 12 (by simp [put_length]) (by decide) hr2
  have hblock : bo.Uint32 (slice (bo.put 4 (20 + opts.length) ++ (bo.put 2 linkType ++
      (bo.put 2 reserved ++ bo.put 4 snaplen))) 0 4) = 20 + opts.length := by
    unfold ByteOrder.Uint32
    rw [slice_head _ _ _ (by simp [put_length]), uintN_put]
    exact Nat.mod_eq_of_lt (by norm_num; omega)
  have hltv : bo.Uint16 (slice (bo.put 4 (20 + opts.length) ++ (bo.put 2 linkType ++
      (bo.put 2 reserved ++ bo.put 4 snaplen))) 4 6) = linkType := by
    unfold ByteOrder.Uint16
    rw [slice_skip _ _ _ _ (by simp [put_length]), put_length,
      slice_head _ _ _ (by simp [put_length]), uintN_put]
    exact Nat.mod_eq_of_lt (by norm_num; omega)
  have hsnapv : bo.Uint32 (slice (bo.put 4 (20 + opts.length) ++ (bo.put 2 linkType ++
      (bo.put 2 reserved ++ bo.put 4 snaplen))) 8 12) = snaplen := by
    unfold ByteOrder.Uint32
    rw [slice_skip _ _ _ _ (by simp [put_length]), put_length,
      slice_skip _ _ _ _ (by simp [put_length]), put_length,
      slice_skip _ _ _ _ (by simp [put_length]), put_length,
      slice_whole _ _ (by simp [put_length]), uintN_put]
    exact Nat.mod_eq_of_lt (by norm_num; omega)
  have hhl : (bo.put 4 (20 + opts.length) ++ (bo.put 2 linkType ++
      (bo.put 2 reserved ++ bo.put 4 snaplen))).length = 12 := by simp [put_length]
  have hrf2 := pcapng_readFull_exact
    { p with byteOrder := some bo, reader := opts ++ (bo.put 4 (20 + opts.length) ++ rest),
             sectionOffset := (p.sectionOffset + 12) % 2 ^ 64 }
    opts (bo.put 4 (20 + opts.length) ++ rest) (20 + opts.length - (12 + 8)) (by omega) rfl
  obtain ⟨q, hq, hprops⟩ := ngIDBReaderAdopt_decimal
    { p with byteOrder := some bo, reader := bo.put 4 (20 + opts.length) ++ rest,
             sectionOffset := ((p.sectionOffset + 12) % 2 ^ 64 +
               (20 + opts.length - (12 + 8))) % 2 ^ 64 }
    linkType snaplen v (bo.put 4 (20 + opts.length)) rest (put_length _ _ _) hres rfl
  refine ⟨q, ?_, ?_⟩
  · rw [← hq]
    unfold ngIDBReader
    have hneg : ¬ (((20 + opts.length : Nat) : Int) - (((12 : Nat) : Int) + 8) < 0) := by
      push_cast; omega
    simp only [hrf]
    simp only [isEOF, pcapng.order, hbo, bind, Except.bind, hblock, hltv, hsnapv, hhl, hneg,
      if_false, hrf2]
    simp only [hllt, hopt, if_false]
    simp
  · exact hprops

/-! ## PCAPNG: a section of Enhanced Packet Blocks on the locked interface -/

theorem readPcapNg_header_blocks (bo : ByteOrder) (minor sectionLen linkType reserved snaplen : Nat)
    (shbOpts idbOpts tail : List Byte) (v : IfVars)
    (hminor : minor = 0 ∨ minor = 2) (hsl : sectionLen < 2 ^ 64)
    (hshb : 28 + shbOpts.length < 2 ^ 32) (hlt : linkType < 2 ^ 16) (hsnap : snaplen < 2 ^ 32)
    (hidb : 20 + idbOpts.length < 2 ^ 32)
    (hopt : optionLoop bo 0 idbOpts (idbOpts.length + 1) 0 ⟨0, 6, 0, 0⟩ = .ok (.adopt v))
    (hres : v.timeResolution < 64) :
    ∃ p, readPcapNg (shbBlock bo 1 minor sectionLen shbOpts ++
        (idbBlock bo linkType reserved snaplen idbOpts ++ (bo.put 4 ngEPB ++ tail))) = .ok (.ok p) ∧
      p.dead = false ∧ p.readState = .ngRSEPB ∧ p.byteOrder = some bo ∧ p.ifId = 0 ∧
      p.secondMask = timesTen v.timeResolution 1 ∧ p.timeOffset = v.timeOffset ∧
      p.tsScaleUp = (if timesTen v.timeResolution 1 < 1000000000
        then 1000000000 / timesTen v.timeResolution 1 else 1) ∧
      p.tsScaleDown = (if timesTen v.timeResolution 1 < 1000000000
        then 1 else timesTen v.timeResolution 1 / 1000000000) ∧
      p.linkLayerType = linkType ∧ p.reader = tail := by
  -- the section header
  obtain ⟨so1, h1⟩ := ngSHBReader_supported
    { dead := false,
      reader := bo.put 4 (28 + shbOpts.length) ++ (bo.put 4 ngByteOrderMagic ++
        (bo.put 2 1 ++ (bo.put 2 minor ++ (bo.put 8 sectionLen ++
          (shbOpts ++ (bo.put 4 (28 + shbOpts.length) ++
            (idbBlock bo linkType reserved snaplen idbOpts ++ (bo.put 4 ngEPB ++ tail)))))))),
      readState := .ngRSSHB, byteOrder := none, sectionLen := 0,
      sectionOffset := 0, ifCounter := 0, ifNameHash := 0, linkLayerType := 0, ifId := 0,
      snaplen := 0, secondMask := 0, timeZone := 0, timeOffset := 0, tsScaleUp := 0,
      tsScaleDown := 0, packetInfo := ⟨Time.zero, 0⟩, packetDataRaw := [] }
    bo minor sectionLen shbOpts _ hminor hsl hshb rfl
  -- the tag of the interface description
  have h2 := blockTypeReader_tag
    { dead := false,
      reader := idbBlock bo linkType reserved snaplen idbOpts ++ (bo.put 4 ngEPB ++ tail),
      readState := .ngRSBlockType, byteOrder := some bo, sectionLen := sectionLen,
      sectionOffset := so1, ifCounter := 0, ifNameHash := 0, linkLayerType := 0,
      ifId := ngUnsetIfId, snaplen := 0, secondMask := 0, timeZone := 0, timeOffset := 0,
      tsScaleUp := 0, tsScaleDown := 0, packetInfo := ⟨Time.zero, 0⟩, packetDataRaw := [] }
    bo ngIDB
    (bo.put 4 (20 + idbOpts.length) ++ (bo.put 2 linkType ++ (bo.put 2 reserved ++
      (bo.put 4 snaplen ++ (idbOpts ++ (bo.put 4 (20 + idbOpts.length) ++
        (bo.put 4 ngEPB ++ tail)))))))
    rfl (by simp [idbBlock]) (by decide)
  -- the interface description
  obtain ⟨q, h3, hqr, hqbo, hqd, hqid, hqm, hqo, hqu, hqdn, hql, _, _⟩ := ngIDBReader_adopts
    { dead := false,
      reader := bo.put 4 (20 + idbOpts.length) ++ (bo.put 2 linkType ++ (bo.put 2 reserved ++
        (bo.put 4 snaplen ++ (idbOpts ++ (bo.put 4 (20 + idbOpts.length) ++
          (bo.put 4 ngEPB ++ tail)))))),
      readState := .ngRSIDB, byteOrder := some bo, sectionLen := sectionLen,
      sectionOffset := (so1 + 4) % 2 ^ 64, ifCounter := 0, ifNameHash := 0, linkLayerType := 0,
      ifId := ngUnsetIfId, snaplen := 0, secondMask := 0, timeZone := 0, timeOffset := 0,
      tsScaleUp := 0, tsScaleDown := 0, packetInfo := ⟨Time.zero, 0⟩, packetDataRaw := [] }
    bo linkType reserved snaplen idbOpts _ v rfl (by simp) hlt hsnap hidb hopt hres rfl
  -- the tag of the first packet block
  have h4 := blockTypeReader_tag { q with readState := .ngRSBlockType } bo ngEPB tail hqbo hqr
    (by decide)
  refine ⟨{ q with reader := tail, sectionOffset := (q.sectionOffset + 4) % 2 ^ 64,
                   readState := .ngRSEPB }, ?_, hqd, rfl, hqbo, hqid, hqm, hqo, hqu, hqdn, hql, rfl⟩
  have hsrc : shbBlock bo 1 minor sectionLen shbOpts ++
      (idbBlock bo linkType reserved snaplen idbOpts ++ (bo.put 4 ngEPB ++ tail)) =
      bo.put 4 ngSHB ++ (bo.put 4 (28 + shbOpts.length) ++ (bo.put 4 ngByteOrderMagic ++
        (bo.put 2 1 ++ (bo.put 2 minor ++ (bo.put 8 sectionLen ++
          (shbOpts ++ (bo.put 4 (28 + shbOpts.length) ++
            (idbBlock bo linkType reserved snaplen idbOpts ++ (bo.put 4 ngEPB ++ tail))))))))) := by
    simp [shbBlock]
  have htag : ByteOrder.BigEndian.Uint32 (bo.put 4 ngSHB) = ngSHB := by cases bo <;> rfl
  unfold readPcapNg
  rw [hsrc, ioReadFull_full _ _ _ (by simp [put_length]) (by simp)]
  simp only [htag, ne_eq, not_true_eq_false, if_false]
  have hloop : pcapng.readToLoop ngRSData 5
      { dead := false,
        reader := bo.put 4 (28 + shbOpts.length) ++ (bo.put 4 ngByteOrderMagic ++
          (bo.put 2 1 ++ (bo.put 2 minor ++ (bo.put 8 sectionLen ++
            (shbOpts ++ (bo.put 4 (28 + shbOpts.length) ++
              (idbBlock bo linkType reserved snaplen idbOpts ++ (bo.put 4 ngEPB ++ tail)))))))),
        readState := .ngRSSHB, byteOrder := none, sectionLen := 0,
        sectionOffset := 0, ifCounter := 0, ifNameHash := 0, linkLayerType := 0, ifId := 0,
        snaplen := 0, secondMask := 0, timeZone := 0, timeOffset := 0, tsScaleUp := 0,
        tsScaleDown := 0, packetInfo := ⟨Time.zero, 0⟩, packetDataRaw := [] } none =
      .ok ({ q with reader := tail, sectionOffset := (q.sectionOffset + 4) % 2 ^ 64,
                    readState := .ngRSEPB }, none) := by
    have s1 := readToLoop_step ngRSData 4 _ _ none _ .ngRSSHB _ ngSHBReader rfl (by decide) rfl h1
    have s2 := readToLoop_step ngRSData 3 _ _ none _ .ngRSBlockType _ pcapngBlockTypeReader rfl
      (by decide) rfl h2
    have s3 := readToLoop_step ngRSData 2 _ _ none _ .ngRSIDB _ ngIDBReader rfl (by decide) rfl h3
    have s4 := readToLoop_step ngRSData 1 _ _ none _ .ngRSBlockType _ pcapngBlockTypeReader rfl
      (by decide) rfl h4
    have s5 := readToLoop_stop ngRSData 0
      { q with reader := tail, sectionOffset := (q.sectionOffset + 4) % 2 ^ 64,
               readState := .ngRSEPB } none .ngRSEPB rfl (by decide)
    exact s1.trans (s2.trans (s3.trans (s4.trans s5)))
  rw [readTo_of_loop _ _ 5 _ hloop (by simp only [List.length_append, put_length]; omega)]

/-- One supported Section Header Block, one Interface Description Block whose
option loop runs to the end with a decimal resolution byte below 64, and
`N >= 1` well-formed Enhanced Packet Blocks on interface 0, in either byte
order: `readPcapNg` succeeds, the first `N` calls of `Next` return the blocks
in file order (captured bytes, `Size` = original length, capture time from
the locked scaling) and call `N + 1` returns `io.EOF`. -/
theorem readPcapNg_epb_stream (bo : ByteOrder)
    (minor sectionLen linkType reserved snaplen : Nat) (shbOpts idbOpts : List Byte) (v : IfVars)
    (b : Epb) (bs : List Epb)
    (hminor : minor = 0 ∨ minor = 2) (hsl : sectionLen < 2 ^ 64)
    (hshb : 28 + shbOpts.length < 2 ^ 32) (hlt : linkType < 2 ^ 16) (hsnap : snaplen < 2 ^ 32)
    (hidb : 20 + idbOpts.length < 2 ^ 32)
    (hopt : optionLoop bo 0 idbOpts (idbOpts.length + 1) 0 ⟨0, 6, 0, 0⟩ = .ok (.adopt v))
    (hres : v.timeResolution < 64)
    (hfit : ∀ x ∈ b :: bs, x.fieldsFit ∧ x.ifId = 0) :
    decodePcapNg (shbBlock bo 1 minor sectionLen shbOpts ++
        (idbBlock bo linkType reserved snaplen idbOpts ++ encodeEpbs bo (b :: bs)))
        ((b :: bs).length + 1) =
      .ok (.ok ((b :: bs).map
        (Epb.expected (timesTen v.timeResolution 1) v.timeOffset
          (if timesTen v.timeResolution 1 < 1000000000
            then 1000000000 / timesTen v.timeResolution 1 else 1)
          (if timesTen v.timeResolution 1 < 1000000000
            then 1 else timesTen v.timeResolution 1 / 1000000000)) ++ [.fail .EOF])) := by
  have henc : encodeEpbs bo (b :: bs) = bo.put 4 ngEPB ++
      (b.header bo ++ (b.data ++ (b.trailer ++ (bo.put 4 b.totalLen ++ encodeEpbs bo bs)))) := by
    simp [encodeEpbs, Epb.encode]
  obtain ⟨p, hp, hd, hs, hbo, hid, hm, ho, hu, hdn, _, hr⟩ :=
    readPcapNg_header_blocks bo minor sectionLen linkType reserved snaplen shbOpts idbOpts
      (b.header bo ++ (b.data ++ (b.trailer ++ (bo.put 4 b.totalLen ++ encodeEpbs bo bs))))
      v hminor hsl hshb hlt hsnap hidb hopt hres
  have hmask : p.secondMask ≠ 0 := by rw [hm]; exact timesTen_ne_zero _ hres
  have hdown : p.tsScaleDown ≠ 0 := by
    rw [hdn]
    split_ifs with h
    · decide
    · have : 1000000000 ≤ timesTen v.timeResolution 1 := by omega
      have := Nat.div_pos this (by decide : 0 < 1000000000)
      omega
  obtain ⟨hbfit, hbid⟩ := hfit b (List.mem_cons_self b bs)
  obtain ⟨so, hn⟩ := pcapng_Next_at_epb p bo b (encodeEpbs bo bs) hd hs hbo (hid.trans hbid.symm)
    hmask hdown hbfit hr
  have hrec := pcapng_nextN_epbs
    { p with reader := encodeEpbs bo bs, sectionOffset := so, readState := .ngRSBlockType,
             packetDataRaw := b.data,
             packetInfo :=
               ⟨timeUnix (toInt64 ((b.ts / p.secondMask + p.timeOffset) % 2 ^ 64))
                   (toInt64 (((b.ts % p.secondMask * p.tsScaleUp) % 2 ^ 64) / p.tsScaleDown)),
                 b.origLen⟩ }
    bo bs hd rfl hbo hmask hdown
    (fun x hx => ⟨(hfit x (List.mem_cons_of_mem b hx)).1,
      ((hfit x (List.mem_cons_of_mem b hx)).2).trans hid.symm⟩) rfl
  have hunf : p.nextN (bs.length + 1 + 1) =
      match p.Next with
      | .error a => .error a
      | .ok (r, p1) =>
        match pcapng.nextN p1 (bs.length + 1) with
        | .error a => .error a
        | .ok rs => .ok (r :: rs) := rfl
  unfold decodePcapNg
  rw [henc, hp]
  simp only [List.length_cons]
  rw [hunf, hn]
  simp only []
  rw [hrec]
  simp only [hm, ho, hu, hdn, List.map_cons, List.cons_append]

theorem readPcapNg_epb_stream_sample :
    decodePcapNg (shbBlock .BigEndian 1 0 0xFFFFFFFFFFFFFFFF [] ++
        (idbBlock .BigEndian 1 0 65535 [] ++ encodeEpbs .BigEndian
          [⟨0, 0, 2000000, 200, [0xB1, 0xB2, 0xB3, 0xB4], []⟩,
            ⟨0, 0, 2500000, 60, [0xC1], [0, 0, 0]⟩]))
        ([(⟨0, 0, 2000000, 200, [0xB1, 0xB2, 0xB3, 0xB4], []⟩ : Epb),
            ⟨0, 0, 2500000, 60, [0xC1], [0, 0, 0]⟩].length + 1) =
      .ok (.ok ([(⟨0, 0, 2000000, 200, [0xB1, 0xB2, 0xB3, 0xB4], []⟩ : Epb),
            ⟨0, 0, 2500000, 60, [0xC1], [0, 0, 0]⟩].map
        (Epb.expected (timesTen 6 1) 0
          (if timesTen 6 1 < 1000000000 then 1000000000 / timesTen 6 1 else 1)
          (if timesTen 6 1 < 1000000000 then 1 else timesTen 6 1 / 1000000000)) ++
        [.fail .EOF])) :=
  readPcapNg_epb_stream .BigEndian 0 0xFFFFFFFFFFFFFFFF 1 0 65535 [] [] ⟨0, 6, 0, 0⟩
    ⟨0, 0, 2000000, 200, [0xB1, 0xB2, 0xB3, 0xB4], []⟩ [⟨0, 0, 2500000, 60, [0xC1], [0, 0, 0]⟩]
    (Or.inl rfl) (by decide) (by decide) (by decide) (by decide) (by decide) rfl (by decide)
    (by simp [Epb.fieldsFit, Epb.totalLen])

/-! ## PCAPNG: the iteration bound of `readTo` is never reached -/


theorem ioReadFull_rest_le (r buf : List Byte) : (ioReadFull r buf).rest.length ≤ r.length := by
  unfold ioReadFull
  split_ifs <;> simp

theorem ioReadFull_rest_of_ok (r buf : List Byte) (h : (ioReadFull r buf).err = none) :
    (ioReadFull r buf).rest.length + buf.length = r.length := by
  unfold ioReadFull at h ⊢
  split_ifs at h ⊢ with h1 h2 h3
  · simp [h1]
  · simp only [List.length_drop]
    omega

theorem ioCopyN_rest_le (r : List Byte) (amount : Int) :
    (ioCopyN r amount).rest.length ≤ r.length := by
  unfold ioCopyN
  split_ifs <;> simp

theorem readFull_rest_le (p : pcapng) (buff : List Byte) :
    (p.readFull buff).1.reader.length ≤ p.reader.length := by
  unfold pcapng.readFull
  exact ioReadFull_rest_le _ _

theorem writeNInto_rest_le (p : pcapng) (dst : Writer) (amount : Int) :
    (p.writeNInto dst amount).1.reader.length ≤ p.reader.length := by
  unfold pcapng.writeNInto
  cases dst <;> exact ioCopyN_rest_le _ _


theorem ioReadFull_err_cases (r buf : List Byte) :
    (ioReadFull r buf).err = none ∨ (ioReadFull r buf).err = some .EOF ∨
      (ioReadFull r buf).err = some .ErrUnexpectedEOF := by
  unfold ioReadFull
  split_ifs <;> simp

theorem blockTypeReader_progress (p p1 : pcapng) (st : ngReaderState) (e : Option Err)
    (h : pcapngBlockTypeReader p = .ok (p1, st, e)) :
    st = .ngRSDone ∨ p1.reader.length + 4 ≤ p.reader.length := by
  unfold pcapngBlockTypeReader pcapng.readFull at h
  have h1 := ioReadFull_rest_of_ok p.reader (List.replicate 4 0)
  have h2 := ioReadFull_err_cases p.reader (List.replicate 4 0)
  generalize ioReadFull p.reader (List.replicate 4 0) = rd at h h1 h2
  obtain ⟨n, err, buf, rest⟩ := rd
  simp only [pcapng.order, bind, Except.bind] at h h1 h2
  rcases h2 with rfl | rfl | rfl
  · right
    have h3 := h1 rfl
    simp only [List.length_replicate] at h3
    cases hbo : p.byteOrder with
    | none => simp [hbo] at h
    | some bo =>
      simp only [hbo] at h
      split_ifs at h <;>
        (simp only [Except.ok.injEq, Prod.mk.injEq] at h
         obtain ⟨rfl, -, -⟩ := h
         simp only []
         omega)
  · simp only [Except.ok.injEq, Prod.mk.injEq] at h
    exact Or.inl h.2.1.symm
  · simp only [Except.ok.injEq, Prod.mk.injEq] at h
    exact Or.inl h.2.1.symm

theorem bounded_mono (r : ReaderResult) (m n : Nat) (A : List ngReaderState)
    (h : r.bounded m A) (hmn : m ≤ n) : r.bounded n A := by
  unfold ReaderResult.bounded at h ⊢
  split
  · simpa using h
  · rename_i p1 st e
    exact ⟨le_trans h.1 hmn, h.2⟩

theorem ngIgnoreBlockReader_bounded (p : pcapng) :
    (ngIgnoreBlockReader p).bounded p.reader.length [.ngRSDone, .ngRSBlockType] := by
  unfold ngIgnoreBlockReader
  simp only [pcapng.order, bind, Except.bind]
  split_ifs
  · exact ⟨readFull_rest_le _ _, by simp⟩
  · cases hbo : (p.readFull (List.replicate 4 0)).1.byteOrder with
    | none => simp [ReaderResult.bounded]
    | some bo =>
      simp only []
      split_ifs
      · exact ⟨le_trans (writeNInto_rest_le _ _ _) (readFull_rest_le _ _), by simp⟩
      · exact ⟨le_trans (writeNInto_rest_le _ _ _) (readFull_rest_le _ _), by simp⟩

theorem ngIgnoreSectionReader_bounded (p : pcapng) :
    (ngIgnoreSectionReader p).bounded p.reader.length [.ngRSDone, .ngRSBlockType] := by
  unfold ngIgnoreSectionReader
  simp only []
  split_ifs
  · exact ⟨ioCopyN_rest_le _ _, by simp⟩
  · exact ⟨ioCopyN_rest_le _ _, by simp⟩

theorem ngSHBReader_bounded (p : pcapng) :
    (ngSHBReader p).bounded p.reader.length [.ngRSDone, .ngRSBlockType] := by
  unfold ngSHBReader
  simp only []
  split_ifs
  · exact ⟨readFull_rest_le _ _, by simp⟩
  · exact ⟨le_trans (writeNInto_rest_le _ _ _) (readFull_rest_le _ _), by simp⟩
  · exact ⟨le_trans (writeNInto_rest_le _ _ _) (readFull_rest_le _ _), by simp⟩
  · exact ⟨readFull_rest_le _ _, by simp⟩

theorem ngIDBReaderTail_bounded (p : pcapng) :
    (ngIDBReaderTail p).bounded p.reader.length [.ngRSDone, .ngRSBlockType] := by
  unfold ngIDBReaderTail
  simp only []
  split_ifs
  · exact ⟨writeNInto_rest_le _ _ _, by simp⟩
  · exact ⟨writeNInto_rest_le _ _ _, by simp⟩

theorem ngIDBReaderAdopt_bounded (p : pcapng) (linkLayerType snaplen : Nat) (v : IfVars) :
    (ngIDBReaderAdopt p linkLayerType snaplen v).bounded p.reader.length
      [.ngRSDone, .ngRSBlockType] := by
  unfold ngIDBReaderAdopt
  simp only []
  split_ifs
  all_goals first
    | exact ngIDBReaderTail_bounded _
    | simp [ReaderResult.bounded]

theorem ngSPBReader_bounded (p : pcapng) :
    (ngSPBReader p).bounded p.reader.length
      [.ngRSDone, .ngRSBlockType, .ngRSIgnoreSection] := by
  unfold ngSPBReader
  have hle := readFull_rest_le p (List.replicate 8 0)
  generalize p.readFull (List.replicate 8 0) = r at hle
  obtain ⟨q, buff, err⟩ := r
  simp only [pcapng.order, bind, Except.bind] at hle ⊢
  cases he : isEOF err
  · simp only [Bool.false_eq_true, if_false]
    cases hbo : q.byteOrder with
    | none => simp [ReaderResult.bounded]
    | some bo =>
      simp only []
      split_ifs
      all_goals first
        | exact ⟨le_trans (writeNInto_rest_le _ _ _) hle, by simp⟩
        | exact ⟨le_trans (writeNInto_rest_le _ _ _)
            (le_trans (writeNInto_rest_le _ _ _) hle), by simp⟩
  · simp only [if_true]
    exact ⟨hle, by simp⟩

theorem ngEPBReaderRest_bounded (p : pcapng) (bo : ByteOrder) (buff : List Byte) (blockLen : Nat) :
    (ngEPBReaderRest p bo buff blockLen).bounded p.reader.length
      [.ngRSDone, .ngRSBlockType] := by
  unfold ngEPBReaderRest
  simp only []
  split_ifs
  all_goals first
    | simp [ReaderResult.bounded]; done
    | exact ⟨writeNInto_rest_le _ _ _, by simp⟩
    | exact ⟨le_trans (writeNInto_rest_le _ _ _) (writeNInto_rest_le _ _ _), by simp⟩

theorem ngEPBReader_bounded (p : pcapng) :
    (ngEPBReader p).bounded p.reader.length [.ngRSDone, .ngRSBlockType] := by
  unfold ngEPBReader
  simp only []
  have hle := readFull_rest_le { p with packetDataRaw := [] } (List.replicate 24 0)
  generalize { p with packetDataRaw := [] }.readFull (List.replicate 24 0) = r at hle
  obtain ⟨q, buff, err⟩ := r
  simp only [pcapng.order, bind, Except.bind] at hle ⊢
  cases he : isEOF err
  · simp only [Bool.false_eq_true, if_false]
    cases hbo : q.byteOrder with
    | none => simp [ReaderResult.bounded]
    | some bo =>
      simp only []
      split_ifs
      · exact ⟨le_trans (writeNInto_rest_le _ _ _) hle, by simp⟩
      · exact bounded_mono _ _ _ _ (ngEPBReaderRest_bounded _ _ _ _)
          (le_trans (writeNInto_rest_le _ _ _) hle)
      · exact bounded_mono _ _ _ _ (ngEPBReaderRest_bounded _ _ _ _) hle
  · simp only [if_true]
    exact ⟨hle, by simp⟩

theorem optionLoop_fuel (bo : ByteOrder) (ifNameHash : Nat) (options : List Byte) (fuel : Nat) :
    ∀ (optionOffset : Nat) (v : IfVars),
      0 < fuel ∧ options.length + 4 ≤ 4 * fuel + optionOffset →
      optionLoop bo ifNameHash options fuel optionOffset v ≠ .error .fuelExhausted := by
  induction fuel with
  | zero =>
    intro off v h
    omega
  | succ f ih =>
    intro off v h
    rw [optionLoop]
    by_cases c1 : off < options.length
    · rw [if_pos c1]
      lift_lets
      intro optionCode optionValueLen optionValue next nameHash
      have hnext : off + 4 ≤ next := by
        simp only [next]
        split_ifs <;> omega
      have key : ∀ w, optionLoop bo ifNameHash options f next w ≠ .error .fuelExhausted :=
        fun w => ih next w ⟨by omega, by omega⟩
      clear_value next optionCode optionValueLen optionValue nameHash
      split_ifs
      all_goals first
        | (simp; done)
        | exact key _
        | (split
           · simp
           · exact key _)
    · rw [if_neg c1]
      simp

theorem ngIDBReader_bounded (p : pcapng) :
    (ngIDBReader p).bounded p.reader.length [.ngRSDone, .ngRSBlockType] := by
  unfold ngIDBReader
  have hle := readFull_rest_le p (List.replicate 12 0)
  generalize p.readFull (List.replicate 12 0) = r at hle
  obtain ⟨q, headerStart, err⟩ := r
  simp only [pcapng.order, bind, Except.bind] at hle ⊢
  cases he : isEOF err
  · simp only [Bool.false_eq_true, if_false]
    cases hbo : q.byteOrder with
    | none => simp [ReaderResult.bounded]
    | some bo =>
      simp only []
      have hle2 := readFull_rest_le q (List.replicate
          (bo.Uint32 (slice headerStart 0 4) - (headerStart.length + 8)) 0)
      generalize q.readFull (List.replicate
          (bo.Uint32 (slice headerStart 0 4) - (headerStart.length + 8)) 0) = r2 at hle2
      obtain ⟨q2, options, err2⟩ := r2
      simp only [] at hle2 ⊢
      split_ifs
      · simp [ReaderResult.bounded]
      · exact ⟨le_trans hle2 hle, by simp⟩
      · exact bounded_mono _ _ _ _ (ngIDBReaderTail_bounded _) (le_trans hle2 hle)
      · have hfuel := optionLoop_fuel bo q2.ifNameHash options (options.length + 1) 0
          ⟨0, 6, 0, 0⟩ ⟨by omega, by omega⟩
        cases hol : optionLoop bo q2.ifNameHash options (options.length + 1) 0
            ⟨0, 6, 0, 0⟩ with
        | error a =>
          simp only [ReaderResult.bounded]
          intro ha
          rw [hol, ha] at hfuel
          exact hfuel rfl
        | ok sc =>
          cases sc with
          | adopt v =>
            exact bounded_mono _ _ _ _ (ngIDBReaderAdopt_bounded _ _ _ _) (le_trans hle2 hle)
          | ignoreInterface =>
            exact bounded_mono _ _ _ _ (ngIDBReaderTail_bounded _) (le_trans hle2 hle)
  · simp only [if_true]
    exact ⟨hle, by simp⟩

theorem bounded_ok (p1 : pcapng) (st : ngReaderState) (e : Option Err) (n : Nat)
    (A : List ngReaderState) (h : ReaderResult.bounded (.ok (p1, st, e)) n A) :
    p1.reader.length ≤ n ∧ st ∈ A := h

theorem reader_step (s : ngReaderState) (reader : pcapng → ReaderResult)
    (hs : stateToReader s = some reader) (p : pcapng) :
    reader p ≠ .error .fuelExhausted ∧
      ∀ p1 st e, reader p = .ok (p1, st, e) →
        st = .ngRSDone ∨ 3 * p1.reader.length + st.rank < 3 * p.reader.length + s.rank := by
  have key : ∀ (A : List ngReaderState), (reader p).bounded p.reader.length A →
      (∀ st ∈ A, st = .ngRSDone ∨ st.rank < s.rank) →
      reader p ≠ .error .fuelExhausted ∧
        ∀ p1 st e, reader p = .ok (p1, st, e) →
          st = .ngRSDone ∨ 3 * p1.reader.length + st.rank < 3 * p.reader.length + s.rank := by
    intro A hb hA
    refine ⟨?_, ?_⟩
    · intro hc
      rw [hc] at hb
      exact hb rfl
    · intro p1 st e hr
      rw [hr] at hb
      obtain ⟨hlen, hmem⟩ := bounded_ok _ _ _ _ _ hb
      rcases hA st hmem with h | h
      · exact Or.inl h
      · right; omega
  cases s with
  | ngRSDone => simp [stateToReader] at hs
  | ngRSIgnoreBlock =>
    simp only [stateToReader, Option.some.injEq] at hs
    subst hs
    exact key _ (ngIgnoreBlockReader_bounded p) (by decide)
  | ngRSIgnoreSection =>
    simp only [stateToReader, Option.some.injEq] at hs
    subst hs
    exact key _ (ngIgnoreSectionReader_bounded p) (by decide)
  | ngRSBlockType =>
    simp only [stateToReader, Option.some.injEq] at hs
    subst hs
    refine ⟨?_, ?_⟩
    · intro hc
      unfold pcapngBlockTypeReader at hc
      generalize p.readFull (List.replicate 4 0) = r at hc
      obtain ⟨q, buf, err⟩ := r
      simp only [pcapng.order, bind, Except.bind] at hc
      cases hbo : q.byteOrder with
      | none =>
        simp only [hbo] at hc
        split at hc <;> simp at hc
      | some bo =>
        simp only [hbo] at hc
        split at hc
        · simp at hc
        · simp at hc
        · split_ifs at hc
    · intro p1 st e hr
      rcases blockTypeReader_progress p p1 st e hr with h | h
      · exact Or.inl h
      · right
        have : st.rank ≤ 2 := by cases st <;> decide
        omega
  | ngRSIDB =>
    simp only [stateToReader, Option.some.injEq] at hs
    subst hs
    exact key _ (ngIDBReader_bounded p) (by decide)
  | ngRSSHB =>
    simp only [stateToReader, Option.some.injEq] at hs
    subst hs
    exact key _ (ngSHBReader_bounded p) (by decide)
  | ngRSSPB =>
    simp only [stateToReader, Option.some.injEq] at hs
    subst hs
    exact key _ (ngSPBReader_bounded p) (by decide)
  | ngRSEPB =>
    simp only [stateToReader, Option.some.injEq] at hs
    subst hs
    exact key _ (ngEPBReader_bounded p) (by decide)

theorem readToLoop_fuel (stateMask : Nat) (fuel : Nat) :
    ∀ (p : pcapng) (err : Option Err),
      3 * p.reader.length + p.readState.rank + 2 ≤ fuel →
      pcapng.readToLoop stateMask fuel p err ≠ .error .fuelExhausted := by
  induction fuel with
  | zero =>
    intro p err h
    omega
  | succ f ih =>
    intro p err h
    rw [pcapng.readToLoop]
    by_cases hg : p.readState.bits &&& stateMask = 0 ∧ p.readState ≠ .ngRSDone
    · rw [if_pos hg]
      cases hs : stateToReader p.readState with
      | none => simp
      | some reader =>
        obtain ⟨hne, hstep⟩ := reader_step p.readState reader hs p
        simp only []
        cases hr : reader p with
        | error a =>
          simp only []
          intro hc
          have ha : a = .fuelExhausted := by simpa using hc
          subst ha
          exact hne hr
        | ok x =>
          obtain ⟨p1, st, e⟩ := x
          simp only []
          rcases hstep p1 st e hr with hdone | hlt
          · subst hdone
            obtain ⟨g, hg2⟩ : ∃ g, f = g + 1 := ⟨f - 1, by omega⟩
            rw [hg2, pcapng.readToLoop]
            simp
          · exact ih _ _ (by simp only []; omega)
    · rw [if_neg hg]
      simp

/-- The iteration bound built into `readTo` is never the reason it stops: on
every decoder state and for every mask `readTo` returns or panics as the Go
loop does. -/
theorem readTo_fuel (p : pcapng) (stateMask : Nat) :
    p.readTo stateMask ≠ .error .fuelExhausted := by
  unfold pcapng.readTo
  apply readToLoop_fuel
  have : p.readState.rank ≤ 2 := by cases p.readState <;> decide
  omega


theorem pcapng_Next_fuel (p : pcapng) : p.Next ≠ .error .fuelExhausted := by
  unfold pcapng.Next
  split_ifs
  · simp
  · have h1 := readTo_fuel p ngRSData
    cases hr1 : p.readTo ngRSData with
    | error a =>
      simp only []
      intro hc
      have ha : a = .fuelExhausted := by simpa using hc
      subst ha
      exact h1 hr1
    | ok x =>
      obtain ⟨p1, e⟩ := x
      cases e with
      | some e1 => simp
      | none =>
        simp only []
        have h2 := readTo_fuel p1 ngRSNotData
        cases hr2 : p1.readTo ngRSNotData with
        | error a =>
          simp only []
          intro hc
          have ha : a = .fuelExhausted := by simpa using hc
          subst ha
          exact h2 hr2
        | ok y =>
          obtain ⟨p2, e2⟩ := y
          cases e2 <;> simp

/-! ## PCAPNG: the option loop on timestamp options, decimal capture times -/

theorem slice_mid (pre a post : List Byte) (n : Nat) (h : a.length = n) :
    slice (pre ++ (a ++ post)) pre.length (pre.length + n) = a := by
  rw [slice_skip _ _ _ _ (le_refl _)]
  simp only [Nat.sub_self, Nat.add_sub_cancel_left]
  exact slice_head a post n h

theorem optionLoop_step (bo : ByteOrder) (ifNameHash : Nat) (options : List Byte) (fuel : Nat)
    (v : IfVars) (pre value pad post : List Byte) (code : Nat) (hcode : code < 2 ^ 16)
    (hlen : value.length < 2 ^ 16) (hpad : pad.length = (4 - value.length % 4) % 4)
    (hopt : options = pre ++ (bo.put 2 code ++ (bo.put 2 value.length ++
      (value ++ (pad ++ post))))) :
    optionLoop bo ifNameHash options (fuel + 1) pre.length v =
      optionDispatch bo ifNameHash options fuel (pre.length + (4 + value.length + pad.length)) v
        code value := by
  have hl : options.length = pre.length + (4 + value.length + pad.length + post.length) := by
    rw [hopt]; simp only [List.length_append, put_length]; omega
  have hc : bo.Uint16 (slice options pre.length (pre.length + 2)) = code := by
    rw [hopt, slice_mid _ _ _ 2 (put_length _ _ _)]
    unfold ByteOrder.Uint16
    rw [uintN_put]
    exact Nat.mod_eq_of_lt (by norm_num; omega)
  have hv : bo.Uint16 (slice options (pre.length + 2) (pre.length + 4)) = value.length := by
    have e : options = (pre ++ bo.put 2 code) ++ (bo.put 2 value.length ++
        (value ++ (pad ++ post))) := by rw [hopt]; simp only [List.append_assoc]
    have := slice_mid (pre ++ bo.put 2 code) (bo.put 2 value.length) (value ++ (pad ++ post)) 2
      (put_length _ _ _)
    rw [List.length_append, put_length, Nat.add_assoc] at this
    rw [e, this]
    unfold ByteOrder.Uint16
    rw [uintN_put]
    exact Nat.mod_eq_of_lt (by norm_num; omega)
  have hval : slice options (pre.length + 4) (pre.length + 4 + value.length) = value := by
    have e : options = (pre ++ (bo.put 2 code ++ bo.put 2 value.length)) ++ (value ++
        (pad ++ post)) := by rw [hopt]; simp only [List.append_assoc]
    have := slice_mid (pre ++ (bo.put 2 code ++ bo.put 2 value.length)) value (pad ++ post)
      value.length rfl
    simp only [List.length_append, put_length] at this
    rw [e]
    exact this
  rw [optionLoop]
  have h1 : pre.length < options.length := by omega
  have h2 : ¬ (pre.length + 2 > options.length) := by omega
  have h3 : ¬ (pre.length + 4 > options.length) := by omega
  rw [if_pos h1, if_neg h2]
  simp only [hc, hv]
  have h4 : ¬ (pre.length + 4 + value.length > options.length) := by omega
  rw [if_neg h3, if_neg h4]
  simp only [hval]
  have hn : (if value.length % 4 ≠ 0 then pre.length + (4 - value.length % 4) else pre.length) +
      (4 + value.length) = pre.length + (4 + value.length + pad.length) := by
    split_ifs <;> omega
  rw [hn]
  rfl

theorem optionLoop_done (bo : ByteOrder) (ifNameHash : Nat) (options : List Byte) (fuel off : Nat)
    (v : IfVars) (h : options.length ≤ off) :
    optionLoop bo ifNameHash options (fuel + 1) off v = .ok (.adopt v) := by
  rw [optionLoop, if_neg (by omega)]

theorem optionLoop_endOfOpt (bo : ByteOrder) (h : Nat) (pre : List Byte) (endOfOpt : Bool)
    (fuel : Nat) (v : IfVars) :
    optionLoop bo h (pre ++ endOfOptions bo endOfOpt) (fuel + 1) pre.length v =
      .ok (.adopt v) := by
  cases endOfOpt
  · exact optionLoop_done _ _ _ _ _ _ (by simp [endOfOptions])
  · rw [optionLoop_step bo h _ fuel v pre [] [] [] 0 (by decide) (by decide) rfl
      (by simp [endOfOptions])]
    rfl

theorem optionLoop_tsoffset (bo : ByteOrder) (h : Nat) (pre : List Byte) (tsoffset : Option Nat)
    (endOfOpt : Bool) (fuel : Nat) (v : IfVars) (ho : ∀ o, tsoffset = some o → o < 2 ^ 64)
    (hf : tsoffset.toList.length + 1 ≤ fuel) :
    optionLoop bo h (pre ++ (ifTsoffsetOption bo tsoffset ++ endOfOptions bo endOfOpt)) fuel
      pre.length v = .ok (.adopt { v with timeOffset := tsoffset.getD v.timeOffset }) := by
  cases tsoffset with
  | none =>
    obtain ⟨f, rfl⟩ : ∃ f, fuel = f + 1 := ⟨fuel - 1, by simp at hf; omega⟩
    simp only [ifTsoffsetOption, List.nil_append, Option.getD_none]
    exact optionLoop_endOfOpt bo h pre endOfOpt f v
  | some o =>
    obtain ⟨f, rfl⟩ : ∃ f, fuel = f + 1 + 1 := ⟨fuel - 2, by simp at hf; omega⟩
    have hlt := ho o rfl
    have hval : bo.Uint64 (bo.put 8 o) = o := by
      unfold ByteOrder.Uint64
      rw [uintN_put]
      exact Nat.mod_eq_of_lt (by norm_num; omega)
    rw [optionLoop_step bo h _ (f + 1) v pre (bo.put 8 o) [] (endOfOptions bo endOfOpt) 14
      (by decide) (by rw [put_length]; decide) (by rw [put_length]; rfl)
      (by simp only [ifTsoffsetOption, put_length, List.append_assoc, List.nil_append])]
    have := optionLoop_endOfOpt bo h (pre ++ (bo.put 2 14 ++ (bo.put 2 8 ++ bo.put 8 o)))
      endOfOpt f { v with timeOffset := o }
    simp only [List.length_append, put_length, List.append_assoc] at this
    simp only [optionDispatch, put_length, hval]
    simpa [ifTsoffsetOption] using this

theorem ifTsOptions_length (bo : ByteOrder) (tsresol : Option Byte) (tsoffset : Option Nat)
    (endOfOpt : Bool) :
    (ifTsOptions bo tsresol tsoffset endOfOpt).length =
      8 * tsresol.toList.length + 12 * tsoffset.toList.length + (if endOfOpt then 4 else 0) := by
  cases tsresol <;> cases tsoffset <;> cases endOfOpt <;>
    simp [ifTsOptions, ifTsresolOption, ifTsoffsetOption, endOfOptions, put_length]

theorem optionLoop_ifTsOptions (bo : ByteOrder) (h : Nat) (tsresol : Option Byte)
    (tsoffset : Option Nat) (endOfOpt : Bool) (ho : ∀ o, tsoffset = some o → o < 2 ^ 64) :
    optionLoop bo h (ifTsOptions bo tsresol tsoffset endOfOpt)
        ((ifTsOptions bo tsresol tsoffset endOfOpt).length + 1) 0 ⟨0, 6, 0, 0⟩ =
      .ok (.adopt ⟨0, (tsresol.map Fin.val).getD 6, 0, tsoffset.getD 0⟩) := by
  have hlen := ifTsOptions_length bo tsresol tsoffset endOfOpt
  cases tsresol with
  | none =>
    have := optionLoop_tsoffset bo h [] tsoffset endOfOpt
      ((ifTsOptions bo none tsoffset endOfOpt).length + 1) ⟨0, 6, 0, 0⟩ ho
      (by rw [hlen]; simp; omega)
    simpa [ifTsOptions, ifTsresolOption] using this
  | some b =>
    obtain ⟨f, hf⟩ : ∃ f, (ifTsOptions bo (some b) tsoffset endOfOpt).length + 1 = f + 1 :=
      ⟨_, rfl⟩
    have hf2 : tsoffset.toList.length + 1 ≤ f := by
      rw [hlen] at hf; simp at hf; omega
    rw [hf]
    have hstep := optionLoop_step bo h (ifTsOptions bo (some b) tsoffset endOfOpt) f ⟨0, 6, 0, 0⟩
      [] [b] [0, 0, 0] (ifTsoffsetOption bo tsoffset ++ endOfOptions bo endOfOpt) 9 (by decide)
      (by simp) (by simp) (by simp [ifTsOptions, ifTsresolOption])
    have hrest := optionLoop_tsoffset bo h (bo.put 2 9 ++ (bo.put 2 1 ++ [b, 0, 0, 0])) tsoffset
      endOfOpt f ⟨0, b.val, 0, 0⟩ ho hf2
    simp only [List.length_nil, List.length_cons, Nat.zero_add] at hstep
    rw [hstep]
    simp only [optionDispatch]
    simp only [List.length_append, put_length, List.length_cons, List.length_nil] at hrest
    simpa [ifTsOptions, ifTsresolOption] using hrest

theorem timesTen_pow : ∀ b, b < 20 → timesTen b 1 = 10 ^ b := by decide

theorem epb_ts_eq (e : Epb) (hh : e.tsHigh < 2 ^ 32) (hl : e.tsLow < 2 ^ 32) :
    e.ts = e.tsHigh * 2 ^ 32 + e.tsLow := by
  unfold Epb.ts
  rw [Nat.shiftLeft_eq, Nat.mod_eq_of_lt (by omega), Nat.mul_comm,
    ← Nat.mul_add_lt_is_or hl]

theorem toInt64_small (x : Nat) (h : x < 2 ^ 63) : toInt64 x = (x : Int) := by
  unfold toInt64
  rw [Nat.mod_eq_of_lt (by omega), if_pos h]

theorem timeUnix_normal (sec nsec : Int) (h0 : 0 ≤ nsec) (h1 : nsec < 1000000000) :
    timeUnix sec nsec = ⟨sec, nsec, .Local⟩ := by
  unfold timeUnix
  rw [if_neg (by omega)]

theorem decimal_scale (b t : Nat) (hb : b < 20) :
    ((t % 10 ^ b * (if 10 ^ b < 1000000000 then 1000000000 / 10 ^ b else 1)) % 2 ^ 64) /
        (if 10 ^ b < 1000000000 then 1 else 10 ^ b / 1000000000) =
      t % 10 ^ b * 10 ^ 9 / 10 ^ b ∧ t % 10 ^ b * 10 ^ 9 / 10 ^ b < 1000000000 := by
  interval_cases b <;> norm_num <;> omega

theorem epb_expected_decimal (b o : Nat) (e : Epb) (hb : b < 20) (hfit : e.fieldsFit)
    (hsum : (e.tsHigh * 2 ^ 32 + e.tsLow) / 10 ^ b + o < 2 ^ 63) :
    Epb.expected (timesTen b 1) o
        (if timesTen b 1 < 1000000000 then 1000000000 / timesTen b 1 else 1)
        (if timesTen b 1 < 1000000000 then 1 else timesTen b 1 / 1000000000) e =
      Epb.decimalExpected b o e := by
  obtain ⟨-, hh, hl, -, -⟩ := hfit
  obtain ⟨hs1, hs2⟩ := decimal_scale b (e.tsHigh * 2 ^ 32 + e.tsLow) hb
  unfold Epb.expected Epb.decimalExpected
  rw [timesTen_pow b hb, epb_ts_eq e hh hl, Nat.mod_eq_of_lt (by omega), hs1,
    toInt64_small _ hsum, toInt64_small _ (by omega),
    timeUnix_normal _ _ (by positivity) (by exact_mod_cast hs2)]

/-- C11: a supported Section Header Block, an Interface Description Block
whose options are at most `if_tsresol = b` (absent: `b = 6`) and
`if_tsoffset = o` (absent: `o = 0`) with `b <= 19`, and Enhanced Packet
Blocks on interface 0, in either byte order. Every block whose timestamp
`t = high * 2^32 + low` satisfies `t / 10^b + o < 2^63` is returned by `Next`
with Unix seconds `t / 10^b + o` and nanoseconds
`floor((t mod 10^b) * 10^9 / 10^b)`; the call after the last block returns
`io.EOF`. -/
theorem pcapng_decimal_capture_time (bo : ByteOrder)
    (minor sectionLen linkType reserved snaplen : Nat) (shbOpts : List Byte)
    (tsresol : Option Byte) (tsoffset : Option Nat) (endOfOpt : Bool) (e : Epb) (es : List Epb)
    (hminor : minor = 0 ∨ minor = 2) (hsl : sectionLen < 2 ^ 64)
    (hshb : 28 + shbOpts.length < 2 ^ 32) (hlt : linkType < 2 ^ 16) (hsnap : snaplen < 2 ^ 32)
    (hb : (tsresol.map Fin.val).getD 6 ≤ 19)
    (hfit : ∀ x ∈ e :: es, x.fieldsFit ∧ x.ifId = 0 ∧
      (x.tsHigh * 2 ^ 32 + x.tsLow) / 10 ^ (tsresol.map Fin.val).getD 6 + tsoffset.getD 0 <
        2 ^ 63) :
    decodePcapNg (shbBlock bo 1 minor sectionLen shbOpts ++
        (idbBlock bo linkType reserved snaplen (ifTsOptions bo tsresol tsoffset endOfOpt) ++
          encodeEpbs bo (e :: es))) ((e :: es).length + 1) =
      .ok (.ok ((e :: es).map
        (Epb.decimalExpected ((tsresol.map Fin.val).getD 6) (tsoffset.getD 0)) ++
          [.fail .EOF])) := by
  have ho : ∀ o, tsoffset = some o → o < 2 ^ 64 := by
    intro o h
    have := (hfit e (List.mem_cons_self e es)).2.2
    rw [h, Option.getD_some] at this
    exact lt_of_le_of_lt (Nat.le_add_left o _) (lt_trans this (by norm_num))
  have hlen := ifTsOptions_length bo tsresol tsoffset endOfOpt
  have hidb : 20 + (ifTsOptions bo tsresol tsoffset endOfOpt).length < 2 ^ 32 := by
    rw [hlen]
    have h1 : tsresol.toList.length ≤ 1 := by cases tsresol <;> simp
    have h2 : tsoffset.toList.length ≤ 1 := by cases tsoffset <;> simp
    split_ifs <;> omega
  rw [readPcapNg_epb_stream bo minor sectionLen linkType reserved snaplen shbOpts
    (ifTsOptions bo tsresol tsoffset endOfOpt) ⟨0, (tsresol.map Fin.val).getD 6, 0,
      tsoffset.getD 0⟩ e es hminor hsl hshb hlt hsnap hidb
    (optionLoop_ifTsOptions bo 0 tsresol tsoffset endOfOpt ho) (by show (tsresol.map Fin.val).getD 6 < 64; omega)
    (fun x hx => ⟨(hfit x hx).1, (hfit x hx).2.1⟩)]
  congr 2
  apply congrArg (fun l => l ++ [NextResult.fail Err.EOF])
  apply List.map_congr_left
  intro x hx
  exact epb_expected_decimal ((tsresol.map Fin.val).getD 6) (tsoffset.getD 0) x (by omega) (hfit x hx).1 (hfit x hx).2.2

theorem pcapng_decimal_capture_time_witness :
    ((0 = 0 ∨ 0 = 2) ∧ 0xFFFFFFFFFFFFFFFF < 2 ^ 64 ∧ 28 + ([] : List Byte).length < 2 ^ 32 ∧
      1 < 2 ^ 16 ∧ 65535 < 2 ^ 32 ∧ ((none : Option Byte).map Fin.val).getD 6 ≤ 19 ∧
      ∀ x ∈ [(⟨0, 0, 1000000, 100, [0xA1, 0xA2, 0xA3, 0xA4], []⟩ : Epb)],
        x.fieldsFit ∧ x.ifId = 0 ∧
          (x.tsHigh * 2 ^ 32 + x.tsLow) / 10 ^ ((none : Option Byte).map Fin.val).getD 6 +
            (none : Option Nat).getD 0 < 2 ^ 63) ∧
    decodePcapNg (shbBlock .LittleEndian 1 0 0xFFFFFFFFFFFFFFFF [] ++
        (idbBlock .LittleEndian 1 0 65535 (ifTsOptions .LittleEndian none none false) ++
          encodeEpbs .LittleEndian [⟨0, 0, 1000000, 100, [0xA1, 0xA2, 0xA3, 0xA4], []⟩])) 2 =
      .ok (.ok [.packet ⟨⟨1, 0, .Local⟩, 100⟩ [0xA1, 0xA2, 0xA3, 0xA4], .fail .EOF]) :=
  ⟨⟨Or.inl rfl, by decide, by decide, by decide, by decide, by decide,
      by simp [Epb.fieldsFit, Epb.totalLen]⟩,
    pcapng_decimal_capture_time .LittleEndian 0 0xFFFFFFFFFFFFFFFF 1 0 65535 [] none none false
      ⟨0, 0, 1000000, 100, [0xA1, 0xA2, 0xA3, 0xA4], []⟩ [] (Or.inl rfl) (by decide) (by decide)
      (by decide) (by decide) (by decide) (by simp [Epb.fieldsFit, Epb.totalLen])⟩

/-! ## PCAPNG: streams on which the decoder panics -/

/-- C12 (what the code does): four little-endian streams on which the decoder
panics. (1) A Section Header Block followed by two Enhanced Packet Blocks and
no Interface Description Block: `secondMask` is still 0 when `ngEPBReader`
computes `ts / p.secondMask`. (2) An Interface Description Block with
`if_tsresol = 64`: `10^64` is 0 modulo `2^64` and `1e9 / p.secondMask`
follows. (3) An Interface Description Block whose four option bytes announce
a value of length 1 that is not there: `options[4:5]` is out of range.
(4) An Interface Description Block of total length 16:
`make([]byte, 16 - 20)`. -/
theorem pcapng_panics :
    decodePcapNg (shbBlock .LittleEndian 1 0 0xFFFFFFFFFFFFFFFF [] ++
        encodeEpbs .LittleEndian [⟨0, 0, 1000000, 100, [0xA1, 0xA2, 0xA3, 0xA4], []⟩,
          ⟨0, 0, 2000000, 200, [0xB1, 0xB2, 0xB3, 0xB4], []⟩]) 1 = .error .divideByZero ∧
    decodePcapNg (shbBlock .LittleEndian 1 0 0xFFFFFFFFFFFFFFFF [] ++
        (idbBlock .LittleEndian 1 0 65535 [9, 0, 1, 0, 64, 0, 0, 0] ++
          encodeEpbs .LittleEndian [⟨0, 0, 1000000, 100, [0xA1, 0xA2, 0xA3, 0xA4], []⟩])) 1 =
      .error .divideByZero ∧
    decodePcapNg (shbBlock .LittleEndian 1 0 0xFFFFFFFFFFFFFFFF [] ++
        (idbBlock .LittleEndian 1 0 65535 [9, 0, 1, 0] ++
          encodeEpbs .LittleEndian [⟨0, 0, 1000000, 100, [0xA1, 0xA2, 0xA3, 0xA4], []⟩])) 1 =
      .error .sliceBounds ∧
    decodePcapNg (shbBlock .LittleEndian 1 0 0xFFFFFFFFFFFFFFFF [] ++
        (rawBlock .LittleEndian ngIDB [1, 0, 0, 0] ++
          encodeEpbs .LittleEndian [⟨0, 0, 1000000, 100, [0xA1, 0xA2, 0xA3, 0xA4], []⟩])) 1 =
      .error .makeNegativeLen :=
  ⟨rfl, rfl, rfl, rfl⟩

/-! ## PCAPNG: a Section Header Block of an unsupported version -/

theorem shbFixed_length (bo : ByteOrder) (blockLen major minor sectionLen : Nat) :
    (shbFixed bo blockLen major minor sectionLen).length = 20 := by
  simp [shbFixed, put_length]

theorem ngSHBReader_fixed (p : pcapng) (bo : ByteOrder) (blockLen major minor sectionLen : Nat)
    (tail : List Byte) (hbl : blockLen < 2 ^ 32) (hmaj : major < 2 ^ 16) (hmin : minor < 2 ^ 16)
    (hsl : sectionLen < 2 ^ 64)
    (hr : p.reader = shbFixed bo blockLen major minor sectionLen ++ tail) :
    ngSHBReader p =
      .ok ((pcapng.writeNInto
          { p with ifCounter := 0, ifId := ngUnsetIfId, snaplen := 0, secondMask := 0,
                   timeZone := 0, timeOffset := 0, sectionOffset := 20 % 2 ^ 64,
                   byteOrder := some bo, sectionLen := sectionLen, reader := tail }
          .Discard (shbDiscardAmount blockLen major minor sectionLen)).1,
        .ngRSBlockType, none) := by
  have hrf := pcapng_readFull_full
    { p with ifCounter := 0, ifId := ngUnsetIfId, snaplen := 0, secondMask := 0, timeZone := 0,
             timeOffset := 0, sectionOffset := 0 } _ tail 20
    (shbFixed_length bo blockLen major minor sectionLen) (by decide) hr
  have hbom : slice (shbFixed bo blockLen major minor sectionLen) 4 8 =
      bo.put 4 ngByteOrderMagic := by
    unfold shbFixed
    rw [slice_skip _ _ _ _ (by simp [put_length]), put_length,
      slice_head _ _ _ (by simp [put_length])]
  have hblock : bo.Uint32 (slice (shbFixed bo blockLen major minor sectionLen) 0 4) =
      blockLen := by
    unfold ByteOrder.Uint32 shbFixed
    rw [slice_head _ _ _ (by simp [put_length]), uintN_put]
    exact Nat.mod_eq_of_lt (by norm_num; omega)
  have hmajor : bo.Uint16 (slice (shbFixed bo blockLen major minor sectionLen) 8 10) =
      major := by
    unfold ByteOrder.Uint16 shbFixed
    rw [slice_skip _ _ _ _ (by simp [put_length]), put_length,
      slice_skip _ _ _ _ (by simp [put_length]), put_length,
      slice_head _ _ _ (by simp [put_length]), uintN_put]
    exact Nat.mod_eq_of_lt (by norm_num; omega)
  have hminorv : bo.Uint16 (slice (shbFixed bo blockLen major minor sectionLen) 10 12) =
      minor := by
    unfold ByteOrder.Uint16 shbFixed
    rw [slice_skip _ _ _ _ (by simp [put_length]), put_length,
      slice_skip _ _ _ _ (by simp [put_length]), put_length,
      slice_skip _ _ _ _ (by simp [put_length]), put_length,
      slice_head _ _ _ (by simp [put_length]), uintN_put]
    exact Nat.mod_eq_of_lt (by norm_num; omega)
  have hsec : bo.Uint64 (slice (shbFixed bo blockLen major minor sectionLen) 12 20) =
      sectionLen := by
    unfold ByteOrder.Uint64 shbFixed
    rw [slice_skip _ _ _ _ (by simp [put_length]), put_length,
      slice_skip _ _ _ _ (by simp [put_length]), put_length,
      slice_skip _ _ _ _ (by simp [put_length]), put_length,
      slice_skip _ _ _ _ (by simp [put_length]), put_length,
      slice_whole _ _ (by simp [put_length]), uintN_put]
    exact Nat.mod_eq_of_lt (by norm_num; omega)
  have horder : (if ByteOrder.BigEndian.Uint32 (bo.put 4 ngByteOrderMagic) = ngByteOrderMagic
      then some ByteOrder.BigEndian
      else if ByteOrder.LittleEndian.Uint32 (bo.put 4 ngByteOrderMagic) = ngByteOrderMagic
        then some ByteOrder.LittleEndian else none) = some bo := by
    cases bo <;> rfl
  unfold ngSHBReader
  simp only [hrf]
  simp only [isEOF, hbom, horder, hblock, hmajor, hminorv, hsec, shbFixed_length]
  simp [shbDiscardAmount]

theorem wrapInt64_small (x : Int) (h0 : 0 ≤ x) (h1 : x < 2 ^ 63) : wrapInt64 x = x := by
  unfold wrapInt64 toUint64
  have hx : (x % 2 ^ 64).toNat = x.toNat := by
    rw [Int.emod_eq_of_lt h0 (by omega)]
  rw [hx, toInt64_small _ (by omega)]
  omega

/-- When the discard amount of `ngSHBReader` is zero or negative, `io.CopyN`
copies nothing and the reader returns to block-type dispatch right after the
20 bytes it has read. -/
theorem ngSHBReader_nothing_discarded (p : pcapng) (bo : ByteOrder)
    (blockLen major minor sectionLen : Nat) (tail : List Byte) (hbl : blockLen < 2 ^ 32)
    (hmaj : major < 2 ^ 16) (hmin : minor < 2 ^ 16) (hsl : sectionLen < 2 ^ 64)
    (hneg : shbDiscardAmount blockLen major minor sectionLen ≤ 0)
    (hr : p.reader = shbFixed bo blockLen major minor sectionLen ++ tail) :
    ngSHBReader p =
      .ok ({ p with ifCounter := 0, ifId := ngUnsetIfId, snaplen := 0, secondMask := 0,
                    timeZone := 0, timeOffset := 0, sectionOffset := 20,
                    byteOrder := some bo, sectionLen := sectionLen, reader := tail },
        .ngRSBlockType, none) := by
  rw [ngSHBReader_fixed p bo blockLen major minor sectionLen tail hbl hmaj hmin hsl hr]
  simp only [pcapng.writeNInto, ioCopyN, hneg, if_true]
  rfl

/-! ## PCAPNG: sources that do not start with a Section Header Block -/

theorem bigEndian_tag (a b c d : Byte) (rest : List Byte)
    (h : ByteOrder.BigEndian.Uint32 (a :: b :: c :: d :: rest) = ngSHB) :
    a = 0x0A ∧ b = 0x0D ∧ c = 0x0D ∧ d = 0x0A := by
  simp only [ByteOrder.Uint32, ByteOrder.uintN, List.take, List.reverse_cons, List.reverse_nil,
    List.nil_append, List.cons_append, leNat, ngSHB] at h
  have ha := a.isLt
  have hb := b.isLt
  have hc := c.isLt
  have hd := d.isLt
  refine ⟨Fin.ext ?_, Fin.ext ?_, Fin.ext ?_, Fin.ext ?_⟩
  · show a.val = 10
    omega
  · show b.val = 13
    omega
  · show c.val = 13
    omega
  · show d.val = 10
    omega

/-- C14: on a byte source of fewer than four bytes, or whose first four bytes
are not `0A 0D 0D 0A`, `readPcapNg` returns no decoder: the error is
`ErrEmptyPcap` when the source is empty and `ErrMalformedPcap` otherwise. -/
theorem readPcapNg_rejects (src : List Byte)
    (h : src.length < 4 ∨ src.take 4 ≠ [0x0A, 0x0D, 0x0D, 0x0A]) :
    readPcapNg src =
      .ok (.error (if src = [] then .ErrEmptyPcap else .ErrMalformedPcap)) := by
  unfold readPcapNg
  match src, h with
  | [], _ => rfl
  | [_], _ => rfl
  | [_, _], _ => rfl
  | [_, _, _], _ => rfl
  | a :: b :: c :: d :: rest, h =>
    have hne : List.take 4 (a :: b :: c :: d :: rest) ≠ [0x0A, 0x0D, 0x0D, 0x0A] := by
      rcases h with h | h
      · simp only [List.length_cons] at h
        omega
      · exact h
    rw [ioReadFull_enough _ _ (by simp) (by simp)]
    have htag : ByteOrder.BigEndian.Uint32 (List.take (List.replicate 4 (0 : Byte)).length
        (a :: b :: c :: d :: rest)) ≠ ngSHB := by
      intro hh
      have := bigEndian_tag a b c d [] (by simpa using hh)
      apply hne
      simp [this.1, this.2.1, this.2.2.1, this.2.2.2]
    simp only [htag, ne_eq, not_false_eq_true, if_true]
    simp

theorem readPcapNg_rejects_witness :
    ((([] : List Byte).length < 4 ∨ ([] : List Byte).take 4 ≠ [0x0A, 0x0D, 0x0D, 0x0A]) ∧
      readPcapNg [] = .ok (.error .ErrEmptyPcap)) ∧
    ((([0x0A, 0x0D, 0x0D] : List Byte).length < 4 ∨
        ([0x0A, 0x0D, 0x0D] : List Byte).take 4 ≠ [0x0A, 0x0D, 0x0D, 0x0A]) ∧
      readPcapNg [0x0A, 0x0D, 0x0D] = .ok (.error .ErrMalformedPcap)) ∧
    ((([0x0A, 0x0D, 0x0D, 0x0B, 0x1C, 0, 0, 0] : List Byte).length < 4 ∨
        ([0x0A, 0x0D, 0x0D, 0x0B, 0x1C, 0, 0, 0] : List Byte).take 4 ≠
          [0x0A, 0x0D, 0x0D, 0x0A]) ∧
      readPcapNg [0x0A, 0x0D, 0x0D, 0x0B, 0x1C, 0, 0, 0] = .ok (.error .ErrMalformedPcap)) :=
  ⟨⟨Or.inl (by decide), readPcapNg_rejects [] (Or.inl (by decide))⟩,
    ⟨Or.inl (by decide), readPcapNg_rejects [0x0A, 0x0D, 0x0D] (Or.inl (by decide))⟩,
    ⟨Or.inr (by decide),
      readPcapNg_rejects [0x0A, 0x0D, 0x0D, 0x0B, 0x1C, 0, 0, 0] (Or.inr (by decide))⟩⟩

/-! ## PCAPNG: a block of a type that is not handled -/

/-- C15 (what the code does): a Section Header Block, an Interface Description
Block, a block of type 5 with total length 12, and one Enhanced Packet Block
on interface 0. In the big-endian stream `ngIgnoreBlockReader` takes the
total length with `Uint16` from the first two of its four bytes, reads 0,
discards nothing and dispatch goes on inside the block: `readPcapNg` ends
with `ErrMalformedPcap`. The little-endian stream of the same blocks is
decoded. -/
theorem pcapng_unknown_block_bigEndian :
    decodePcapNg (shbBlock .BigEndian 1 0 0xFFFFFFFFFFFFFFFF [] ++
        (idbBlock .BigEndian 1 0 65535 [] ++ (rawBlock .BigEndian 5 [] ++
          encodeEpbs .BigEndian [⟨0, 0, 1000000, 100, [0xA1, 0xA2, 0xA3, 0xA4], []⟩]))) 1 =
      .ok (.error .ErrMalformedPcap) ∧
    decodePcapNg (shbBlock .LittleEndian 1 0 0xFFFFFFFFFFFFFFFF [] ++
        (idbBlock .LittleEndian 1 0 65535 [] ++ (rawBlock .LittleEndian 5 [] ++
          encodeEpbs .LittleEndian [⟨0, 0, 1000000, 100, [0xA1, 0xA2, 0xA3, 0xA4], []⟩]))) 1 =
      .ok (.ok [.packet ⟨⟨1, 0, .Local⟩, 100⟩ [0xA1, 0xA2, 0xA3, 0xA4]]) :=
  ⟨rfl, rfl⟩

/-! ## PCAPNG: the Interface Description Block reader on a whole block -/

theorem ngIDBReader_body (p : pcapng) (bo : ByteOrder) (linkType reserved snaplen : Nat)
    (opts rest : List Byte) (hbo : p.byteOrder = some bo) (hlt : linkType < 2 ^ 16)
    (hsnap : snaplen < 2 ^ 32) (hlen : 20 + opts.length < 2 ^ 32)
    (hr : p.reader = idbBody bo linkType reserved snaplen opts ++ rest) :
    ngIDBReader p =
      if p.linkLayerType ≠ 0 ∧ p.linkLayerType ≠ linkType then
        ngIDBReaderTail
          { p with reader := bo.put 4 (20 + opts.length) ++ rest,
                   sectionOffset := ((p.sectionOffset + 12) % 2 ^ 64 + opts.length) % 2 ^ 64 }
      else
        match optionLoop bo p.ifNameHash opts (opts.length + 1) 0 ⟨0, 6, 0, 0⟩ with
        | .error a => .error a
        | .ok .ignoreInterface =>
          ngIDBReaderTail
            { p with reader := bo.put 4 (20 + opts.length) ++ rest,
                     sectionOffset := ((p.sectionOffset + 12) % 2 ^ 64 + opts.length) % 2 ^ 64 }
        | .ok (.adopt v) =>
          ngIDBReaderAdopt
            { p with reader := bo.put 4 (20 + opts.length) ++ rest,
                     sectionOffset := ((p.sectionOffset + 12) % 2 ^ 64 + opts.length) % 2 ^ 64 }
            linkType snaplen v := by
  have hr2 : p.reader = (bo.put 4 (20 + opts.length) ++ (bo.put 2 linkType ++
      (bo.put 2 reserved ++ bo.put 4 snaplen))) ++
        (opts ++ (bo.put 4 (20 + opts.length) ++ rest)) := by
    rw [hr]; simp only [idbBody, List.append_assoc]
  have hrf := pcapng_readFull_full p _ _ 12 (by simp [put_length]) (by decide) hr2
  have hblock : bo.Uint32 (slice (bo.put 4 (20 + opts.length) ++ (bo.put 2 linkType ++
      (bo.put 2 reserved ++ bo.put 4 snaplen))) 0 4) = 20 + opts.length := by
    unfold ByteOrder.Uint32
    rw [slice_head _ _ _ (by simp [put_length]), uintN_put]
    exact Nat.mod_eq_of_lt (by norm_num; omega)
  have hltv : bo.Uint16 (slice (bo.put 4 (20 + opts.length) ++ (bo.put 2 linkType ++
      (bo.put 2 reserved ++ bo.put 4 snaplen))) 4 6) = linkType := by
    unfold ByteOrder.Uint16
    rw [slice_skip _ _ _ _ (by simp [put_length]), put_length,
      slice_head _ _ _ (by simp [put_length]), uintN_put]
    exact Nat.mod_eq_of_lt (by norm_num; omega)
  have hsnapv : bo.Uint32 (slice (bo.put 4 (20 + opts.length) ++ (bo.put 2 linkType ++
      (bo.put 2 reserved ++ bo.put 4 snaplen))) 8 12) = snaplen := by
    unfold ByteOrder.Uint32
    rw [slice_skip _ _ _ _ (by simp [put_length]), put_length,
      slice_skip _ _ _ _ (by simp [put_length]), put_length,
      slice_skip _ _ _ _ (by simp [put_length]), put_length,
      slice_whole _ _ (by simp [put_length]), uintN_put]
    exact Nat.mod_eq_of_lt (by norm_num; omega)
  have hhl : (bo.put 4 (20 + opts.length) ++ (bo.put 2 linkType ++
      (bo.put 2 reserved ++ bo.put 4 snaplen))).length = 12 := by simp [put_length]
  have hrf2 := pcapng_readFull_exact
    { p with byteOrder := some bo, reader := opts ++ (bo.put 4 (20 + opts.length) ++ rest),
             sectionOffset := (p.sectionOffset + 12) % 2 ^ 64 }
    opts (bo.put 4 (20 + opts.length) ++ rest) opts.length rfl rfl
  have hneg : ¬ (((20 + opts.length : Nat) : Int) - (((12 : Nat) : Int) + 8) < 0) := by
    push_cast; omega
  have hsub : 20 + opts.length - (12 + 8) = opts.length := by omega
  unfold ngIDBReader
  simp only [hrf]
  simp only [isEOF, pcapng.order, hbo, bind, Except.bind, hblock, hltv, hsnapv, hhl, hneg,
    if_false, hsub, hrf2]
  rfl

theorem ngIDBReader_foreign (p : pcapng) (bo : ByteOrder) (linkType reserved snaplen : Nat)
    (opts rest : List Byte) (hbo : p.byteOrder = some bo) (hlt : linkType < 2 ^ 16)
    (hsnap : snaplen < 2 ^ 32) (hlen : 20 + opts.length < 2 ^ 32)
    (hT : p.linkLayerType ≠ 0) (hne : p.linkLayerType ≠ linkType)
    (hr : p.reader = idbBody bo linkType reserved snaplen opts ++ rest) :
    ngIDBReader p =
      .ok ({ p with reader := rest,
                    sectionOffset :=
                      (((p.sectionOffset + 12) % 2 ^ 64 + opts.length) % 2 ^ 64 + 4) % 2 ^ 64,
                    ifCounter := (p.ifCounter + 1) % 2 ^ 32 }, .ngRSBlockType, none) := by
  rw [ngIDBReader_body p bo linkType reserved snaplen opts rest hbo hlt hsnap hlen hr,
    if_pos ⟨hT, hne⟩, ngIDBReaderTail_ok (bo.put 4 (20 + opts.length)) rest (put_length _ _ _) _ rfl]

theorem timesTen_mod (n : Nat) : ∀ m, m < 2 ^ 64 → timesTen n m = (m * 10 ^ n) % 2 ^ 64 := by
  induction n with
  | zero =>
    intro m hm
    rw [timesTen, pow_zero, Nat.mul_one, Nat.mod_eq_of_lt hm]
  | succ n ih =>
    intro m hm
    rw [timesTen, ih _ (Nat.mod_lt _ (by norm_num)), Nat.mod_mul_mod, pow_succ]
    congr 1
    ring

/-- C16 (as the claim is written, refuted): an adopted Interface Description
Block with `if_tsresol = 20`. The loop `p.secondMask *= 10` runs in `uint64`:
the denominator after the block is `10^20 mod 2^64 = 7766279631452241920`,
not `10^20`. -/
theorem pcapng_decimal_secondMask_wraps :
    openedInterface (shbBlock .LittleEndian 1 0 0xFFFFFFFFFFFFFFFF [] ++
        (idbBlock .LittleEndian 1 0 65535 (ifTsOptions .LittleEndian (some 20) none true) ++
          encodeEpbs .LittleEndian [⟨0, 0, 16, 100, [0xA1, 0xA2, 0xA3, 0xA4], []⟩])) =
      some (1, 0, 65535, 1, 7766279631452241920) ∧ 7766279631452241920 ≠ 10 ^ 20 :=
  ⟨rfl, by decide⟩

/-- C16 (amended): an Interface Description Block that is adopted and carries
`if_tsresol = b` with the high bit clear and `b < 64` leaves the
second-fraction denominator at `10^b mod 2^64`, which is `10^b` for
`b <= 19`; the block gets the interface id of the counter before it. -/
theorem ngIDBReader_decimal_secondMask (p : pcapng) (bo : ByteOrder)
    (linkType reserved snaplen : Nat) (b : Byte) (tsoffset : Option Nat) (endOfOpt : Bool)
    (rest : List Byte) (hbo : p.byteOrder = some bo)
    (hllt : ¬ (p.linkLayerType ≠ 0 ∧ p.linkLayerType ≠ linkType)) (hlt : linkType < 2 ^ 16)
    (hsnap : snaplen < 2 ^ 32) (ho : ∀ o, tsoffset = some o → o < 2 ^ 64) (hb : b.val < 64)
    (hr : p.reader =
      idbBody bo linkType reserved snaplen (ifTsOptions bo (some b) tsoffset endOfOpt) ++ rest) :
    ∃ q, ngIDBReader p = .ok (q, .ngRSBlockType, none) ∧ q.ifId = p.ifCounter ∧
      q.secondMask = 10 ^ b.val % 2 ^ 64 ∧ (b.val ≤ 19 → q.secondMask = 10 ^ b.val) := by
  have hlen := ifTsOptions_length bo (some b) tsoffset endOfOpt
  have hidb : 20 + (ifTsOptions bo (some b) tsoffset endOfOpt).length < 2 ^ 32 := by
    rw [hlen]
    have h2 : tsoffset.toList.length ≤ 1 := by cases tsoffset <;> simp
    simp only [Option.toList_some, List.length_singleton]
    split_ifs <;> omega
  obtain ⟨q, hq, -, -, -, hid, hm, -⟩ := ngIDBReader_adopts p bo linkType reserved snaplen
    (ifTsOptions bo (some b) tsoffset endOfOpt) rest ⟨0, b.val, 0, tsoffset.getD 0⟩ hbo hllt hlt
    hsnap hidb (optionLoop_ifTsOptions bo p.ifNameHash (some b) tsoffset endOfOpt ho) hb
    (by rw [hr]; simp [idbBody])
  have hm2 : q.secondMask = 10 ^ b.val % 2 ^ 64 := by
    rw [hm, timesTen_mod _ 1 (by norm_num), Nat.one_mul]
  refine ⟨q, hq, hid, hm2, fun h19 => ?_⟩
  rw [hm2]
  apply Nat.mod_eq_of_lt
  calc 10 ^ b.val ≤ 10 ^ 19 := Nat.pow_le_pow_right (by norm_num) h19
    _ < 2 ^ 64 := by norm_num

theorem ngIDBReader_decimal_secondMask_witness :
    (9 : Byte).val < 64 ∧
    ∃ q, ngIDBReader (pcapng.inSection .ngRSIDB .BigEndian
          (idbBody .BigEndian 1 0 65535 (ifTsOptions .BigEndian (some 9) none true) ++ [])) =
        .ok (q, .ngRSBlockType, none) ∧
      q.ifId = (pcapng.inSection .ngRSIDB .BigEndian
          (idbBody .BigEndian 1 0 65535
            (ifTsOptions .BigEndian (some 9) none true) ++ [])).ifCounter ∧
      q.secondMask = 10 ^ (9 : Byte).val % 2 ^ 64 ∧
      ((9 : Byte).val ≤ 19 → q.secondMask = 10 ^ (9 : Byte).val) :=
  ⟨by decide,
    ngIDBReader_decimal_secondMask
      (pcapng.inSection .ngRSIDB .BigEndian
        (idbBody .BigEndian 1 0 65535 (ifTsOptions .BigEndian (some 9) none true) ++ []))
      .BigEndian 1 0 65535 9 none true [] rfl (by decide) (by decide) (by decide)
      (by intro o h; cases h) (by decide) rfl⟩

/-- A big-endian stream whose Interface Description Block carries
`if_tsresol = 0x83` (units of 1/8 s): `1 << 131` is 0 in `uint64` and
`readPcapNg` panics in `1e9 / p.secondMask`. -/
theorem pcapng_binary_tsresol_secondMask :
    decodePcapNg (shbBlock .BigEndian 1 0 0xFFFFFFFFFFFFFFFF [] ++
        (idbBlock .BigEndian 1 0 65535 (ifTsOptions .BigEndian (some 0x83) none true) ++
          encodeEpbs .BigEndian [⟨0, 0, 16, 100, [0xA1, 0xA2, 0xA3, 0xA4], []⟩])) 1 =
      .error .divideByZero := rfl

/-! ## Classic PCAP: the capture time -/

theorem timeUnix_sinceEpoch (sec nsec : Int) (hs0 : 0 ≤ sec) (hs1 : sec < 2 ^ 32)
    (hn0 : 0 ≤ nsec) (hn1 : nsec < 2 ^ 32) :
    (timeUnix sec nsec).UTC.sinceEpochNanos = sec * 1000000000 + nsec ∧
      (timeUnix sec nsec).UTC.loc = .UTC := by
  refine ⟨?_, rfl⟩
  unfold timeUnix Time.UTC Time.sinceEpochNanos
  by_cases h : nsec < 0 ∨ nsec ≥ 1000000000
  · rw [if_pos h]
    have hq : Int.tdiv nsec 1000000000 = nsec / 1000000000 :=
      Int.tdiv_eq_ediv hn0 (by norm_num)
    simp only [hq]
    have hq0 : 0 ≤ nsec / 1000000000 := Int.ediv_nonneg hn0 (by norm_num)
    have hq1 : nsec / 1000000000 ≤ 4 := by omega
    have hw := wrapInt64_small (sec + nsec / 1000000000) (by omega) (by omega)
    rw [hw]
    have hnn : ¬ (nsec - nsec / 1000000000 * 1000000000 < 0) := by omega
    simp only [hnn, if_false]
    ring
  · rw [if_neg h]

/-- C17 (as the claim is written, refuted): a microsecond file with one record
whose fields are `s = 0` and `u = 4294968`. The product `u * 1000` is taken
in `uint32` and wraps to 704: the capture time is 704 ns after the epoch,
not 4294968000 ns. -/
theorem pcap_subsecond_wraps :
    decodePcap (pcapFile .LittleEndian false 2 4 0 0 65535 1 [⟨0, 4294968, 0, 0, []⟩]) 1 =
        .ok (1, [.packet ⟨⟨0, 704, .UTC⟩, 0⟩ []]) ∧
      Time.sinceEpochNanos ⟨0, 704, .UTC⟩ ≠ 0 * 10 ^ 9 + 4294968 * 1000 :=
  ⟨rfl, by decide⟩

/-- C17 (amended): a live decoder with time factor `f` reads a record with
seconds `s` and sub-seconds `u`, `u * f < 2^32`: `Next` returns the capture
time `s * 10^9 + u * f` nanoseconds after the Unix epoch, in UTC. -/
theorem pcap_Next_capture_time (p : pcap) (r : Record) (rest : List Byte) (hd : p.dead = false)
    (hh : p.packetHeader.length = 16) (hdata : p.packetData.length = p.snaplen)
    (hr : p.reader = r.encode p.byteOrder ++ rest) (hcap : r.capLen = r.payload.length)
    (hfit : r.fieldsFit) (hle : r.capLen ≤ p.snaplen)
    (hmul : r.subsec * p.nanoSecsFactor < 2 ^ 32) :
    ∃ t, p.Next.1 = .packet ⟨t, r.origLen⟩ r.payload ∧
      t.sinceEpochNanos = (r.sec : Int) * 10 ^ 9 + (r.subsec : Int) * (p.nanoSecsFactor : Int) ∧
      t.loc = .UTC := by
  obtain ⟨hsec, hsub, hcl, hol⟩ := hfit
  rw [pcap_Next_record p r rest hd hh hdata hr hcap hcl hle]
  simp only [Nat.mod_eq_of_lt hsec, Nat.mod_eq_of_lt hsub, Nat.mod_eq_of_lt hol,
    Nat.mod_eq_of_lt hmul]
  obtain ⟨h1, h2⟩ := timeUnix_sinceEpoch (r.sec : Int) ((r.subsec * p.nanoSecsFactor : Nat) : Int)
    (by positivity) (by exact_mod_cast hsec) (by positivity) (by exact_mod_cast hmul)
  refine ⟨_, rfl, ?_, h2⟩
  rw [h1]
  push_cast
  ring

theorem pcap_Next_capture_time_witness :
    (⟨1, 1500000, 2, 60, [7, 8]⟩ : Record).subsec *
        (⟨false, (⟨1, 1500000, 2, 60, [7, 8]⟩ : Record).encode .BigEndian ++ [9], .BigEndian,
          4, 1, 1000, List.replicate 16 0, List.replicate 4 0⟩ : pcap).nanoSecsFactor < 2 ^ 32 ∧
    ∃ t, (pcap.Next ⟨false, (⟨1, 1500000, 2, 60, [7, 8]⟩ : Record).encode .BigEndian ++ [9],
          .BigEndian, 4, 1, 1000, List.replicate 16 0, List.replicate 4 0⟩).1 =
        .packet ⟨t, (⟨1, 1500000, 2, 60, [7, 8]⟩ : Record).origLen⟩
          (⟨1, 1500000, 2, 60, [7, 8]⟩ : Record).payload ∧
      t.sinceEpochNanos =
        ((⟨1, 1500000, 2, 60, [7, 8]⟩ : Record).sec : Int) * 10 ^ 9 +
          ((⟨1, 1500000, 2, 60, [7, 8]⟩ : Record).subsec : Int) *
            ((⟨false, (⟨1, 1500000, 2, 60, [7, 8]⟩ : Record).encode .BigEndian ++ [9],
              .BigEndian, 4, 1, 1000, List.replicate 16 0,
              List.replicate 4 0⟩ : pcap).nanoSecsFactor : Int) ∧
      t.loc = .UTC :=
  ⟨by decide,
    pcap_Next_capture_time
      ⟨false, (⟨1, 1500000, 2, 60, [7, 8]⟩ : Record).encode .BigEndian ++ [9], .BigEndian,
        4, 1, 1000, List.replicate 16 0, List.replicate 4 0⟩
      ⟨1, 1500000, 2, 60, [7, 8]⟩ [9] rfl rfl rfl rfl rfl
      ⟨by decide, by decide, by decide, by decide⟩ (by decide) (by decide)⟩

/-! ## PCAPNG: a Simple Packet Block with no interface locked -/

/-- The branch of `ngSPBReader` behind the test
`p.ifId == ngUnsetIfId && p.ifCounter > 0`: with the locked interface id
unset and an interface counter above 0, the reader consumes the whole Simple
Packet Block, leaves the packet-info slot and the packet buffer as they were
and returns the state `ngRSIgnoreSection` with no error. -/
theorem ngSPBReader_no_locked_interface (p : pcapng) (bo : ByteOrder) (origLen : Nat)
    (data rest : List Byte) (hbo : p.byteOrder = some bo) (hid : p.ifId = ngUnsetIfId)
    (hc : 0 < p.ifCounter) (hlen : 16 + data.length < 2 ^ 32)
    (hr : p.reader = bo.put 4 (16 + data.length) ++ (bo.put 4 origLen ++
      (data ++ (bo.put 4 (16 + data.length) ++ rest)))) :
    ngSPBReader p =
      .ok ({ p with reader := rest,
                    sectionOffset := ((p.sectionOffset + 8) % 2 ^ 64 + (data.length + 4)) % 2 ^ 64 },
        .ngRSIgnoreSection, none) := by
  have hr2 : p.reader = (bo.put 4 (16 + data.length) ++ bo.put 4 origLen) ++
      ((data ++ bo.put 4 (16 + data.length)) ++ rest) := by
    rw [hr]; simp only [List.append_assoc]
  have hrf := pcapng_readFull_full p _ _ 8 (by simp [put_length]) (by decide) hr2
  have hblock : bo.Uint32 (slice (bo.put 4 (16 + data.length) ++ bo.put 4 origLen) 0 4) =
      16 + data.length := by
    unfold ByteOrder.Uint32
    rw [slice_head _ _ _ (by simp [put_length]), uintN_put]
    exact Nat.mod_eq_of_lt (by norm_num; omega)
  have hamt : (((16 + data.length : Nat) : Int) -
      ((((bo.put 4 (16 + data.length) ++ bo.put 4 origLen).length + 4 : Nat)) : Int)) =
      (((data ++ bo.put 4 (16 + data.length)).length : Nat) : Int) := by
    simp only [List.length_append, put_length]
    push_cast
    ring
  unfold ngSPBReader
  simp only [hrf]
  simp only [isEOF, pcapng.order, hbo, bind, Except.bind, hblock, hid, hc, and_self, if_true]
  rw [pcapng_writeNInto_discard _ (data ++ bo.put 4 (16 + data.length)) rest _ hamt rfl]
  simp [put_length]

theorem ngSPBReader_no_locked_interface_witness :
    0 < ({ pcapng.inSection .ngRSSPB .LittleEndian
            (ByteOrder.LittleEndian.put 4 (16 + ([7, 8, 0, 0] : List Byte).length) ++
              (ByteOrder.LittleEndian.put 4 60 ++ ([7, 8, 0, 0] ++
                (ByteOrder.LittleEndian.put 4 (16 + ([7, 8, 0, 0] : List Byte).length) ++
                  [5])))) with ifCounter := 2 } : pcapng).ifCounter ∧
    ngSPBReader
        { pcapng.inSection .ngRSSPB .LittleEndian
            (ByteOrder.LittleEndian.put 4 (16 + ([7, 8, 0, 0] : List Byte).length) ++
              (ByteOrder.LittleEndian.put 4 60 ++ ([7, 8, 0, 0] ++
                (ByteOrder.LittleEndian.put 4 (16 + ([7, 8, 0, 0] : List Byte).length) ++
                  [5])))) with ifCounter := 2 } =
      .ok ({ pcapng.inSection .ngRSSPB .LittleEndian [5] with
              ifCounter := 2, sectionOffset := 16 }, .ngRSIgnoreSection, none) :=
  ⟨by decide,
    ngSPBReader_no_locked_interface
      { pcapng.inSection .ngRSSPB .LittleEndian
          (ByteOrder.LittleEndian.put 4 (16 + ([7, 8, 0, 0] : List Byte).length) ++
            (ByteOrder.LittleEndian.put 4 60 ++ ([7, 8, 0, 0] ++
              (ByteOrder.LittleEndian.put 4 (16 + ([7, 8, 0, 0] : List Byte).length) ++
                [5])))) with ifCounter := 2 }
      .LittleEndian 60 [7, 8, 0, 0] [5] rfl rfl (by decide) (by decide) rfl⟩

set_option maxRecDepth 16384 in
/-- C18 (what the code does): three little-endian streams in which a Simple
Packet Block is read while no interface is locked in its section.
(1) A Section Header Block and a Simple Packet Block, no Interface
Description Block: the interface counter is 0, the test
`p.ifId == ngUnsetIfId && p.ifCounter > 0` fails and `Next` returns the block
as a packet.
(2) A first section with one Enhanced Packet Block (the packet `A1 A2 A3 A4`
of size 100), then a section of unknown length with an Interface Description
Block of link-layer type 2, which is not adopted, and two Simple Packet
Blocks. For each of the two blocks `Next` returns the packet of the first
section once more, with a nil error: `ngSPBReader` has returned
`ngRSIgnoreSection`, the loop of `readTo(^ngRSData)` stops on any state
outside `ngRSData`, and `Next` hands out the packet slot as it is. The second
block is reached because `int64(p.sectionLen - p.sectionOffset)` is negative
and `ngIgnoreSectionReader` skips nothing.
(3) The same with a second section of length 88 that holds the Interface
Description Block and three Simple Packet Blocks of 20, 24 and 24 bytes, and
a third section with the packet `B1 B2 B3 B4`. After the first Simple Packet
Block 48 bytes of the section are left, `p.sectionOffset` is 64 (it counts 24
bytes of the Section Header Block) and 24 bytes are skipped: the third Simple
Packet Block is read, and the stale packet is returned twice before the
packet of the third section. -/
theorem pcapng_spb_no_locked_interface :
    decodePcapNg (shbBlock .LittleEndian 1 0 0xFFFFFFFFFFFFFFFF [] ++
        spbBlock .LittleEndian 60 [0xC1, 0xC2, 0xC3, 0xC4]) 1 =
      .ok (.ok [.packet ⟨Time.zero, 60⟩ [0xC1, 0xC2, 0xC3, 0xC4]]) ∧
    decodePcapNg (shbBlock .LittleEndian 1 0 0xFFFFFFFFFFFFFFFF [] ++
        (idbBlock .LittleEndian 1 0 65535 [] ++
          (encodeEpbs .LittleEndian [⟨0, 0, 1000000, 100, [0xA1, 0xA2, 0xA3, 0xA4], []⟩] ++
            (shbBlock .LittleEndian 1 0 0xFFFFFFFFFFFFFFFF [] ++
              (idbBlock .LittleEndian 2 0 65535 [] ++
                (spbBlock .LittleEndian 60 [0xC1, 0xC2, 0xC3, 0xC4] ++
                  spbBlock .LittleEndian 70 [0xD1, 0xD2, 0xD3, 0xD4])))))) 4 =
      .ok (.ok [.packet ⟨⟨1, 0, .Local⟩, 100⟩ [0xA1, 0xA2, 0xA3, 0xA4],
        .packet ⟨⟨1, 0, .Local⟩, 100⟩ [0xA1, 0xA2, 0xA3, 0xA4],
        .packet ⟨⟨1, 0, .Local⟩, 100⟩ [0xA1, 0xA2, 0xA3, 0xA4], .fail .EOF]) ∧
    decodePcapNg (shbBlock .LittleEndian 1 0 0xFFFFFFFFFFFFFFFF [] ++
        (idbBlock .LittleEndian 1 0 65535 [] ++
          (encodeEpbs .LittleEndian [⟨0, 0, 1000000, 100, [0xA1, 0xA2, 0xA3, 0xA4], []⟩] ++
            (shbBlock .LittleEndian 1 0 88 [] ++
              (idbBlock .LittleEndian 2 0 65535 [] ++
                (spbBlock .LittleEndian 60 [0xC1, 0xC2, 0xC3, 0xC4] ++
                  (spbBlock .LittleEndian 70 [0xD1, 0xD2, 0xD3, 0xD4, 0xD5, 0xD6, 0xD7, 0xD8] ++
                    (spbBlock .LittleEndian 80 [0xE1, 0xE2, 0xE3, 0xE4, 0xE5, 0xE6, 0xE7, 0xE8] ++
                      (shbBlock .LittleEndian 1 0 0xFFFFFFFFFFFFFFFF [] ++
                        (idbBlock .LittleEndian 1 0 65535 [] ++
                          encodeEpbs .LittleEndian
                            [⟨0, 0, 2000000, 200, [0xB1, 0xB2, 0xB3, 0xB4], []⟩])))))))))) 5 =
      .ok (.ok [.packet ⟨⟨1, 0, .Local⟩, 100⟩ [0xA1, 0xA2, 0xA3, 0xA4],
        .packet ⟨⟨1, 0, .Local⟩, 100⟩ [0xA1, 0xA2, 0xA3, 0xA4],
        .packet ⟨⟨1, 0, .Local⟩, 100⟩ [0xA1, 0xA2, 0xA3, 0xA4],
        .packet ⟨⟨2, 0, .Local⟩, 200⟩ [0xB1, 0xB2, 0xB3, 0xB4], .fail .EOF]) :=
  ⟨rfl, rfl, rfl⟩

/-! ## PCAPNG: the link-layer type once it is set -/

theorem holds_ok (r : ReaderResult) (P : pcapng → Prop) (h : r.holds P) (q : pcapng)
    (st : ngReaderState) (e : Option Err) (hr : r = .ok (q, st, e)) : P q := by
  subst hr
  exact h

theorem holds_mono (r : ReaderResult) (P Q : pcapng → Prop) (h : r.holds P)
    (hPQ : ∀ q, P q → Q q) : r.holds Q := by
  unfold ReaderResult.holds at h ⊢
  split
  · trivial
  · rename_i q st e
    exact hPQ q h

theorem readFull_linkLayerType (p : pcapng) (buff : List Byte) :
    (p.readFull buff).1.linkLayerType = p.linkLayerType := rfl

theorem writeNInto_linkLayerType (p : pcapng) (dst : Writer) (amount : Int) :
    (p.writeNInto dst amount).1.linkLayerType = p.linkLayerType := by
  unfold pcapng.writeNInto
  cases dst <;> rfl

theorem ngIDBReaderTail_linkLayerType (p : pcapng) :
    (ngIDBReaderTail p).holds (fun q => q.linkLayerType = p.linkLayerType) := by
  unfold ngIDBReaderTail
  simp only []
  split_ifs
  · exact writeNInto_linkLayerType _ _ _
  · exact writeNInto_linkLayerType _ _ _

theorem ngIDBReaderAdopt_linkLayerType (p : pcapng) (linkLayerType snaplen : Nat) (v : IfVars) :
    (ngIDBReaderAdopt p linkLayerType snaplen v).holds
      (fun q => q.linkLayerType = linkLayerType) := by
  unfold ngIDBReaderAdopt
  simp only []
  split_ifs
  all_goals first
    | exact ngIDBReaderTail_linkLayerType _
    | simp [ReaderResult.holds]

theorem ngIDBReader_linkLayerType (p : pcapng) (hT : p.linkLayerType ≠ 0) :
    (ngIDBReader p).holds (fun q => q.linkLayerType = p.linkLayerType) := by
  unfold ngIDBReader
  have hl := readFull_linkLayerType p (List.replicate 12 0)
  generalize p.readFull (List.replicate 12 0) = r at hl
  obtain ⟨q, headerStart, err⟩ := r
  simp only [pcapng.order, bind, Except.bind] at hl ⊢
  cases he : isEOF err
  · simp only [Bool.false_eq_true, if_false]
    cases hbo : q.byteOrder with
    | none => simp [ReaderResult.holds]
    | some bo =>
      simp only []
      have hl2 := readFull_linkLayerType q (List.replicate
          (bo.Uint32 (slice headerStart 0 4) - (headerStart.length + 8)) 0)
      generalize q.readFull (List.replicate
          (bo.Uint32 (slice headerStart 0 4) - (headerStart.length + 8)) 0) = r2 at hl2
      obtain ⟨q2, options, err2⟩ := r2
      simp only [] at hl2 ⊢
      have hq2 : q2.linkLayerType = p.linkLayerType := hl2.trans hl
      split_ifs with c1 c2 c3
      · simp [ReaderResult.holds]
      · exact hq2
      · have := ngIDBReaderTail_linkLayerType q2
        rw [hq2] at this
        exact this
      · have hsame : bo.Uint16 (slice headerStart 4 6) = p.linkLayerType := by
          rw [hq2] at c3
          by_contra hne
          exact c3 ⟨hT, fun h => hne h.symm⟩
        cases hol : optionLoop bo q2.ifNameHash options (options.length + 1) 0
            ⟨0, 6, 0, 0⟩ with
        | error a => simp [ReaderResult.holds]
        | ok sc =>
          cases sc with
          | adopt v =>
            have := ngIDBReaderAdopt_linkLayerType q2 (bo.Uint16 (slice headerStart 4 6))
              (bo.Uint32 (slice headerStart 8 12)) v
            rw [hsame] at this
            simpa [hsame] using this
          | ignoreInterface =>
            have := ngIDBReaderTail_linkLayerType q2
            rw [hq2] at this
            exact this
  · simp only [if_true]
    exact hl

theorem blockTypeReader_linkLayerType (p : pcapng) :
    (pcapngBlockTypeReader p).holds (fun q => q.linkLayerType = p.linkLayerType) := by
  unfold pcapngBlockTypeReader
  simp only [pcapng.order, bind, Except.bind]
  split
  · rfl
  · rfl
  · cases hbo : (p.readFull (List.replicate 4 0)).1.byteOrder with
    | none => simp [ReaderResult.holds]
    | some bo =>
      simp only []
      split_ifs <;> rfl

theorem ngIgnoreBlockReader_linkLayerType (p : pcapng) :
    (ngIgnoreBlockReader p).holds (fun q => q.linkLayerType = p.linkLayerType) := by
  unfold ngIgnoreBlockReader
  simp only [pcapng.order, bind, Except.bind]
  split_ifs
  · rfl
  · cases hbo : (p.readFull (List.replicate 4 0)).1.byteOrder with
    | none => simp [ReaderResult.holds]
    | some bo =>
      simp only []
      split_ifs
      · exact writeNInto_linkLayerType _ _ _
      · exact writeNInto_linkLayerType _ _ _

theorem ngIgnoreSectionReader_linkLayerType (p : pcapng) :
    (ngIgnoreSectionReader p).holds (fun q => q.linkLayerType = p.linkLayerType) := by
  unfold ngIgnoreSectionReader
  simp only []
  split_ifs <;> rfl

theorem ngSHBReader_linkLayerType (p : pcapng) :
    (ngSHBReader p).holds (fun q => q.linkLayerType = p.linkLayerType) := by
  unfold ngSHBReader
  simp only []
  split_ifs
  · rfl
  · exact writeNInto_linkLayerType _ _ _
  · exact writeNInto_linkLayerType _ _ _
  · rfl

theorem ngSPBReader_linkLayerType (p : pcapng) :
    (ngSPBReader p).holds (fun q => q.linkLayerType = p.linkLayerType) := by
  unfold ngSPBReader
  have hl := readFull_linkLayerType p (List.replicate 8 0)
  generalize p.readFull (List.replicate 8 0) = r at hl
  obtain ⟨q, buff, err⟩ := r
  simp only [pcapng.order, bind, Except.bind] at hl ⊢
  cases he : isEOF err
  · simp only [Bool.false_eq_true, if_false]
    cases hbo : q.byteOrder with
    | none => simp [ReaderResult.holds]
    | some bo =>
      simp only []
      split_ifs
      all_goals exact (writeNInto_linkLayerType _ _ _).trans hl
  · simp only [if_true]
    exact hl

theorem ngEPBReaderRest_linkLayerType (p : pcapng) (bo : ByteOrder) (buff : List Byte)
    (blockLen : Nat) :
    (ngEPBReaderRest p bo buff blockLen).holds (fun q => q.linkLayerType = p.linkLayerType) := by
  unfold ngEPBReaderRest
  simp only []
  split_ifs
  all_goals first
    | simp [ReaderResult.holds]; done
    | exact writeNInto_linkLayerType _ _ _

theorem ngEPBReader_linkLayerType (p : pcapng) :
    (ngEPBReader p).holds (fun q => q.linkLayerType = p.linkLayerType) := by
  unfold ngEPBReader
  simp only []
  have hl := readFull_linkLayerType { p with packetDataRaw := [] } (List.replicate 24 0)
  generalize { p with packetDataRaw := [] }.readFull (List.replicate 24 0) = r at hl
  obtain ⟨q, buff, err⟩ := r
  simp only [pcapng.order, bind, Except.bind] at hl ⊢
  cases he : isEOF err
  · simp only [Bool.false_eq_true, if_false]
    cases hbo : q.byteOrder with
    | none => simp [ReaderResult.holds]
    | some bo =>
      simp only []
      split_ifs
      · exact (writeNInto_linkLayerType _ _ _).trans hl
      · exact holds_mono _ _ _ (ngEPBReaderRest_linkLayerType _ _ _ _)
          (fun x hx => hx.trans ((writeNInto_linkLayerType _ _ _).trans hl))
      · exact holds_mono _ _ _ (ngEPBReaderRest_linkLayerType _ _ _ _)
          (fun x hx => hx.trans hl)
  · simp only [if_true]
    exact hl

theorem reader_linkLayerType (s : ngReaderState) (reader : pcapng → ReaderResult)
    (hs : stateToReader s = some reader) (p : pcapng) (hT : p.linkLayerType ≠ 0) :
    (reader p).holds (fun q => q.linkLayerType = p.linkLayerType) := by
  cases s <;> simp only [stateToReader, Option.some.injEq, reduceCtorEq] at hs <;> subst hs
  · exact ngIgnoreBlockReader_linkLayerType p
  · exact ngIgnoreSectionReader_linkLayerType p
  · exact blockTypeReader_linkLayerType p
  · exact ngIDBReader_linkLayerType p hT
  · exact ngSHBReader_linkLayerType p
  · exact ngSPBReader_linkLayerType p
  · exact ngEPBReader_linkLayerType p

theorem readToLoop_linkLayerType (stateMask : Nat) (fuel : Nat) :
    ∀ (p : pcapng) (err : Option Err) (r : pcapng × Option Err), p.linkLayerType ≠ 0 →
      pcapng.readToLoop stateMask fuel p err = .ok r → r.1.linkLayerType = p.linkLayerType := by
  induction fuel with
  | zero =>
    intro p err r _ h
    simp [pcapng.readToLoop] at h
  | succ f ih =>
    intro p err r hT h
    rw [pcapng.readToLoop] at h
    by_cases hg : p.readState.bits &&& stateMask = 0 ∧ p.readState ≠ .ngRSDone
    · rw [if_pos hg] at h
      cases hs : stateToReader p.readState with
      | none => simp [hs] at h
      | some reader =>
        simp only [hs] at h
        have hk := reader_linkLayerType p.readState reader hs p hT
        cases hr : reader p with
        | error a => simp [hr] at h
        | ok x =>
          obtain ⟨p1, st, e⟩ := x
          simp only [hr] at h
          have h1 : p1.linkLayerType = p.linkLayerType := holds_ok _ _ hk p1 st e hr
          have := ih { p1 with readState := st } e r (by simpa [h1] using hT) h
          exact this.trans h1
    · rw [if_neg hg] at h
      simp only [Except.ok.injEq] at h
      rw [← h]

theorem pcapng_Next_linkLayerType (p : pcapng) (hT : p.linkLayerType ≠ 0) (res : NextResult)
    (q : pcapng) (h : p.Next = .ok (res, q)) : q.LinkLayerType = p.LinkLayerType := by
  unfold pcapng.Next at h
  unfold pcapng.LinkLayerType
  by_cases hd : p.dead = true
  · simp only [hd, if_true, Except.ok.injEq, Prod.mk.injEq] at h
    rw [← h.2]
  · simp only [hd, Bool.false_eq_true, if_false] at h
    unfold pcapng.readTo at h
    cases h1 : pcapng.readToLoop ngRSData (3 * p.reader.length + 4) p none with
    | error a => simp [h1] at h
    | ok r1 =>
      obtain ⟨p1, e1⟩ := r1
      have k1 := readToLoop_linkLayerType _ _ p none _ hT h1
      simp only [] at k1
      cases e1 with
      | some e =>
        simp only [h1, Except.ok.injEq, Prod.mk.injEq] at h
        rw [← h.2, k1]
      | none =>
        simp only [h1] at h
        cases h2 : pcapng.readToLoop ngRSNotData (3 * p1.reader.length + 4) p1 none with
        | error a => simp [h2] at h
        | ok r2 =>
          obtain ⟨p2, e2⟩ := r2
          have k2 := readToLoop_linkLayerType _ _ p1 none _ (by rw [k1]; exact hT) h2
          simp only [] at k2
          cases e2 with
          | some e =>
            simp only [h2, Except.ok.injEq, Prod.mk.injEq] at h
            rw [← h.2, k2, k1]
          | none =>
            simp only [h2, Except.ok.injEq, Prod.mk.injEq] at h
            rw [← h.2, k2, k1]

/-- C19 (as the claim is written, refuted): a section whose first Interface
Description Block has link-layer type 0 and is adopted (interface id 0,
snapshot length 65535). A second block with link-layer type 1 passes the
test `p.linkLayerType != 0 && ...` and is adopted as well: `LinkLayerType()`
becomes 1, the locked interface id 1 and the snapshot length 1500. -/
theorem pcapng_linkType_zero_replaced :
    openedInterface (shbBlock .LittleEndian 1 0 0xFFFFFFFFFFFFFFFF [] ++
        (idbBlock .LittleEndian 0 0 65535 [] ++
          encodeEpbs .LittleEndian [⟨0, 0, 1000000, 100, [0xA1, 0xA2, 0xA3, 0xA4], []⟩])) =
      some (0, 0, 65535, 1, 1000000) ∧
    openedInterface (shbBlock .LittleEndian 1 0 0xFFFFFFFFFFFFFFFF [] ++
        (idbBlock .LittleEndian 0 0 65535 [] ++ (idbBlock .LittleEndian 1 0 1500 [] ++
          encodeEpbs .LittleEndian [⟨0, 0, 1000000, 100, [0xA1, 0xA2, 0xA3, 0xA4], []⟩]))) =
      some (1, 1, 1500, 2, 1000000) :=
  ⟨rfl, rfl⟩

/-- C19 (amended): for a decoder whose link-layer type `T` is set and not 0.
(1) Whatever bytes the Interface Description Block reader finds, if it
returns, `LinkLayerType()` is still `T`. (2) On a whole block whose
link-layer type differs from `T` it returns to block-type dispatch having
changed nothing but the read position and the interface counter: the block
is not adopted. (3) Whatever a call of `Next` reads, if it returns,
`LinkLayerType()` is still `T`. -/
theorem idb_keeps_linkLayerType (p : pcapng) (hT : p.linkLayerType ≠ 0) :
    (∀ q st e, ngIDBReader p = .ok (q, st, e) → q.LinkLayerType = p.LinkLayerType) ∧
    (∀ (bo : ByteOrder) (linkType reserved snaplen : Nat) (opts rest : List Byte),
      p.byteOrder = some bo → linkType < 2 ^ 16 → snaplen < 2 ^ 32 →
      20 + opts.length < 2 ^ 32 → linkType ≠ p.linkLayerType →
      p.reader = idbBody bo linkType reserved snaplen opts ++ rest →
      ngIDBReader p =
        .ok ({ p with reader := rest,
                      sectionOffset :=
                        (((p.sectionOffset + 12) % 2 ^ 64 + opts.length) % 2 ^ 64 + 4) % 2 ^ 64,
                      ifCounter := (p.ifCounter + 1) % 2 ^ 32 }, .ngRSBlockType, none)) ∧
    (∀ res q, p.Next = .ok (res, q) → q.LinkLayerType = p.LinkLayerType) := by
  refine ⟨?_, ?_, ?_⟩
  · intro q st e h
    exact holds_ok _ _ (ngIDBReader_linkLayerType p hT) q st e h
  · intro bo linkType reserved snaplen opts rest hbo hlt hsnap hlen hne hr
    exact ngIDBReader_foreign p bo linkType reserved snaplen opts rest hbo hlt hsnap hlen hT
      (fun h => hne h.symm) hr
  · intro res q h
    exact pcapng_Next_linkLayerType p hT res q h

theorem idb_keeps_linkLayerType_witness :
    ({ pcapng.inSection .ngRSIDB .LittleEndian (idbBody .LittleEndian 2 0 1500 [] ++ [5]) with
        linkLayerType := 1, ifCounter := 1, ifId := 0, snaplen := 65535 } : pcapng).linkLayerType
      ≠ 0 ∧
    ngIDBReader
        { pcapng.inSection .ngRSIDB .LittleEndian (idbBody .LittleEndian 2 0 1500 [] ++ [5]) with
          linkLayerType := 1, ifCounter := 1, ifId := 0, snaplen := 65535 } =
      .ok ({ pcapng.inSection .ngRSIDB .LittleEndian [5] with
              linkLayerType := 1, ifCounter := 2, ifId := 0, snaplen := 65535,
              sectionOffset := 16 }, .ngRSBlockType, none) :=
  ⟨by decide,
    (idb_keeps_linkLayerType
      { pcapng.inSection .ngRSIDB .LittleEndian (idbBody .LittleEndian 2 0 1500 [] ++ [5]) with
        linkLayerType := 1, ifCounter := 1, ifId := 0, snaplen := 65535 } (by decide)).2.1
      .LittleEndian 2 0 1500 [] [5] rfl (by decide) (by decide) (by decide) (by decide) rfl⟩

/-! ## PCAPNG: the interface counter -/

/-- C20 (as the claim is written, refuted): the interface counter is a `uint32`.
With the counter at `0xFFFFFFFF` a whole, adopted Interface Description Block
leaves the counter at 0, not at the counter before plus 1, and locks the
interface id `0xFFFFFFFF`, the value of `ngUnsetIfId`. -/
theorem ngIDBReader_counter_wraps :
    (ngIDBReader
        { pcapng.inSection .ngRSIDB .LittleEndian (idbBody .LittleEndian 1 0 65535 [] ++ []) with
          ifCounter := 0xFFFFFFFF }).counters =
      some (0, 0xFFFFFFFF, .ngRSBlockType) := rfl

/-- C20 (amended): on a whole Interface Description Block. (1) If the block is
not adopted (its link-layer type differs from the one that is set, or the
option loop ends at `ignoreInterface`), the reader returns to block-type
dispatch with the counter at `(before + 1) mod 2^32` and the locked interface
id unchanged. (2) If the option loop runs to its end and the resolution byte
is below 64, the block is adopted: the counter is `(before + 1) mod 2^32` and
the locked interface id is the counter before the increment. -/
theorem ngIDBReader_counter (p : pcapng) (bo : ByteOrder) (linkType reserved snaplen : Nat)
    (opts rest : List Byte) (hbo : p.byteOrder = some bo) (hlt : linkType < 2 ^ 16)
    (hsnap : snaplen < 2 ^ 32) (hlen : 20 + opts.length < 2 ^ 32)
    (hr : p.reader = idbBody bo linkType reserved snaplen opts ++ rest) :
    (((p.linkLayerType ≠ 0 ∧ p.linkLayerType ≠ linkType) ∨
        optionLoop bo p.ifNameHash opts (opts.length + 1) 0 ⟨0, 6, 0, 0⟩ = .ok .ignoreInterface) →
      ∃ q, ngIDBReader p = .ok (q, .ngRSBlockType, none) ∧ q.reader = rest ∧
        q.ifCounter = (p.ifCounter + 1) % 2 ^ 32 ∧ q.ifId = p.ifId) ∧
    (∀ v, ¬ (p.linkLayerType ≠ 0 ∧ p.linkLayerType ≠ linkType) →
      optionLoop bo p.ifNameHash opts (opts.length + 1) 0 ⟨0, 6, 0, 0⟩ = .ok (.adopt v) →
      v.timeResolution < 64 →
      ∃ q, ngIDBReader p = .ok (q, .ngRSBlockType, none) ∧ q.reader = rest ∧
        q.ifCounter = (p.ifCounter + 1) % 2 ^ 32 ∧ q.ifId = p.ifCounter) := by
  have hbody := ngIDBReader_body p bo linkType reserved snaplen opts rest hbo hlt hsnap hlen hr
  have htail := ngIDBReaderTail_ok (bo.put 4 (20 + opts.length)) rest (put_length _ _ _)
    { p with reader := bo.put 4 (20 + opts.length) ++ rest,
             sectionOffset := ((p.sectionOffset + 12) % 2 ^ 64 + opts.length) % 2 ^ 64 } rfl
  refine ⟨?_, ?_⟩
  · intro h
    by_cases hf : p.linkLayerType ≠ 0 ∧ p.linkLayerType ≠ linkType
    · rw [hbody, if_pos hf, htail]
      exact ⟨_, rfl, rfl, rfl, rfl⟩
    · rcases h with h | h
      · exact absurd h hf
      · rw [hbody, if_neg hf, h]
        simp only []
        rw [htail]
        exact ⟨_, rfl, rfl, rfl, rfl⟩
  · intro v hf hopt hres
    obtain ⟨q, hq, hqr, -, -, hid, -, -, -, -, -, -, hc⟩ := ngIDBReader_adopts p bo linkType
      reserved snaplen opts rest v hbo hf hlt hsnap hlen hopt hres
      (by rw [hr]; simp [idbBody])
    exact ⟨q, hq, hqr, hc, hid⟩

theorem ngIDBReader_counter_witness :
    ((¬ ((pcapng.inSection .ngRSIDB .BigEndian
            (idbBody .BigEndian 1 0 65535 (ifTsOptions .BigEndian (some 9) none true) ++
              [5])).linkLayerType ≠ 0 ∧
          (pcapng.inSection .ngRSIDB .BigEndian
            (idbBody .BigEndian 1 0 65535 (ifTsOptions .BigEndian (some 9) none true) ++
              [5])).linkLayerType ≠ 1)) ∧
      optionLoop .BigEndian 0 (ifTsOptions .BigEndian (some 9) none true)
          ((ifTsOptions .BigEndian (some 9) none true).length + 1) 0 ⟨0, 6, 0, 0⟩ =
        .ok (.adopt ⟨0, 9, 0, 0⟩) ∧
      (⟨0, 9, 0, 0⟩ : IfVars).timeResolution < 64) ∧
    ∃ q, ngIDBReader (pcapng.inSection .ngRSIDB .BigEndian
          (idbBody .BigEndian 1 0 65535 (ifTsOptions .BigEndian (some 9) none true) ++ [5])) =
        .ok (q, .ngRSBlockType, none) ∧ q.reader = [5] ∧
      q.ifCounter = ((pcapng.inSection .ngRSIDB .BigEndian
          (idbBody .BigEndian 1 0 65535 (ifTsOptions .BigEndian (some 9) none true) ++
            [5])).ifCounter + 1) % 2 ^ 32 ∧
      q.ifId = (pcapng.inSection .ngRSIDB .BigEndian
          (idbBody .BigEndian 1 0 65535 (ifTsOptions .BigEndian (some 9) none true) ++
            [5])).ifCounter :=
  ⟨⟨by decide, rfl, by decide⟩,
    (ngIDBReader_counter
      (pcapng.inSection .ngRSIDB .BigEndian
        (idbBody .BigEndian 1 0 65535 (ifTsOptions .BigEndian (some 9) none true) ++ [5]))
      .BigEndian 1 0 65535 (ifTsOptions .BigEndian (some 9) none true) [5] rfl (by decide)
      (by decide) (by decide) rfl).2 ⟨0, 9, 0, 0⟩ (by decide) rfl (by decide)⟩

/-! ## Classic PCAP: a record whose payload is cut short -/

theorem ioReadFull_short (r buf : List Byte) (h : r.length < buf.length) :
    (ioReadFull r buf).err = some (if r.length = 0 then .EOF else .ErrUnexpectedEOF) := by
  unfold ioReadFull
  have h1 : ¬ buf.length = 0 := by omega
  rw [if_neg h1]
  by_cases h0 : r.length = 0
  · rw [if_pos h0, if_pos h0]
  · rw [if_neg h0, if_pos h, if_neg h0]

theorem binaryRead_short (r data : List Byte) (h : r.length < data.length) :
    (binaryRead r data).1 = some (if r.length = 0 then .EOF else .ErrUnexpectedEOF) := by
  unfold binaryRead
  have he := ioReadFull_short r (List.replicate data.length 0)
    (by rw [List.length_replicate]; exact h)
  simp only [he]

/-- C21 (as the claim is written, refuted): a file whose only record has the
captured length 4 and ends right after the 16-byte record header. With zero
payload bytes `binary.Read` returns `io.EOF`, the case
`err == io.EOF && savedSize == 0` does not apply and `Next` returns
`ErrMalformedPcap`, not `io.EOF`. -/
theorem pcap_header_then_end :
    decodePcap (pcapFile .LittleEndian false 2 4 0 0 100 1 [⟨1, 2, 4, 60, []⟩]) 1 =
      .ok (1, [.fail .ErrMalformedPcap]) := rfl

/-- C21 (amended): a live decoder has read a complete 16-byte record header
with captured length `c`, `1 <= c <= snaplen`, and fewer than `c` payload
bytes are left in the input (any number from 0 to `c - 1`): `Next` returns
`ErrMalformedPcap` and the decoder is dead afterwards. -/
theorem pcap_Next_short_payload (p : pcap) (hdr avail : List Byte) (hd : p.dead = false)
    (hh : p.packetHeader.length = 16) (hdata : p.packetData.length = p.snaplen)
    (hl : hdr.length = 16) (hr : p.reader = hdr ++ avail)
    (hpos : 1 ≤ p.byteOrder.Uint32 (slice hdr 8 12))
    (hle : p.byteOrder.Uint32 (slice hdr 8 12) ≤ p.snaplen)
    (hshort : avail.length < p.byteOrder.Uint32 (slice hdr 8 12)) :
    p.Next.1 = .fail .ErrMalformedPcap ∧ p.Next.2.dead = true := by
  have hgen : ∀ c, c ≤ p.snaplen → (slice p.packetData 0 c).length = c := by
    intro c hc
    simp [slice, hdata, hc]
  have hlen := hgen _ hle
  have hb1 := binaryRead_short avail
    (slice p.packetData 0 (p.byteOrder.Uint32 (slice hdr 8 12))) (by rw [hlen]; exact hshort)
  have hnot : ¬ p.byteOrder.Uint32 (slice hdr 8 12) > p.snaplen := by omega
  have hne : ¬ p.byteOrder.Uint32 (slice hdr 8 12) = 0 := by omega
  unfold pcap.Next
  rw [hr, ioReadFull_full _ _ _ (by rw [hl, hh]) (by omega)]
  simp only [hd, pcap.packetSavedSize, hnot, hb1, hne, Bool.false_eq_true, if_false]
  by_cases h0 : avail.length = 0
  · simp [h0, pcap.Stop]
  · simp [h0, pcap.Stop]

theorem pcap_Next_short_payload_witness :
    (1 ≤ ByteOrder.BigEndian.Uint32
          (slice [0, 0, 0, 1, 0, 0, 0, 2, 0, 0, 0, 3, 0, 0, 0, 9] 8 12) ∧
      ByteOrder.BigEndian.Uint32
          (slice [0, 0, 0, 1, 0, 0, 0, 2, 0, 0, 0, 3, 0, 0, 0, 9] 8 12) ≤ 4 ∧
      ([7] : List Byte).length < ByteOrder.BigEndian.Uint32
          (slice [0, 0, 0, 1, 0, 0, 0, 2, 0, 0, 0, 3, 0, 0, 0, 9] 8 12)) ∧
    (pcap.Next ⟨false, [0, 0, 0, 1, 0, 0, 0, 2, 0, 0, 0, 3, 0, 0, 0, 9] ++ [7], .BigEndian, 4,
        1, 1000, List.replicate 16 0, List.replicate 4 0⟩).1 = .fail .ErrMalformedPcap ∧
    (pcap.Next ⟨false, [0, 0, 0, 1, 0, 0, 0, 2, 0, 0, 0, 3, 0, 0, 0, 9] ++ [7], .BigEndian, 4,
        1, 1000, List.replicate 16 0, List.replicate 4 0⟩).2.dead = true :=
  ⟨⟨by decide, by decide, by decide⟩,
    pcap_Next_short_payload
      ⟨false, [0, 0, 0, 1, 0, 0, 0, 2, 0, 0, 0, 3, 0, 0, 0, 9] ++ [7], .BigEndian, 4, 1, 1000,
        List.replicate 16 0, List.replicate 4 0⟩
      [0, 0, 0, 1, 0, 0, 0, 2, 0, 0, 0, 3, 0, 0, 0, 9] [7] rfl rfl rfl rfl rfl (by decide)
      (by decide) (by decide)⟩

/-- A file whose only record has the captured length 0 and ends right after
the record header: `binary.Read` into an empty slice reads nothing and
returns nil, so the first `Next` returns the record as a packet with no
bytes and the second returns `io.EOF`. The case
`err == io.EOF && savedSize == 0` of `Next` is never taken. -/
theorem pcap_zero_capture_at_end :
    decodePcap (pcapFile .LittleEndian false 2 4 0 0 100 1 [⟨1, 2, 0, 60, []⟩]) 2 =
      .ok (1, [.packet ⟨⟨1, 2000, .UTC⟩, 60⟩ [], .fail .EOF]) := rfl

/-! ## PCAPNG: the packet of a Simple Packet Block -/

theorem ngSPBReader_packet (p : pcapng) (bo : ByteOrder) (origLen : Nat)
    (data rest : List Byte) (hbo : p.byteOrder = some bo)
    (hg : ¬ (p.ifId = ngUnsetIfId ∧ p.ifCounter > 0)) (hol : origLen < 2 ^ 32)
    (hlen : 16 + data.length < 2 ^ 32)
    (hr : p.reader = bo.put 4 (16 + data.length) ++ (bo.put 4 origLen ++
      (data ++ (bo.put 4 (16 + data.length) ++ rest)))) :
    ngSPBReader p =
      .ok ({ p with reader := rest,
                    sectionOffset :=
                      (((p.sectionOffset + 8) % 2 ^ 64 + data.length) % 2 ^ 64 + 4) % 2 ^ 64,
                    packetDataRaw := data, packetInfo := ⟨Time.zero, origLen⟩ },
        .ngRSBlockType, none) := by
  have hr2 : p.reader = (bo.put 4 (16 + data.length) ++ bo.put 4 origLen) ++
      (data ++ (bo.put 4 (16 + data.length) ++ rest)) := by
    rw [hr]; simp only [List.append_assoc]
  have hrf := pcapng_readFull_full p _ _ 8 (by simp [put_length]) (by decide) hr2
  have hblock : bo.Uint32 (slice (bo.put 4 (16 + data.length) ++ bo.put 4 origLen) 0 4) =
      16 + data.length := by
    unfold ByteOrder.Uint32
    rw [slice_head _ _ _ (by simp [put_length]), uintN_put]
    exact Nat.mod_eq_of_lt (by norm_num; omega)
  have horig : bo.Uint32 (slice (bo.put 4 (16 + data.length) ++ bo.put 4 origLen) 4 8) =
      origLen := by
    unfold ByteOrder.Uint32
    rw [slice_skip _ _ _ _ (by simp [put_length]), put_length,
      slice_whole _ _ (by simp [put_length]), uintN_put]
    exact Nat.mod_eq_of_lt (by norm_num; omega)
  have hamt : (((16 + data.length : Nat) : Int) - 16) = ((data.length : Nat) : Int) := by
    push_cast; ring
  unfold ngSPBReader
  simp only [hrf]
  simp only [isEOF, pcapng.order, hbo, bind, Except.bind, hblock, horig, hg, if_false]
  rw [pcapng_writeNInto_buffer _ data (bo.put 4 (16 + data.length) ++ rest) _ hamt rfl]
  simp only []
  rw [pcapng_writeNInto_discard _ (bo.put 4 (16 + data.length)) rest 4
    (by rw [put_length]; rfl) rfl]
  simp [put_length]

/-- C22 (as the claim is written, refuted): a Section Header Block, an
Interface Description Block, an Enhanced Packet Block with timestamp 2000000
(capture time 2 s) and a Simple Packet Block with original length 60. The
packet returned for the Simple Packet Block has `Size` 60 and the zero
`time.Time` (January 1, year 1 UTC) as capture time, not the capture time of
the Enhanced Packet Block: `p.packetInfo = PacketInfo{Size: origPacketLen}`
replaces the whole slot. -/
theorem pcapng_spb_after_epb_zero_time :
    decodePcapNg (shbBlock .LittleEndian 1 0 0xFFFFFFFFFFFFFFFF [] ++
        (idbBlock .LittleEndian 1 0 65535 [] ++
          (encodeEpbs .LittleEndian [⟨0, 0, 2000000, 100, [0xA1, 0xA2, 0xA3, 0xA4], []⟩] ++
            spbBlock .LittleEndian 60 [0xC1, 0xC2, 0xC3, 0xC4]))) 2 =
      .ok (.ok [.packet ⟨⟨2, 0, .Local⟩, 100⟩ [0xA1, 0xA2, 0xA3, 0xA4],
        .packet ⟨⟨-62135596800, 0, .UTC⟩, 60⟩ [0xC1, 0xC2, 0xC3, 0xC4]]) ∧
      (⟨-62135596800, 0, .UTC⟩ : Time) ≠ ⟨2, 0, .Local⟩ :=
  ⟨rfl, by decide⟩

/-- C22 (amended): a live decoder at block-type dispatch, with an interface
locked or no Interface Description Block read in the section, meets a whole
Simple Packet Block. `Next` returns the bytes of the block as the packet,
with `Size` equal to the original-length field and the zero `time.Time` as
capture time, whatever the packet-info slot held before; the slot holds the
same values afterwards. -/
theorem pcapng_Next_simple_packet (p : pcapng) (bo : ByteOrder) (origLen : Nat)
    (data rest : List Byte) (hd : p.dead = false) (hs : p.readState = .ngRSBlockType)
    (hbo : p.byteOrder = some bo) (hg : ¬ (p.ifId = ngUnsetIfId ∧ p.ifCounter > 0))
    (hol : origLen < 2 ^ 32) (hlen : 16 + data.length < 2 ^ 32)
    (hr : p.reader = spbBlock bo origLen data ++ rest) :
    ∃ q, p.Next = .ok (.packet ⟨Time.zero, origLen⟩ data, q) ∧
      q.packetInfo = ⟨Time.zero, origLen⟩ ∧ q.reader = rest ∧
      q.readState = .ngRSBlockType := by
  have hr1 : p.reader = bo.put 4 ngSPB ++ (bo.put 4 (16 + data.length) ++ (bo.put 4 origLen ++
      (data ++ (bo.put 4 (16 + data.length) ++ rest)))) := by
    rw [hr]; simp only [spbBlock, List.append_assoc]
  have h1 := blockTypeReader_tag p bo ngSPB _ hbo hr1 (by decide)
  have hsel : (if ngSPB = ngSHB then ngReaderState.ngRSSHB else if ngSPB = ngIDB then .ngRSIDB
      else if ngSPB = ngSPB then .ngRSSPB else if ngSPB = ngEPB then .ngRSEPB
      else .ngRSIgnoreBlock) = .ngRSSPB := by decide
  rw [hsel] at h1
  have h2 := ngSPBReader_packet
    { p with reader := bo.put 4 (16 + data.length) ++ (bo.put 4 origLen ++
               (data ++ (bo.put 4 (16 + data.length) ++ rest))),
             sectionOffset := (p.sectionOffset + 4) % 2 ^ 64, readState := .ngRSSPB }
    bo origLen data rest hbo hg hol hlen rfl
  have s1 := readToLoop_step ngRSData 1 p _ none _ .ngRSBlockType _ pcapngBlockTypeReader hs
    (by decide) rfl h1
  have hloop1 := s1.trans (readToLoop_stop ngRSData 0 _ none .ngRSSPB rfl (by decide))
  have hrt1 := readTo_of_loop p ngRSData 2 _ hloop1 (by omega)
  have s2 := readToLoop_step ngRSNotData 1 _ _ none _ .ngRSSPB _ ngSPBReader rfl (by decide) rfl
    h2
  have hloop2 := s2.trans (readToLoop_stop ngRSNotData 0 _ none .ngRSBlockType rfl (by decide))
  have hrt2 := readTo_of_loop _ ngRSNotData 2 _ hloop2 (by simp only []; omega)
  unfold pcapng.Next
  rw [if_neg (by rw [hd]; decide)]
  simp only [hrt1, hrt2]
  exact ⟨_, rfl, rfl, rfl, rfl⟩

theorem pcapng_Next_simple_packet_witness :
    (¬ (({ pcapng.inSection .ngRSBlockType .LittleEndian
            (spbBlock .LittleEndian 60 [0xC1, 0xC2, 0xC3, 0xC4] ++ [5]) with
          ifId := 0, ifCounter := 1, secondMask := 1000000, tsScaleUp := 1000, tsScaleDown := 1,
          packetInfo := ⟨⟨2, 0, .Local⟩, 100⟩,
          packetDataRaw := [0xA1, 0xA2, 0xA3, 0xA4] } : pcapng).ifId = ngUnsetIfId ∧
        ({ pcapng.inSection .ngRSBlockType .LittleEndian
            (spbBlock .LittleEndian 60 [0xC1, 0xC2, 0xC3, 0xC4] ++ [5]) with
          ifId := 0, ifCounter := 1, secondMask := 1000000, tsScaleUp := 1000, tsScaleDown := 1,
          packetInfo := ⟨⟨2, 0, .Local⟩, 100⟩,
          packetDataRaw := [0xA1, 0xA2, 0xA3, 0xA4] } : pcapng).ifCounter > 0)) ∧
    ∃ q, pcapng.Next
        { pcapng.inSection .ngRSBlockType .LittleEndian
            (spbBlock .LittleEndian 60 [0xC1, 0xC2, 0xC3, 0xC4] ++ [5]) with
          ifId := 0, ifCounter := 1, secondMask := 1000000, tsScaleUp := 1000, tsScaleDown := 1,
          packetInfo := ⟨⟨2, 0, .Local⟩, 100⟩,
          packetDataRaw := [0xA1, 0xA2, 0xA3, 0xA4] } =
        .ok (.packet ⟨Time.zero, 60⟩ [0xC1, 0xC2, 0xC3, 0xC4], q) ∧
      q.packetInfo = ⟨Time.zero, 60⟩ ∧ q.reader = [5] ∧ q.readState = .ngRSBlockType :=
  ⟨by decide,
    pcapng_Next_simple_packet
      { pcapng.inSection .ngRSBlockType .LittleEndian
          (spbBlock .LittleEndian 60 [0xC1, 0xC2, 0xC3, 0xC4] ++ [5]) with
        ifId := 0, ifCounter := 1, secondMask := 1000000, tsScaleUp := 1000, tsScaleDown := 1,
        packetInfo := ⟨⟨2, 0, .Local⟩, 100⟩,
        packetDataRaw := [0xA1, 0xA2, 0xA3, 0xA4] }
      .LittleEndian 60 [0xC1, 0xC2, 0xC3, 0xC4] [5] rfl rfl rfl (by decide) (by decide)
      (by decide) rfl⟩

end Pcapreader
